import Mathlib

/-!
# ESPEasy: the bounded-memory streaming output channel and the AHTx sensor driver

A shallow embedding of `src/src/DataStructs/Web_StreamingBuffer.cpp` and of
`src/src/PluginStructs/P105_data_struct.cpp`, and the properties of the channel and of the
driver proved about them.

Build configuration embedded here
* `ARDUINO_ESP8266_RELEASE_2_3_0` is not defined: the web server does the chunked transfer
  encoding itself, and `sendContentBlocking` empties the string it has sent.
* `USE_SECOND_HEAP` is not defined.
* `BUILD_NO_DEBUG` and `BUILD_NO_RAM_TRACKER` are defined: the debug log line and the `checkRAM`
  calls, which do not touch the channel, are left out.
* The platform (`ESP8266`, or `ESP32` with its IDF major version) is a parameter: it selects
  `CHUNKED_BUFFER_SIZE` and the platform specific calls.

Conventions
* An Arduino `String` is the list of its bytes; appending to a `String` always succeeds.
* The class is declared in `Web_StreamingBuffer.h`, which is not among the sources. Its members
  are the ones the constructor initialises. The counters are 32 bit unsigned, like `length` in
  `sendContentBlocking`: they are natural numbers, reduced modulo `2 ^ 32` wherever the code does
  arithmetic on them.
* Calls to the web server, to the TCP clean-up and to the logger are recorded, in order, in the
  field `out`.
* What the surroundings answer (free heap readings, results of `String::reserve`, the millisecond
  clock, the active log level) is read from the field `env`. The clock advances by the argument
  of every `delay`.
* Loops are recursive functions with fuel. The fuel each caller passes is enough: the closed
  forms `addStringLoop_spec` and `addFlashStringLoop_spec` hold for every larger fuel, and
  `sendContentWait_enough` and `sendHeaderWait_enough` show that the wait loops end by their
  time-out before the fuel does.

Conventions of the driver
* The classes are declared in `P105_data_struct.h`, which is not among the sources. Their
  members are the ones the constructors initialise; `last_measurement` and `trigger_time` hold
  values of `millis()`, 32 bit unsigned.
* A `float` is the rational number it denotes, and every `float` operation returns the value
  of single precision (IEEE 754 binary32) nearest to its exact result, ties to even:
  `Float32.round`. Each operation of the source's expressions rounds on its own (no fused
  multiply-add). The sign of zero, infinities and NaN do not occur in `readData` and are not
  represented.
* What the I2C bus answers during one call of the driver is an argument, `AHTx_Bus`; the calls
  made to the bus and to the logger are returned, in order, as a list of `DriverCall`.
* `updateMeasurements` contains no `delay`: the clock `Env` is read, not advanced, within a
  call. `Settings.TaskDeviceTimer[task_index]` is the argument `TaskDeviceTimer`.
* With `BUILD_NO_DEBUG` defined the debug line with the measured values is left out.
-/

namespace ESPEasy

set_option maxRecDepth 100000

/-! ## The embedding of `Web_StreamingBuffer.cpp` -/

/-- One `char` of an Arduino `String`. -/
abbrev Byte := UInt8

/-- The build target. -/
inductive Platform where
  | ESP8266
  | ESP32 (idfMajor : Nat)
  deriving DecidableEq, Repr

/-- The macro `CHUNKED_BUFFER_SIZE`: 512 under `#ifdef ESP8266`, 1200 otherwise. -/
def CHUNKED_BUFFER_SIZE : Platform → Nat
  | .ESP8266 => 512
  | .ESP32 _ => 1200

/-- Arithmetic on `uint32_t` is modulo this number. -/
def UINT32_MOD : Nat := 4294967296

/-- Unsigned 32 bit addition. -/
def add32 (a b : Nat) : Nat := (a + b) % UINT32_MOD

/-- Unsigned 32 bit subtraction. -/
def sub32 (a b : Nat) : Nat := (a % UINT32_MOD + UINT32_MOD - b % UINT32_MOD) % UINT32_MOD

/-- The cast `(int32_t)` of a 32 bit unsigned value. -/
def toInt32 (a : Nat) : Int :=
  if a % UINT32_MOD < 2147483648 then (a % UINT32_MOD : Nat)
  else ((a % UINT32_MOD : Nat) : Int) - 4294967296

/-- Log levels used by the channel. -/
inductive LogLevel where
  | LOG_LEVEL_ERROR
  | LOG_LEVEL_INFO
  | LOG_LEVEL_DEBUG
  deriving DecidableEq, Repr

/-- A call made to an external collaborator (web server, its client, TCP clean-up, logger). -/
inductive Event where
  /-- Call `web_server.client().setNoDelay(b)`. -/
  | setNoDelay (b : Bool)
  /-- Call `web_server.client().setSSE(b)` (ESP32). -/
  | setSSE (b : Bool)
  /-- Call `web_server.send_P(code, content_type, content)`. -/
  | send_P (code : Int) (content_type : String) (content : String)
  /-- Call `tcpCleanup()` (ESP8266). -/
  | tcpCleanup
  /-- Call `web_server.client().PR_9453_FLUSH_TO_CLEAR()`. -/
  | clientFlush
  /-- Call `web_server.setContentLength(CONTENT_LENGTH_UNKNOWN)`. -/
  | setContentLengthUnknown
  /-- Call `web_server.sendHeader(name, value)`. -/
  | sendHeader (name : String) (value : String)
  /-- Call `web_server.enableCORS(b)`. -/
  | enableCORS (b : Bool)
  /-- Call `web_server.send(code, content_type, content)`. -/
  | send (code : Int) (content_type : String) (content : String)
  /-- Call `web_server.sendContent(data)`: one chunk handed to the transport. -/
  | sendContent (data : List Byte)
  /-- Call `addLog(level, concat(text, value))`. -/
  | addLog (level : LogLevel) (text : String) (value : Nat)
  deriving DecidableEq, Repr

/-- What the surroundings of the channel answer. -/
structure Env where
  /-- Milliseconds since boot; `millis()` returns it modulo `2 ^ 32`. -/
  now : Nat
  /-- The values the next calls of `ESP.getFreeHeap()` return. -/
  freeHeap : List Nat
  /-- The results of the next calls of `String::reserve`. -/
  reserveOk : List Bool
  /-- The answer of `loglevelActiveFor(LOG_LEVEL_ERROR)`. -/
  logError : Bool
  deriving DecidableEq, Repr

/-- The class `Web_StreamingBuffer`: the members that the constructor initialises and `buf`,
with the record `out` of the calls made and the surroundings `env`. -/
structure Web_StreamingBuffer where
  lowMemorySkip : Bool
  initialRam : Nat
  beforeTXRam : Nat
  duringTXRam : Nat
  finalRam : Nat
  maxCoreUsage : Nat
  maxServerUsage : Nat
  sentBytes : Nat
  flashStringCalls : Nat
  flashStringData : Nat
  buf : List Byte
  out : List Event
  env : Env
  deriving DecidableEq, Repr

/-- The constructor `Web_StreamingBuffer::Web_StreamingBuffer(void)`. -/
def Web_StreamingBuffer.new (env : Env) : Web_StreamingBuffer :=
  { lowMemorySkip := false, initialRam := 0, beforeTXRam := 0, duringTXRam := 0, finalRam := 0,
    maxCoreUsage := 0, maxServerUsage := 0, sentBytes := 0, flashStringCalls := 0,
    flashStringData := 0, buf := [], out := [],
    env := { env with reserveOk := env.reserveOk.tail } }

/-- The value `ESP.getFreeHeap()` returns next. -/
def peekFreeHeap (e : Env) : Nat := e.freeHeap.headD 0 % UINT32_MOD

/-- The surroundings after one call of `ESP.getFreeHeap()`. -/
def popFreeHeap (e : Env) : Env := { e with freeHeap := e.freeHeap.tail }

/-- The result the next `String::reserve` returns. -/
def peekReserve (e : Env) : Bool := e.reserveOk.headD true

/-- The surroundings after one call of `String::reserve`. -/
def popReserve (e : Env) : Env := { e with reserveOk := e.reserveOk.tail }

/-- The value of `millis()`. -/
def millis (e : Env) : Nat := e.now % UINT32_MOD

/-- The call `delay(ms)`: the clock advances by `ms`. -/
def delay (ms : Nat) (s : Web_StreamingBuffer) : Web_StreamingBuffer :=
  { s with env := { s.env with now := s.env.now + ms } }

/-- Modelled from the spec: `timePassedSince` of `Helpers/ESPEasy_time_calc.h`, which is not
among the sources: the signed 32 bit difference between the clock and a time stamp. -/
def timePassedSince (timestamp : Nat) (e : Env) : Int := toInt32 (sub32 (millis e) timestamp)

/-- Modelled from the spec: `timeOutReached` of `Helpers/ESPEasy_time_calc.h`, which is not
among the sources: the time stamp is not in the future. -/
def timeOutReached (timer : Nat) (e : Env) : Bool := decide (0 ≤ timePassedSince timer e)

/-- The source's `Web_StreamingBuffer::trackTotalMem`. -/
def trackTotalMem (s : Web_StreamingBuffer) : Web_StreamingBuffer :=
  let s := { s with beforeTXRam := peekFreeHeap s.env, env := popFreeHeap s.env }
  if sub32 s.initialRam s.beforeTXRam > s.maxServerUsage then
    { s with maxServerUsage := sub32 s.initialRam s.beforeTXRam }
  else s

/-- The source's `Web_StreamingBuffer::trackCoreMem`. -/
def trackCoreMem (s : Web_StreamingBuffer) : Web_StreamingBuffer :=
  let s := { s with duringTXRam := peekFreeHeap s.env, env := popFreeHeap s.env }
  if sub32 s.initialRam s.duringTXRam > s.maxCoreUsage then
    { s with maxCoreUsage := sub32 s.initialRam s.duringTXRam }
  else s

/-- The condition of the wait loop of `sendContentBlocking`, with the surroundings after its
evaluation: `(!data.reserve(CHUNKED_BUFFER_SIZE) || ESP.getFreeHeap() < 4000) &&
!timeOutReached(timeout)`, evaluated left to right with short circuit. -/
def sendContentWaitCond (timeout : Nat) (e : Env) : Bool × Env :=
  let ok := peekReserve e
  let e := popReserve e
  if !ok then
    (!timeOutReached timeout e, e)
  else
    let h := peekFreeHeap e
    let e := popFreeHeap e
    if h < 4000 then (!timeOutReached timeout e, e) else (false, e)

/-- The body of the wait loop of `sendContentBlocking`. -/
def sendContentWaitBody (s : Web_StreamingBuffer) : Web_StreamingBuffer :=
  let h := peekFreeHeap s.env
  let s := { s with env := popFreeHeap s.env }
  let s := if h < s.duringTXRam then
      { s with duringTXRam := peekFreeHeap s.env, env := popFreeHeap s.env }
    else s
  let s := trackCoreMem s
  delay 1 s

/-- The wait loop of `sendContentBlocking`; `fuel` bounds the number of evaluations of its
condition. -/
def sendContentWait (timeout : Nat) : Nat → Web_StreamingBuffer → Web_StreamingBuffer
  | 0, s => s
  | fuel + 1, s =>
    let c := sendContentWaitCond timeout s.env
    let s := { s with env := c.2 }
    if c.1 then sendContentWait timeout fuel (sendContentWaitBody s) else s

/-- The source's `Web_StreamingBuffer::sendContentBlocking(String& data)`; every call in the
source passes the member `buf` as `data`. The clock advances by one millisecond per round of
the wait loop, so the time-out of 100 ms ends it within 101 evaluations of its condition. -/
def sendContentBlocking (p : Platform) (s : Web_StreamingBuffer) : Web_StreamingBuffer :=
  let s := delay 0 s
  let length := s.buf.length % UINT32_MOD
  let freeBeforeSend := peekFreeHeap s.env
  let s := { s with env := popFreeHeap s.env }
  let s := if s.beforeTXRam > freeBeforeSend then { s with beforeTXRam := freeBeforeSend } else s
  let s := { s with duringTXRam := freeBeforeSend }
  let s := { s with out := s.out ++ [Event.sendContent s.buf] }
  let s := if s.buf.length > CHUNKED_BUFFER_SIZE p + 1 then { s with buf := [] }
    else { s with buf := [] }
  let timeout := add32 (millis s.env) 100
  let s := sendContentWait timeout 101 s
  let s := { s with sentBytes := add32 s.sentBytes length }
  delay 1 s

/-- The source's `Web_StreamingBuffer::flush`. -/
def flush (p : Platform) (s : Web_StreamingBuffer) : Web_StreamingBuffer :=
  if s.lowMemorySkip then
    { s with buf := [] }
  else
    if s.buf.length > 0 then sendContentBlocking p s else s

/-- The source's `Web_StreamingBuffer::checkFull`. -/
def checkFull (p : Platform) (s : Web_StreamingBuffer) : Web_StreamingBuffer :=
  let s := if s.lowMemorySkip then { s with buf := [] } else s
  if s.buf.length ≥ CHUNKED_BUFFER_SIZE p then flush p (trackTotalMem s) else s

/-- The source's `Web_StreamingBuffer::operator+=(char a)`. -/
def operatorPlusEq_char (p : Platform) (a : Byte) (s : Web_StreamingBuffer) :
    Web_StreamingBuffer :=
  let s := if s.buf.length ≥ CHUNKED_BUFFER_SIZE p then flush p s else s
  { s with buf := s.buf ++ [a] }

/-- The `while (pos < length)` loop of `addString`; `fuel` bounds the number of rounds. -/
def addStringLoop (p : Platform) (a : List Byte) :
    Nat → Nat → Int → Web_StreamingBuffer → Web_StreamingBuffer
  | 0, _, _, s => s
  | fuel + 1, pos, flush_step, s =>
    if pos < a.length then
      if flush_step ≤ 0 then
        addStringLoop p a fuel pos (CHUNKED_BUFFER_SIZE p) (flush p s)
      else
        let remaining : Int := (a.length : Int) - (pos : Int)
        let fetchLength : Int := if flush_step ≥ remaining then remaining else flush_step
        let s := { s with buf := s.buf ++ (a.drop pos).take fetchLength.toNat }
        addStringLoop p a fuel (pos + fetchLength.toNat) (flush_step - fetchLength) s
    else s

/-- The source's `Web_StreamingBuffer::addString(const String& a)`. Every second round of the
loop at least copies one byte, so `2 * length + 1` rounds are enough. -/
def addString (p : Platform) (a : List Byte) (s : Web_StreamingBuffer) : Web_StreamingBuffer :=
  if s.lowMemorySkip then s
  else
    let length := a.length
    if length = 0 then s
    else
      let s := checkFull p s
      let flush_step : Int := (CHUNKED_BUFFER_SIZE p : Int) - (s.buf.length : Int)
      let flush_step : Int := if flush_step < 1 then 0 else flush_step
      if length < flush_step.toNat then
        { s with buf := s.buf ++ a }
      else
        addStringLoop p a (2 * length + 1) 0 flush_step s

/-- The macro `pgm_read_byte(str + pos)`: a flash object is the listed bytes followed by its
terminating NUL; the source does not define reads past that, the model reads NUL there. -/
def pgm_read_byte (str : List Byte) (pos : Nat) : Byte := str.getD pos 0

/-- The `while (length != 0)` loop of `addFlashString`; `fuel` bounds the number of rounds. -/
def addFlashStringLoop (p : Platform) (str : List Byte) :
    Nat → Nat → Int → Int → Web_StreamingBuffer → Web_StreamingBuffer
  | 0, _, _, _, s => s
  | fuel + 1, pos, length, flush_step, s =>
    if length ≠ 0 then
      let s1 := if flush_step = 0 then flush p s else s
      let flush_step1 : Int := if flush_step = 0 then (CHUNKED_BUFFER_SIZE p : Int) else flush_step
      let c := pgm_read_byte str pos
      if c = 0 ∧ length < 0 then s1
      else
        addFlashStringLoop p str fuel (pos + 1) (length - 1) (flush_step1 - 1)
          { s1 with buf := s1.buf ++ [c], flashStringData := add32 s1.flashStringData 1 }
    else s

/-- The source's `Web_StreamingBuffer::addFlashString(PGM_P str, int length)`; `str = none` is
the null pointer. With an explicit length the loop makes `length` rounds; with a negative
length it stops at the first NUL, which is at index `str.length` at the latest. -/
def addFlashString (p : Platform) (str : Option (List Byte)) (length : Int)
    (s : Web_StreamingBuffer) : Web_StreamingBuffer :=
  match str with
  | none => s
  | some str =>
    let s := { s with flashStringCalls := add32 s.flashStringCalls 1 }
    if s.lowMemorySkip then s
    else
      let s := checkFull p s
      let flush_step : Int := (CHUNKED_BUFFER_SIZE p : Int) - (s.buf.length : Int)
      let flush_step : Int := if flush_step < 1 then 0 else flush_step
      addFlashStringLoop p str (length.toNat + str.length + 1) 0 length flush_step s

/-- The condition of the ESP8266 wait loop of `sendHeaderBlocking`, with the surroundings after
its evaluation. -/
def sendHeaderWaitCond (freeBeforeSend : Nat) (deadline : Nat) (e : Env) : Bool × Env :=
  let h := peekFreeHeap e
  let e := popFreeHeap e
  if h < freeBeforeSend then (!timeOutReached deadline e, e) else (false, e)

/-- The ESP8266 wait loop of `sendHeaderBlocking`; its body is `delay(1)`. -/
def sendHeaderWait (freeBeforeSend : Nat) (deadline : Nat) :
    Nat → Web_StreamingBuffer → Web_StreamingBuffer
  | 0, s => s
  | fuel + 1, s =>
    let c := sendHeaderWaitCond freeBeforeSend deadline s.env
    let s := { s with env := c.2 }
    if c.1 then sendHeaderWait freeBeforeSend deadline fuel (delay 1 s) else s

/-- The source's `Web_StreamingBuffer::sendHeaderBlocking`. -/
def sendHeaderBlocking (p : Platform) (allowOriginAll : Bool) (content_type : String)
    (origin : String) (httpCode : Int) (cacheable : Bool) (s : Web_StreamingBuffer) :
    Web_StreamingBuffer :=
  let _unused := allowOriginAll
  let s := { s with out := s.out ++ [Event.clientFlush] }
  let timeout : Nat := 100
  let freeBeforeSend := peekFreeHeap s.env
  let s := { s with env := popFreeHeap s.env }
  let beginWait := millis s.env
  let s := { s with out := s.out ++ [Event.setContentLengthUnknown] }
  let s := if !cacheable then
      { s with out := s.out ++ [Event.sendHeader "Cache-Control" "no-cache"] }
    else s
  let idf5 : Bool := match p with
    | .ESP8266 => false
    | .ESP32 idfMajor => decide (idfMajor > 4)
  let s := if idf5 && origin == "*" then
      { s with out := s.out ++ [Event.enableCORS true] }
    else if origin.length > 0 then
      let s := if idf5 then { s with out := s.out ++ [Event.enableCORS false] } else s
      { s with out := s.out ++ [Event.sendHeader "Access-Control-Allow-Origin" origin] }
    else s
  let s := { s with out := s.out ++ [Event.send httpCode content_type ""] }
  let s := match p with
    | .ESP8266 => sendHeaderWait freeBeforeSend (add32 beginWait timeout) 101 s
    | .ESP32 _ => s
  delay 0 s

/-- The source's five argument `Web_StreamingBuffer::startStream`. -/
def startStream (p : Platform) (allowOriginAll : Bool) (content_type : String)
    (origin : String) (httpCode : Int) (cacheable : Bool) (s : Web_StreamingBuffer) :
    Web_StreamingBuffer :=
  let s := { s with maxCoreUsage := 0, maxServerUsage := 0 }
  let s := { s with initialRam := peekFreeHeap s.env, env := popFreeHeap s.env }
  let s := { s with beforeTXRam := s.initialRam }
  let s := { s with sentBytes := 0 }
  let s := { s with buf := [] }
  let s := { s with env := popReserve s.env }
  let s := { s with out := s.out ++ [Event.setNoDelay true] }
  let s := match p with
    | .ESP8266 => s
    | .ESP32 _ => { s with out := s.out ++ [Event.setSSE false] }
  if s.beforeTXRam < 3000 then
    let s := { s with lowMemorySkip := true }
    let s := { s with out := s.out ++
      [Event.send_P 200 "text/plain" "Low memory. Cannot display webpage :-("] }
    match p with
    | .ESP8266 => { s with out := s.out ++ [Event.tcpCleanup] }
    | .ESP32 _ => s
  else
    sendHeaderBlocking p allowOriginAll content_type origin httpCode cacheable s

/-- The source's `Web_StreamingBuffer::endStream`. -/
def endStream (p : Platform) (s : Web_StreamingBuffer) : Web_StreamingBuffer :=
  let s :=
    if !s.lowMemorySkip then
      let s := if s.buf.length > 0 then sendContentBlocking p s else s
      let s := { s with buf := [] }
      let s := sendContentBlocking p s
      let s := { s with out := s.out ++ [Event.clientFlush] }
      { s with finalRam := peekFreeHeap s.env, env := popFreeHeap s.env }
    else
      let s := if s.env.logError then
          { s with out := s.out ++
            [Event.addLog LogLevel.LOG_LEVEL_ERROR "Webpage skipped: low memory: " s.finalRam] }
        else s
      { s with lowMemorySkip := false }
  delay 5 s

/-! ## What an observer of the transport sees -/

/-- The chunks handed to the transport by the recorded calls, in order. -/
def chunksOf : List Event → List (List Byte)
  | [] => []
  | Event.sendContent d :: es => d :: chunksOf es
  | _ :: es => chunksOf es

/-- The chunks the channel has handed to the transport so far. -/
def chunks (s : Web_StreamingBuffer) : List (List Byte) := chunksOf s.out

/-- The bytes the channel has handed to the transport so far. -/
def transmitted (s : Web_StreamingBuffer) : List Byte := (chunks s).flatten

/-- The fields that memory tracking and waiting do not write are the same in `s` and `t`. -/
structure Frame (s t : Web_StreamingBuffer) : Prop where
  lowMemorySkip : t.lowMemorySkip = s.lowMemorySkip
  initialRam : t.initialRam = s.initialRam
  finalRam : t.finalRam = s.finalRam
  sentBytes : t.sentBytes = s.sentBytes
  flashStringCalls : t.flashStringCalls = s.flashStringCalls
  flashStringData : t.flashStringData = s.flashStringData
  buf : t.buf = s.buf
  out : t.out = s.out

/-- Going from `s` to `t` hands exactly the chunks `cs` to the transport, makes no other
recorded call, counts their bytes in `sentBytes` and keeps the mode and the flash counters. -/
structure Emits (s t : Web_StreamingBuffer) (cs : List (List Byte)) : Prop where
  lowMemorySkip : t.lowMemorySkip = s.lowMemorySkip
  flashStringCalls : t.flashStringCalls = s.flashStringCalls
  flashStringData : t.flashStringData = s.flashStringData
  out : t.out = s.out ++ cs.map Event.sendContent
  sentBytes : t.sentBytes =
    if cs = [] then s.sentBytes else (s.sentBytes + cs.flatten.length) % UINT32_MOD

/-- The number of chunks sent when the bytes `d` pass through a buffer of `c` bytes: the pieces
of `c` bytes but the last. -/
def sliceCount (c : Nat) (d : List Byte) : Nat := (d.length - 1) / c

/-- The pieces of `c` bytes that are sent when the bytes `d` pass through the buffer. -/
def slices (c : Nat) (d : List Byte) : List (List Byte) :=
  (List.range (sliceCount c d)).map (fun i => (d.drop (i * c)).take c)

/-- The last piece, which stays in the buffer. -/
def sliceRest (c : Nat) (d : List Byte) : List Byte := d.drop (sliceCount c d * c)

/-- Going from `s` to `t` hands exactly the chunks `cs` to the transport, makes no other
recorded call, counts their bytes in `sentBytes` and keeps the mode. -/
structure Sends (s t : Web_StreamingBuffer) (cs : List (List Byte)) : Prop where
  lowMemorySkip : t.lowMemorySkip = s.lowMemorySkip
  out : t.out = s.out ++ cs.map Event.sendContent
  sentBytes : t.sentBytes =
    if cs = [] then s.sentBytes else (s.sentBytes + cs.flatten.length) % UINT32_MOD

/-- The bytes `addFlashString` copies when it starts reading at `pos`: with a negative
`length` the bytes before the first NUL, otherwise the next `length` bytes. -/
def flashFragment (str : List Byte) (pos : Nat) (length : Int) : List Byte :=
  if length < 0 then (str.drop pos).takeWhile (fun c => c != 0)
  else (List.range length.toNat).map (fun i => pgm_read_byte str (pos + i))

/-- The chunks `addFlashString` sends when the bytes `d` pass through the buffer: the pieces of
`c` bytes but the last, and with a negative `length` also a last piece that fills the buffer,
which is flushed when the terminating NUL is read. -/
def flashChunks (c : Nat) (length : Int) (d : List Byte) : List (List Byte) :=
  slices c d ++ (if length < 0 ∧ (sliceRest c d).length = c then [sliceRest c d] else [])

/-- The bytes `addFlashString` leaves in the buffer. -/
def flashRest (c : Nat) (length : Int) (d : List Byte) : List Byte :=
  if length < 0 ∧ (sliceRest c d).length = c then [] else sliceRest c d

/-- The chunk sent by the flush of a buffer `b` that has reached the capacity `c`. -/
def fullChunk (c : Nat) (b : List Byte) : List (List Byte) := if c ≤ b.length then [b] else []

/-- The buffer `b` after the flush that happens when it has reached the capacity `c`. -/
def fullRest (c : Nat) (b : List Byte) : List Byte := if c ≤ b.length then [] else b

/-- The calls `sendHeaderBlocking` makes to the web server and its client. -/
def headerEvents (p : Platform) (content_type : String) (origin : String) (httpCode : Int)
    (cacheable : Bool) : List Event :=
  let idf5 : Bool := match p with
    | .ESP8266 => false
    | .ESP32 idfMajor => decide (idfMajor > 4)
  [Event.clientFlush, Event.setContentLengthUnknown] ++
  (if !cacheable then [Event.sendHeader "Cache-Control" "no-cache"] else []) ++
  (if idf5 && origin == "*" then [Event.enableCORS true]
   else if origin.length > 0 then
     (if idf5 then [Event.enableCORS false] else []) ++
       [Event.sendHeader "Access-Control-Allow-Origin" origin]
   else []) ++
  [Event.send httpCode content_type ""]

/-- The calls `startStream` makes before it looks at the free memory. -/
def startEvents (p : Platform) : List Event :=
  match p with
  | .ESP8266 => [Event.setNoDelay true]
  | .ESP32 _ => [Event.setNoDelay true, Event.setSSE false]

/-- The fixed fallback response of the low-memory mode. -/
def fallbackResponse : Event :=
  Event.send_P 200 "text/plain" "Low memory. Cannot display webpage :-("

/-- The calls `startStream` makes when it enters the low-memory mode. -/
def fallbackEvents (p : Platform) : List Event :=
  match p with
  | .ESP8266 => [fallbackResponse, Event.tcpCleanup]
  | .ESP32 _ => [fallbackResponse]

/-- A call of one of the append operations or of `flush`. -/
inductive Call where
  | char (a : Byte)
  | string (a : List Byte)
  | flashString (str : Option (List Byte)) (length : Int)
  | flush
  deriving DecidableEq, Repr

/-- The effect of a call on the channel. -/
def Call.run (p : Platform) : Call → Web_StreamingBuffer → Web_StreamingBuffer
  | .char a, s => operatorPlusEq_char p a s
  | .string a, s => addString p a s
  | .flashString str length, s => addFlashString p str length s
  | .flush, s => ESPEasy.flush p s

/-- The bytes a call appends to the stream. -/
def Call.fragment : Call → List Byte
  | .char a => [a]
  | .string a => a
  | .flashString none _ => []
  | .flashString (some str) length => flashFragment str 0 length
  | .flush => []

/-- The effect of a sequence of calls, made in order. -/
def runCalls (p : Platform) (calls : List Call) (s : Web_StreamingBuffer) :
    Web_StreamingBuffer :=
  calls.foldl (fun t c => c.run p t) s

/-- The bytes a sequence of calls appends to the stream. -/
def fragments (calls : List Call) : List Byte := (calls.map Call.fragment).flatten

/-- The calls that `sendHeaderBlocking` makes to send the response headers. -/
def Event.isHeaderCall : Event → Bool
  | Event.setContentLengthUnknown => true
  | Event.sendHeader _ _ => true
  | Event.enableCORS _ => true
  | Event.send _ _ _ => true
  | _ => false

/-- Going from `s` to `t` lowers neither high-water mark of the memory tracking. -/
structure Grows (s t : Web_StreamingBuffer) : Prop where
  maxCoreUsage : s.maxCoreUsage ≤ t.maxCoreUsage
  maxServerUsage : s.maxServerUsage ≤ t.maxServerUsage

/-- The channel `s` with its two flash counters replaced. -/
def withFlash (s : Web_StreamingBuffer) (calls data : Nat) : Web_StreamingBuffer :=
  { s with flashStringCalls := calls, flashStringData := data }

/-- A 32 bit counter after `n` increments. -/
def bump32 : Nat → Nat → Nat
  | 0, d => d
  | n + 1, d => bump32 n (add32 d 1)

/-- The channel at the moment the wait loop of `sendContentBlocking` starts: the chunk has been
handed to the transport and `buf` is empty. `sendContentBlocking_eq` states how
`sendContentBlocking` continues from there. -/
def sendContentPrepare (s : Web_StreamingBuffer) : Web_StreamingBuffer :=
  let s := delay 0 s
  let freeBeforeSend := peekFreeHeap s.env
  let s := { s with env := popFreeHeap s.env }
  let s := if s.beforeTXRam > freeBeforeSend then { s with beforeTXRam := freeBeforeSend } else s
  let s := { s with duringTXRam := freeBeforeSend }
  let s := { s with out := s.out ++ [Event.sendContent s.buf] }
  { s with buf := [] }

/-! ## The scenarios of the specification, as concrete inputs -/

/-- Surroundings in which every reading of the free heap is `f`. -/
def scenarioEnv (f : Nat) : Env :=
  { now := 0, freeHeap := List.replicate 64 f, reserveOk := [], logError := true }

/-- A channel on the ESP8266 right after `startStream`, with `f` bytes of free heap. -/
def scenarioStart (f : Nat) : Web_StreamingBuffer :=
  startStream Platform.ESP8266 false "text/html" "" 200 false
    (Web_StreamingBuffer.new (scenarioEnv f))

/-- Scenario D after its first two appends of 200 bytes. -/
def scenarioD2 : Web_StreamingBuffer :=
  addString Platform.ESP8266 (List.replicate 200 65)
    (addString Platform.ESP8266 (List.replicate 200 65) (scenarioStart 20000))

/-- A stream of 8388608 appends of 512 bytes each: 4 GiB in all. -/
def longStream : List Call := List.replicate 8388608 (Call.string (List.replicate 512 65))

/-- Ten appends, as in Scenario C. -/
def tenAppends : List Call :=
  [Call.string [72, 105], Call.char 33, Call.flashString (some [60, 98, 114, 62]) (-1),
   Call.string (List.replicate 600 65), Call.char 10, Call.flashString (some [1, 0, 2]) 3,
   Call.string [], Call.char 0, Call.flashString none (-1), Call.string [79, 75]]

/-- A normal-mode channel whose `sentBytes` is at the top of the 32 bit range, with one byte
buffered. -/
def scenarioTop : Web_StreamingBuffer :=
  { scenarioStart 20000 with sentBytes := 4294967295, buf := [65] }

/-- A normal-mode channel whose flash counters are at the top of the 32 bit range. -/
def scenarioFlashTop : Web_StreamingBuffer :=
  { scenarioStart 20000 with flashStringCalls := 4294967295, flashStringData := 4294967295 }

/-- A channel that is still in low-memory mode (no `endStream` after a start with 2000 bytes
free) while the free heap has recovered to 20000 bytes. -/
def scenarioSticky : Web_StreamingBuffer :=
  { scenarioStart 2000 with env := scenarioEnv 20000 }

/-- A normal-mode channel with two bytes buffered whose surroundings refuse every
`String::reserve`, so that the wait of `sendContentBlocking` runs into its time-out. -/
def scenarioStarved : Web_StreamingBuffer :=
  { scenarioStart 20000 with
    buf := [72, 105],
    env := { now := 7, freeHeap := [], reserveOk := List.replicate 200 false,
             logError := true } }

/-- A channel in the middle of a stream: 20000 bytes were free at `startStream`, the next
readings of the free heap are 15000. -/
def scenarioTracking : Web_StreamingBuffer :=
  { scenarioStart 20000 with env := scenarioEnv 15000 }

/-! ## The embedding of `P105_data_struct.cpp` -/

/-- The struct `AHTx_Status`: the status byte of the sensor, a `uint8_t`. -/
structure AHTx_Status where
  status : Nat
  deriving DecidableEq, Repr

/-- The constructor `AHTx_Status(uint8_t stat)`. -/
def AHTx_Status.ofByte (stat : Nat) : AHTx_Status := { status := stat % 256 }

/-- The source's `AHTx_Status::valid`. -/
def AHTx_Status.valid (st : AHTx_Status) : Bool := st.status != 0xFF

/-- The source's `AHTx_Status::calibrated`. -/
def AHTx_Status.calibrated (st : AHTx_Status) : Bool := (st.status &&& (1 <<< 3)) != 0

/-- The source's `AHTx_Status::busy`. -/
def AHTx_Status.busy (st : AHTx_Status) : Bool := (st.status &&& (1 <<< 7)) != 0

/-- The enumeration `AHTx_device_type`. -/
inductive AHTx_device_type where
  | AHT10_DEVICE
  | AHT20_DEVICE
  | AHT21_DEVICE
  deriving DecidableEq, Repr

/-- The enumeration `AHTx_state`, the phase of the driver. -/
inductive AHTx_state where
  | AHTx_Uninitialized
  | AHTx_Trigger_measurement
  | AHTx_Wait_for_samples
  | AHTx_New_values
  deriving DecidableEq, Repr

/-- A call the driver makes to the I2C bus or to the logger. -/
inductive DriverCall where
  /-- Call `I2C_write8(addr, value)`. -/
  | I2C_write8 (addr : Nat) (value : Nat)
  /-- Call `I2C_write16_reg(addr, reg, value)`. -/
  | I2C_write16_reg (addr : Nat) (reg : Nat) (value : Nat)
  /-- Call `I2C_read8(addr, nullptr)`. -/
  | I2C_read8 (addr : Nat)
  /-- Call `Wire.requestFrom(addr, quantity)`. -/
  | requestFrom (addr : Nat) (quantity : Nat)
  /-- Call `Wire.read()`. -/
  | read
  /-- Call `addLogMove(level, text)`. -/
  | addLog (level : LogLevel) (text : String)
  deriving DecidableEq, Repr

/-- What the I2C bus answers during one call of `updateMeasurements`, which makes at most one
write, one `I2C_read8` and one `Wire.requestFrom` followed by six `Wire.read`. -/
structure AHTx_Bus where
  /-- The result of the I2C write. -/
  I2C_write : Bool
  /-- The byte `I2C_read8` returns. -/
  I2C_read8 : Nat
  /-- The number of bytes `Wire.requestFrom` returns. -/
  requestFrom : Nat
  /-- The values the successive calls of `Wire.read` return. -/
  read : List Nat
  deriving DecidableEq, Repr

/-- The type `float`: a value of single precision (IEEE 754 binary32), held as the rational
number it denotes. The values of this type that occur are results of `Float32.round`. -/
abbrev Float32 : Type := Rat

/-- The integer nearest to `t`, the even one when `t` lies halfway between two integers. -/
def roundHalfEven (t : Rat) : Int :=
  let f := ⌊t⌋
  let r := t - (f : Rat)
  if r < 1 / 2 then f
  else if 1 / 2 < r then f + 1
  else if f % 2 = 0 then f else f + 1

/-- The distance between neighbouring values of single precision (`float`, IEEE 754 binary32:
24 significant bits, least exponent -126) at the magnitude of `x`: `2 ^ (e - 23)` where
`2 ^ e ≤ |x| < 2 ^ (e + 1)`, and `2 ^ (-149)` for magnitudes below `2 ^ (-126)`. -/
def Float32.ulp (x : Rat) : Rat := 2 ^ (max (Int.log 2 |x|) (-126) - 23)

/-- The value of single precision nearest to `x`, ties to even: the rounding that every `float`
operation applies to its exact result. The overflow to infinity, from `2 ^ 128` on, is left
out: the magnitudes that `readData` computes are below `2 ^ 32`. -/
def Float32.round (x : Rat) : Float32 :=
  if x = 0 then 0 else (roundHalfEven (x / Float32.ulp x) : Rat) * Float32.ulp x

/-- The conversion of an unsigned integer to `float`, as in `static_cast<float>(value)`. -/
def Float32.ofNat (n : Nat) : Float32 := Float32.round n

/-- The `float` quotient `a / b`, for a divisor that is not zero. -/
def Float32.div (a b : Float32) : Float32 := Float32.round (a / b)

/-- The `float` product `a * b`. -/
def Float32.mul (a b : Float32) : Float32 := Float32.round (a * b)

/-- The `float` difference `a - b`. -/
def Float32.sub (a b : Float32) : Float32 := Float32.round (a - b)

/-- The class `AHTx_Device`. -/
structure AHTx_Device where
  i2cAddress : Nat
  device_type : AHTx_device_type
  last_hum_val : Float32
  last_temp_val : Float32
  alt_init : Bool
  deriving DecidableEq, Repr

/-- The constructor `AHTx_Device::AHTx_Device`. -/
def AHTx_Device.new (addr : Nat) (type : AHTx_device_type) (altInit : Bool) : AHTx_Device :=
  { i2cAddress := addr % 256, device_type := type, last_hum_val := 0, last_temp_val := 0,
    alt_init := altInit }

/-- The source's `AHTx_Device::getDeviceName`. -/
def AHTx_Device.getDeviceName (d : AHTx_Device) : String :=
  match d.device_type with
  | .AHT10_DEVICE => "AHT10"
  | .AHT20_DEVICE => "AHT20"
  | .AHT21_DEVICE => "AHT21"

/-- The source's `AHTx_Device::initialize`: its result and the calls it makes. -/
def AHTx_Device.initialize (d : AHTx_Device) (bus : AHTx_Bus) : Bool × List DriverCall :=
  let cmd_init : Nat := if AHTx_device_type.AHT10_DEVICE = d.device_type then 0xE1 else 0xBE
  if AHTx_device_type.AHT10_DEVICE = d.device_type ∧ d.alt_init = true then
    (bus.I2C_write, [DriverCall.I2C_write8 d.i2cAddress 0xBA])
  else
    (bus.I2C_write, [DriverCall.I2C_write16_reg d.i2cAddress cmd_init 0x0800])

/-- The source's `AHTx_Device::triggerMeasurement`: its result and the call it makes. -/
def AHTx_Device.triggerMeasurement (d : AHTx_Device) (bus : AHTx_Bus) :
    Bool × List DriverCall :=
  (bus.I2C_write, [DriverCall.I2C_write16_reg d.i2cAddress 0xAC 0x3300])

/-- The source's `AHTx_Device::softReset`: its result and the call it makes. -/
def AHTx_Device.softReset (d : AHTx_Device) (bus : AHTx_Bus) : Bool × List DriverCall :=
  (bus.I2C_write, [DriverCall.I2C_write8 d.i2cAddress 0xBA])

/-- The source's `AHTx_Device::readStatus`: the byte read and the call it makes. -/
def AHTx_Device.readStatus (d : AHTx_Device) (bus : AHTx_Bus) : Nat × List DriverCall :=
  (bus.I2C_read8 % 256, [DriverCall.I2C_read8 d.i2cAddress])

/-- The byte `data[i]` of `readData`: the value of the `i`-th `Wire.read()`, stored in a
`uint8_t`; `Wire.read()` returns -1 when the bus has no more bytes. -/
def AHTx_Bus.data (bus : AHTx_Bus) (i : Nat) : Nat := bus.read.getD i 255 % 256

/-- The 20 bits humidity value that `readData` assembles in `value`. -/
def AHTx_Bus.rawHumidity (bus : AHTx_Bus) : Nat :=
  let value : Nat := bus.data 1
  let value : Nat := ((value <<< 8) ||| bus.data 2) % UINT32_MOD
  ((value <<< 4) ||| (bus.data 3 >>> 4)) % UINT32_MOD

/-- The 20 bits temperature value that `readData` assembles in `value`. -/
def AHTx_Bus.rawTemperature (bus : AHTx_Bus) : Nat :=
  let value : Nat := bus.data 3 &&& 0x0F
  let value : Nat := ((value <<< 8) ||| bus.data 4) % UINT32_MOD
  ((value <<< 8) ||| bus.data 5) % UINT32_MOD

/-- The source's `AHTx_Device::readData`: its result, the device after it and the calls it
makes. The two conversions are the source's expressions, operation by operation: the integer
`value` and the `int` constant `1 << 20` are converted to `float`, and the quotient, the
product with `100.0f` or `200.0f` and the difference with `50.0f` are each rounded to single
precision. -/
def AHTx_Device.readData (d : AHTx_Device) (bus : AHTx_Bus) :
    Bool × AHTx_Device × List DriverCall :=
  let data_len : Nat := 6
  if bus.requestFrom = 0 then
    (false, d, [DriverCall.requestFrom d.i2cAddress data_len])
  else
    let calls := DriverCall.requestFrom d.i2cAddress data_len ::
      List.replicate data_len DriverCall.read
    let status := AHTx_Status.ofByte (bus.data 0)
    if !(status.valid && status.calibrated) then
      (false, d, calls)
    else
      let d := { d with
        last_hum_val :=
          Float32.mul (Float32.div (Float32.ofNat bus.rawHumidity) (Float32.ofNat (1 <<< 20)))
            100 }
      let d := { d with
        last_temp_val :=
          Float32.sub
            (Float32.mul
              (Float32.div (Float32.ofNat bus.rawTemperature) (Float32.ofNat (1 <<< 20))) 200)
            50 }
      (true, d, calls)

/-- The struct `P105_data_struct`; the two time stamps are 32 bit readings of `millis()`. -/
structure P105_data_struct where
  device : AHTx_Device
  state : AHTx_state
  last_measurement : Nat
  trigger_time : Nat
  deriving DecidableEq, Repr

/-- The constructor `P105_data_struct::P105_data_struct`. -/
def P105_data_struct.new (addr : Nat) (dev : AHTx_device_type) (altInit : Bool) :
    P105_data_struct :=
  { device := AHTx_Device.new addr dev altInit, state := AHTx_state.AHTx_Uninitialized,
    last_measurement := 0, trigger_time := 0 }

/-- The source's `P105_data_struct::initialized`. -/
def P105_data_struct.initialized (s : P105_data_struct) : Bool :=
  s.state != AHTx_state.AHTx_Uninitialized

/-- The source's `P105_data_struct::setUninitialized`. -/
def P105_data_struct.setUninitialized (s : P105_data_struct) : P105_data_struct :=
  { s with state := AHTx_state.AHTx_Uninitialized }

/-- The part of `updateMeasurements` from the status read on (the source's lines 138 to 179,
"state: AHTx_Wait_for_samples or AHTx_Trigger_measurement"), with `current_time` read from the
clock `e`. -/
def P105_data_struct.pollStatus (e : Env) (bus : AHTx_Bus) (s : P105_data_struct) :
    Bool × P105_data_struct × List DriverCall :=
  let current_time := millis e
  let r := s.device.readStatus bus
  let status := AHTx_Status.ofByte r.1
  if status.valid && status.calibrated && !status.busy then
    if s.state = AHTx_state.AHTx_Trigger_measurement then
      let t := s.device.triggerMeasurement bus
      (false, { s with trigger_time := current_time,
                       state := AHTx_state.AHTx_Wait_for_samples }, r.2 ++ t.2)
    else
      let d := s.device.readData bus
      if !d.1 then
        (false, { s with device := d.2.1 }, r.2 ++ d.2.2)
      else
        (true, { s with device := d.2.1, last_measurement := current_time,
                        state := AHTx_state.AHTx_New_values }, r.2 ++ d.2.2)
  else
    if timePassedSince s.trigger_time e > 1000 then
      let t := s.device.softReset bus
      (false, { s with state := AHTx_state.AHTx_Uninitialized },
        r.2 ++ [DriverCall.addLog LogLevel.LOG_LEVEL_ERROR
          (s.device.getDeviceName ++ " : reset")] ++ t.2)
    else
      (false, s, r.2)

/-- The source's `P105_data_struct::updateMeasurements`: its result, the driver after it and the
calls it makes. `TaskDeviceTimer` is `Settings.TaskDeviceTimer[task_index]`; the clock `e` does
not advance during the call, which makes no `delay`. -/
def P105_data_struct.updateMeasurements (TaskDeviceTimer : Nat) (e : Env) (bus : AHTx_Bus)
    (s : P105_data_struct) : Bool × P105_data_struct × List DriverCall :=
  let current_time := millis e
  if !s.initialized then
    let r := AHTx_Device.initialize s.device bus
    if !r.1 then
      (false, s, r.2 ++ [DriverCall.addLog LogLevel.LOG_LEVEL_ERROR
        (s.device.getDeviceName ++ " : unable to initialize")])
    else
      (false, { s with trigger_time := current_time,
                       state := AHTx_state.AHTx_Trigger_measurement },
        r.2 ++ [DriverCall.addLog LogLevel.LOG_LEVEL_INFO
          (s.device.getDeviceName ++ " : initialized")])
  else if s.state ≠ AHTx_state.AHTx_Wait_for_samples ∧
      s.state ≠ AHTx_state.AHTx_Trigger_measurement then
    if !timeOutReached (add32 s.last_measurement (TaskDeviceTimer * 1000 % UINT32_MOD)) e then
      (false, s, [])
    else
      P105_data_struct.pollStatus e bus
        { s with trigger_time := current_time,
                 state := AHTx_state.AHTx_Trigger_measurement }
  else
    P105_data_struct.pollStatus e bus s

/-- The calls to the I2C bus, as opposed to those to the logger. -/
def DriverCall.isHardware : DriverCall → Bool
  | DriverCall.addLog _ _ => false
  | _ => true

/-- The status byte reports a calibrated sensor that is not busy: the condition under which
`updateMeasurements` goes on to trigger or to read. -/
def AHTx_Status.ready (st : AHTx_Status) : Bool := st.valid && st.calibrated && !st.busy

/-- The status byte that `readStatus` gets from the bus. -/
def AHTx_Bus.status (bus : AHTx_Bus) : AHTx_Status := AHTx_Status.ofByte (bus.I2C_read8 % 256)

/-- The status byte at the head of the payload that `readData` gets from the bus. -/
def AHTx_Bus.payloadStatus (bus : AHTx_Bus) : AHTx_Status := AHTx_Status.ofByte (bus.data 0)

/-- A clock that reads `t` milliseconds since boot. -/
def clockAt (t : Nat) : Env := { now := t, freeHeap := [], reserveOk := [], logError := true }

/-- Scenario A: a bus that answers every write with success, reports the status `0x18`
(calibrated, not busy) and delivers a payload that decodes to 45.23 % and 21.77 °C, rounded
to two decimals. -/
def scenarioBus : AHTx_Bus :=
  { I2C_write := true, I2C_read8 := 0x18, requestFrom := 6,
    read := [0x18, 0x73, 0xC9, 0xF5, 0xBD, 0xD9] }

/-- An AHT20 at address `0x38` in the given phase, with `trigger_time = 5000` and
`last_measurement = 4000`. -/
def scenarioDriver (phase : AHTx_state) : P105_data_struct :=
  { device := AHTx_Device.new 0x38 AHTx_device_type.AHT20_DEVICE false, state := phase,
    last_measurement := 4000, trigger_time := 5000 }

/-- Scenario B: a bus on which the sensor stays busy (status `0x98`). -/
def busyBus : AHTx_Bus :=
  { I2C_write := true, I2C_read8 := 0x98, requestFrom := 6,
    read := [0x98, 0, 0, 0, 0, 0] }

/-- A bus that reports a ready status and then delivers a payload whose status byte is not
calibrated. -/
def staleBus : AHTx_Bus :=
  { I2C_write := true, I2C_read8 := 0x18, requestFrom := 6,
    read := [0x10, 0x73, 0xC9, 0xF5, 0xBD, 0xD9] }

/-- A bus on which every write fails. -/
def deadBus : AHTx_Bus :=
  { I2C_write := false, I2C_read8 := 0xFF, requestFrom := 0, read := [] }

/-- A bus with a ready sensor on which every write fails. -/
def writeFailBus : AHTx_Bus := { scenarioBus with I2C_write := false }

/-- Consecutive calls of `updateMeasurements` on one driver, each with its own task interval,
clock and bus answers; the results of the calls, in order, and the driver after the last. -/
def updateMeasurementsSeq :
    List (Nat × Env × AHTx_Bus) → P105_data_struct → List Bool × P105_data_struct
  | [], s => ([], s)
  | (TaskDeviceTimer, e, bus) :: rest, s =>
    let r := s.updateMeasurements TaskDeviceTimer e bus
    let q := updateMeasurementsSeq rest r.2.1
    (r.1 :: q.1, q.2)

/-- Scenario A as four consecutive calls on a working sensor: bring-up, trigger, read, and a
call right after the read. -/
def scenarioCycle : List (Nat × Env × AHTx_Bus) :=
  [(60, clockAt 5000, scenarioBus), (60, clockAt 5010, scenarioBus),
   (60, clockAt 5100, scenarioBus), (60, clockAt 5200, scenarioBus)]

/-- A bus whose status register reads ready (`0x18`) while the status byte at the head of the
payload has the busy bit set (`0x98`). -/
def busyPayloadBus : AHTx_Bus :=
  { I2C_write := true, I2C_read8 := 0x18, requestFrom := 6,
    read := [0x98, 0x73, 0xC9, 0xF5, 0xBD, 0xD9] }

/-- A bus that delivers the payload `18 FF FF FF FF FF`: both 20 bits fields have their
greatest value, `0xFFFFF`. -/
def fullScaleBus : AHTx_Bus :=
  { I2C_write := true, I2C_read8 := 0x18, requestFrom := 6,
    read := [0x18, 0xFF, 0xFF, 0xFF, 0xFF, 0xFF] }

/-! ## Helper lemmas -/

theorem CHUNKED_BUFFER_SIZE_pos (p : Platform) : 0 < CHUNKED_BUFFER_SIZE p := by
  cases p <;> simp [CHUNKED_BUFFER_SIZE]

theorem chunksOf_append (xs ys : List Event) : chunksOf (xs ++ ys) = chunksOf xs ++ chunksOf ys := by
  induction xs with
  | nil => rfl
  | cons e es ih => cases e <;> simp [chunksOf, ih]

theorem chunksOf_map_sendContent (cs : List (List Byte)) :
    chunksOf (cs.map Event.sendContent) = cs := by
  induction cs with
  | nil => rfl
  | cons c cs ih => simp [chunksOf, ih]

theorem Frame.frameRefl (s : Web_StreamingBuffer) : Frame s s := by
  constructor <;> rfl

theorem Frame.frameTrans {s t u : Web_StreamingBuffer} (h1 : Frame s t) (h2 : Frame t u) :
    Frame s u :=
  ⟨h2.1.trans h1.1, h2.2.trans h1.2, h2.3.trans h1.3, h2.4.trans h1.4, h2.5.trans h1.5,
   h2.6.trans h1.6, h2.7.trans h1.7, h2.8.trans h1.8⟩

theorem delay_frame (ms : Nat) (s : Web_StreamingBuffer) : Frame s (delay ms s) := by
  constructor <;> rfl

theorem trackCoreMem_frame (s : Web_StreamingBuffer) : Frame s (trackCoreMem s) := by
  unfold trackCoreMem
  dsimp only
  split <;> constructor <;> rfl

theorem trackTotalMem_frame (s : Web_StreamingBuffer) : Frame s (trackTotalMem s) := by
  unfold trackTotalMem
  dsimp only
  split <;> constructor <;> rfl

theorem sendContentWaitBody_frame (s : Web_StreamingBuffer) :
    Frame s (sendContentWaitBody s) := by
  unfold sendContentWaitBody
  dsimp only
  split
  · refine Frame.frameTrans ?_ (Frame.frameTrans (trackCoreMem_frame _) (delay_frame _ _))
    constructor <;> rfl
  · refine Frame.frameTrans ?_ (Frame.frameTrans (trackCoreMem_frame _) (delay_frame _ _))
    constructor <;> rfl

theorem sendContentWait_frame (timeout fuel : Nat) (s : Web_StreamingBuffer) :
    Frame s (sendContentWait timeout fuel s) := by
  induction fuel generalizing s with
  | zero => exact Frame.frameRefl s
  | succ n ih =>
    unfold sendContentWait
    dsimp only
    split
    · refine Frame.frameTrans ?_ (Frame.frameTrans (sendContentWaitBody_frame _) (ih _))
      constructor <;> rfl
    · constructor <;> rfl

theorem sendHeaderWait_frame (f d fuel : Nat) (s : Web_StreamingBuffer) :
    Frame s (sendHeaderWait f d fuel s) := by
  induction fuel generalizing s with
  | zero => exact Frame.frameRefl s
  | succ n ih =>
    unfold sendHeaderWait
    dsimp only
    split
    · refine Frame.frameTrans ?_ (Frame.frameTrans (delay_frame 1 _) (ih _))
      constructor <;> rfl
    · constructor <;> rfl

theorem sendContentBlocking_buf (p : Platform) (s : Web_StreamingBuffer) :
    (sendContentBlocking p s).buf = [] := by
  unfold sendContentBlocking
  dsimp only [delay]
  rw [(sendContentWait_frame _ _ _).buf]
  split_ifs <;> rfl

theorem sendContentBlocking_out (p : Platform) (s : Web_StreamingBuffer) :
    (sendContentBlocking p s).out = s.out ++ [Event.sendContent s.buf] := by
  unfold sendContentBlocking
  dsimp only [delay]
  rw [(sendContentWait_frame _ _ _).out]
  split_ifs <;> rfl

theorem add32_mod (a b : Nat) : add32 a (b % UINT32_MOD) = (a + b) % UINT32_MOD := by
  show (a + b % 4294967296) % 4294967296 = (a + b) % 4294967296
  omega

theorem sendContentBlocking_sentBytes (p : Platform) (s : Web_StreamingBuffer) :
    (sendContentBlocking p s).sentBytes = (s.sentBytes + s.buf.length) % UINT32_MOD := by
  unfold sendContentBlocking
  dsimp only [delay]
  rw [(sendContentWait_frame _ _ _).sentBytes]
  split_ifs <;> exact add32_mod _ _

theorem sendContentBlocking_lowMemorySkip (p : Platform) (s : Web_StreamingBuffer) :
    (sendContentBlocking p s).lowMemorySkip = s.lowMemorySkip := by
  unfold sendContentBlocking
  dsimp only [delay]
  rw [(sendContentWait_frame _ _ _).lowMemorySkip]
  split_ifs <;> rfl

theorem sendContentBlocking_flashStringCalls (p : Platform) (s : Web_StreamingBuffer) :
    (sendContentBlocking p s).flashStringCalls = s.flashStringCalls := by
  unfold sendContentBlocking
  dsimp only [delay]
  rw [(sendContentWait_frame _ _ _).flashStringCalls]
  split_ifs <;> rfl

theorem sendContentBlocking_flashStringData (p : Platform) (s : Web_StreamingBuffer) :
    (sendContentBlocking p s).flashStringData = s.flashStringData := by
  unfold sendContentBlocking
  dsimp only [delay]
  rw [(sendContentWait_frame _ _ _).flashStringData]
  split_ifs <;> rfl

theorem sendContentBlocking_emits (p : Platform) (s : Web_StreamingBuffer) :
    Emits s (sendContentBlocking p s) [s.buf] := by
  refine ⟨sendContentBlocking_lowMemorySkip p s, sendContentBlocking_flashStringCalls p s,
    sendContentBlocking_flashStringData p s, ?_, ?_⟩
  · simpa using sendContentBlocking_out p s
  · simpa using sendContentBlocking_sentBytes p s

theorem Emits.emitsRefl (s : Web_StreamingBuffer) : Emits s s [] := by
  constructor <;> simp

theorem Emits.emitsTrans {s t u : Web_StreamingBuffer} {cs ds : List (List Byte)}
    (h1 : Emits s t cs) (h2 : Emits t u ds) : Emits s u (cs ++ ds) := by
  refine ⟨h2.1.trans h1.1, h2.2.trans h1.2, h2.3.trans h1.3, ?_, ?_⟩
  · rw [h2.out, h1.out]; simp
  · rw [h2.sentBytes, h1.sentBytes]
    by_cases hc : cs = [] <;> by_cases hd : ds = []
    · simp [hc, hd]
    · simp [hc, hd]
    · simp [hc, hd]
    · simp only [hc, hd, if_false, List.append_eq_nil, and_self, List.flatten_append,
        List.length_append]
      show ((s.sentBytes + cs.flatten.length) % 4294967296 + ds.flatten.length) % 4294967296 =
        (s.sentBytes + (cs.flatten.length + ds.flatten.length)) % 4294967296
      omega

theorem Frame.emits {s t : Web_StreamingBuffer} (h : Frame s t) : Emits s t [] := by
  refine ⟨h.lowMemorySkip, h.flashStringCalls, h.flashStringData, ?_, ?_⟩
  · simpa using h.out
  · simpa using h.sentBytes

theorem Emits.emitsChunks {s t : Web_StreamingBuffer} {cs : List (List Byte)} (h : Emits s t cs) :
    chunks t = chunks s ++ cs := by
  unfold ESPEasy.chunks
  rw [h.out, chunksOf_append, chunksOf_map_sendContent]

theorem Emits.emitsTransmitted {s t : Web_StreamingBuffer} {cs : List (List Byte)}
    (h : Emits s t cs) : transmitted t = transmitted s ++ cs.flatten := by
  unfold ESPEasy.transmitted
  rw [h.emitsChunks, List.flatten_append]

theorem flush_lowMemory (p : Platform) (s : Web_StreamingBuffer) (h : s.lowMemorySkip = true) :
    flush p s = { s with buf := [] } := by
  simp [flush, h]

theorem flush_buf (p : Platform) (s : Web_StreamingBuffer) : (flush p s).buf = [] := by
  unfold flush
  split
  · rfl
  · split
    · exact sendContentBlocking_buf p s
    · rename_i h; simpa using h

theorem flush_emits (p : Platform) (s : Web_StreamingBuffer) (h : s.lowMemorySkip = false) :
    Emits s (flush p s) (if s.buf = [] then [] else [s.buf]) := by
  unfold flush
  rw [if_neg (by simp [h])]
  by_cases hb : s.buf = []
  · simp [hb, Emits.emitsRefl]
  · have : s.buf.length > 0 := List.length_pos.mpr hb
    simp only [this, if_true, hb, if_false]
    exact sendContentBlocking_emits p s

theorem checkFull_lowMemory (p : Platform) (s : Web_StreamingBuffer)
    (h : s.lowMemorySkip = true) : checkFull p s = { s with buf := [] } := by
  have hc := CHUNKED_BUFFER_SIZE_pos p
  unfold checkFull
  simp only [h, if_true]
  rw [if_neg]
  simp only [List.length_nil]
  omega

theorem checkFull_notFull (p : Platform) (s : Web_StreamingBuffer)
    (h : s.lowMemorySkip = false) (hb : s.buf.length < CHUNKED_BUFFER_SIZE p) :
    checkFull p s = s := by
  unfold checkFull
  simp only [h]
  rw [if_neg]
  · rfl
  · simp; omega

theorem checkFull_full (p : Platform) (s : Web_StreamingBuffer)
    (h : s.lowMemorySkip = false) (hb : CHUNKED_BUFFER_SIZE p ≤ s.buf.length) :
    Emits s (checkFull p s) [s.buf] ∧ (checkFull p s).buf = [] := by
  have hc := CHUNKED_BUFFER_SIZE_pos p
  unfold checkFull
  simp only [h]
  rw [if_pos (by simpa using hb)]
  refine ⟨?_, flush_buf _ _⟩
  have h1 := (trackTotalMem_frame s)
  have h2 := flush_emits p (trackTotalMem s) (by rw [h1.lowMemorySkip]; exact h)
  have hne : s.buf ≠ [] := by
    intro h0; rw [h0] at hb; simp at hb; omega
  rw [h1.buf, if_neg hne] at h2
  simpa using h1.emits.emitsTrans h2

theorem slices_short (c : Nat) (d : List Byte) (hc : 0 < c) (hd : d.length ≤ c) :
    slices c d = [] ∧ sliceRest c d = d := by
  have h0 : sliceCount c d = 0 := by
    unfold sliceCount
    exact Nat.div_eq_of_lt (by omega)
  simp [slices, sliceRest, h0]

theorem sliceCount_full (c : Nat) (b d : List Byte) (hc : 0 < c) (hb : b.length = c)
    (hd : d ≠ []) : sliceCount c (b ++ d) = sliceCount c d + 1 := by
  have hl : 0 < d.length := List.length_pos.mpr hd
  unfold sliceCount
  rw [List.length_append, hb]
  have : c + d.length - 1 = (d.length - 1) + c := by omega
  rw [this, Nat.add_div_right _ hc]

theorem slices_full (c : Nat) (b d : List Byte) (hc : 0 < c) (hb : b.length = c)
    (hd : d ≠ []) :
    slices c (b ++ d) = b :: slices c d ∧ sliceRest c (b ++ d) = sliceRest c d := by
  have hn := sliceCount_full c b d hc hb hd
  constructor
  · unfold slices
    rw [hn, List.range_succ_eq_map, List.map_cons, List.map_map]
    congr 1
    · simp [hb]
    · apply List.map_congr_left
      intro i _
      show List.take c (List.drop ((i + 1) * c) (b ++ d)) = List.take c (List.drop (i * c) d)
      have : (i + 1) * c = b.length + i * c := by rw [hb]; ring
      rw [this, List.drop_append]
  · unfold sliceRest
    rw [hn]
    have : (sliceCount c d + 1) * c = b.length + sliceCount c d * c := by rw [hb]; ring
    rw [this, List.drop_append]

theorem addStringLoop_spec (p : Platform) (a : List Byte) (fuel pos : Nat) (flush_step : Int)
    (s : Web_StreamingBuffer) (hn : s.lowMemorySkip = false)
    (hb : s.buf.length ≤ CHUNKED_BUFFER_SIZE p)
    (hf : flush_step = (CHUNKED_BUFFER_SIZE p : Int) - (s.buf.length : Int))
    (hfuel : 2 * (a.length - pos) ≤ fuel)
    (hfuel0 : flush_step ≤ 0 → pos < a.length → 2 * (a.length - pos) + 1 ≤ fuel) :
    Emits s (addStringLoop p a fuel pos flush_step s)
        (slices (CHUNKED_BUFFER_SIZE p) (s.buf ++ a.drop pos)) ∧
      (addStringLoop p a fuel pos flush_step s).buf =
        sliceRest (CHUNKED_BUFFER_SIZE p) (s.buf ++ a.drop pos) := by
  have hc := CHUNKED_BUFFER_SIZE_pos p
  induction fuel generalizing pos flush_step s with
  | zero =>
    have hp : a.length ≤ pos := by omega
    have hd : a.drop pos = [] := List.drop_eq_nil_of_le hp
    obtain ⟨h1, h2⟩ := slices_short _ s.buf hc hb
    simp only [addStringLoop, hd, List.append_nil, h1, h2]
    exact ⟨Emits.emitsRefl s, trivial⟩
  | succ n ih =>
    unfold addStringLoop
    by_cases hp : pos < a.length
    · rw [if_pos hp]
      have hdne : a.drop pos ≠ [] := by
        intro h0
        have := congrArg List.length h0
        simp at this
        omega
      by_cases hz : flush_step ≤ 0
      · rw [if_pos hz]
        have hfull : s.buf.length = CHUNKED_BUFFER_SIZE p := by omega
        have hne : s.buf ≠ [] := by
          intro h0; rw [h0] at hfull; simp at hfull; omega
        have he := flush_emits p s hn
        rw [if_neg hne] at he
        have hbuf := flush_buf p s
        have hi := ih pos (CHUNKED_BUFFER_SIZE p : Int) (flush p s) (he.lowMemorySkip.trans hn)
          (by rw [hbuf]; simp) (by rw [hbuf]; simp) (by have := hfuel0 hz hp; omega)
          (by intro h; omega)
        rw [hbuf, List.nil_append] at hi
        obtain ⟨h1, h2⟩ := slices_full _ s.buf (a.drop pos) hc hfull hdne
        rw [h1, h2]
        exact ⟨by simpa using he.emitsTrans hi.1, hi.2⟩
      · rw [if_neg hz]
        dsimp only
        have hk : ∃ k : Nat, (if flush_step ≥ (a.length : Int) - (pos : Int)
            then (a.length : Int) - (pos : Int) else flush_step) = (k : Int) ∧ 1 ≤ k ∧
            pos + k ≤ a.length ∧ s.buf.length + k ≤ CHUNKED_BUFFER_SIZE p := by
          split
          · exact ⟨a.length - pos, by omega, by omega, by omega, by omega⟩
          · exact ⟨flush_step.toNat, by omega, by omega, by omega, by omega⟩
        obtain ⟨k, hk1, hk2, hk3, hk4⟩ := hk
        rw [hk1]
        simp only [Int.toNat_ofNat]
        have hi := ih (pos + k) (flush_step - (k : Int))
          { s with buf := s.buf ++ (a.drop pos).take k } hn
          (by simp only [List.length_append, List.length_take, List.length_drop]; omega)
          (by simp only [List.length_append, List.length_take, List.length_drop]; omega)
          (by omega) (by intro _ _; omega)
        have hD : (s.buf ++ List.take k (List.drop pos a)) ++ List.drop (pos + k) a =
            s.buf ++ List.drop pos a := by
          rw [List.append_assoc, ← List.drop_drop, List.take_append_drop]
        simp only [hD] at hi
        refine ⟨?_, hi.2⟩
        have h0 : Emits s { s with buf := s.buf ++ (a.drop pos).take k } [] := by
          constructor <;> simp
        simpa using h0.emitsTrans hi.1
    · rw [if_neg hp]
      have hd : a.drop pos = [] := List.drop_eq_nil_of_le (by omega)
      obtain ⟨h1, h2⟩ := slices_short _ s.buf hc hb
      simp only [hd, List.append_nil, h1, h2]
      exact ⟨Emits.emitsRefl s, trivial⟩

theorem Emits.sends {s t : Web_StreamingBuffer} {cs : List (List Byte)} (h : Emits s t cs) :
    Sends s t cs := ⟨h.lowMemorySkip, h.out, h.sentBytes⟩

theorem Sends.sendsRefl (s : Web_StreamingBuffer) : Sends s s [] := (Emits.emitsRefl s).sends

theorem Sends.sendsTrans {s t u : Web_StreamingBuffer} {cs ds : List (List Byte)}
    (h1 : Sends s t cs) (h2 : Sends t u ds) : Sends s u (cs ++ ds) := by
  refine ⟨h2.1.trans h1.1, ?_, ?_⟩
  · rw [h2.out, h1.out]; simp
  · rw [h2.sentBytes, h1.sentBytes]
    by_cases hc : cs = [] <;> by_cases hd : ds = []
    · simp [hc, hd]
    · simp [hc, hd]
    · simp [hc, hd]
    · simp only [hc, hd, if_false, List.append_eq_nil, and_self, List.flatten_append,
        List.length_append]
      show ((s.sentBytes + cs.flatten.length) % 4294967296 + ds.flatten.length) % 4294967296 =
        (s.sentBytes + (cs.flatten.length + ds.flatten.length)) % 4294967296
      omega

theorem Sends.sendsChunks {s t : Web_StreamingBuffer} {cs : List (List Byte)} (h : Sends s t cs) :
    chunks t = chunks s ++ cs := by
  unfold ESPEasy.chunks
  rw [h.out, chunksOf_append, chunksOf_map_sendContent]

theorem flashFragment_zero (str : List Byte) (pos : Nat) : flashFragment str pos 0 = [] := by
  simp [flashFragment]

theorem flashFragment_nul (str : List Byte) (pos : Nat) (length : Int) (hl : length < 0)
    (hc : pgm_read_byte str pos = 0) : flashFragment str pos length = [] := by
  unfold flashFragment
  rw [if_pos hl]
  unfold pgm_read_byte at hc
  by_cases hp : pos < str.length
  · rw [List.drop_eq_getElem_cons hp]
    have : str[pos] = 0 := by
      rw [List.getD_eq_getElem _ _ hp] at hc; exact hc
    simp [this]
  · rw [List.drop_eq_nil_of_le (by omega)]; rfl

theorem flashFragment_step (str : List Byte) (pos : Nat) (length : Int) (hl : length ≠ 0)
    (hc : ¬ (pgm_read_byte str pos = 0 ∧ length < 0)) :
    flashFragment str pos length =
      pgm_read_byte str pos :: flashFragment str (pos + 1) (length - 1) := by
  unfold flashFragment
  by_cases hneg : length < 0
  · have hc0 : pgm_read_byte str pos ≠ 0 := fun h => hc ⟨h, hneg⟩
    have hneg1 : length - 1 < 0 := by omega
    rw [if_pos hneg, if_pos hneg1]
    unfold pgm_read_byte at hc0 ⊢
    have hp : pos < str.length := by
      by_contra hp
      exact hc0 (List.getD_eq_default _ _ (by omega))
    rw [List.getD_eq_getElem _ _ hp] at hc0
    rw [List.drop_eq_getElem_cons hp, List.getD_eq_getElem _ _ hp,
      List.takeWhile_cons_of_pos (by simpa using hc0)]
  · have hneg1 : ¬ length - 1 < 0 := by omega
    rw [if_neg hneg, if_neg hneg1]
    obtain ⟨n, hn⟩ : ∃ n : Nat, length = (n : Int) + 1 := ⟨(length - 1).toNat, by omega⟩
    subst hn
    have h1 : ((n : Int) + 1).toNat = n + 1 := by omega
    have h2 : ((n : Int) + 1 - 1).toNat = n := by omega
    rw [h1, h2, List.range_succ_eq_map, List.map_cons, List.map_map]
    congr 1
    apply List.map_congr_left
    intro i _
    show pgm_read_byte str (pos + (i + 1)) = pgm_read_byte str (pos + 1 + i)
    congr 1
    omega

theorem pgm_read_byte_ne_zero (str : List Byte) (pos : Nat) (h : pgm_read_byte str pos ≠ 0) :
    pos < str.length := by
  by_contra hp
  exact h (List.getD_eq_default _ _ (by omega))

theorem flashChunks_short (c : Nat) (length : Int) (d : List Byte) (hc : 0 < c)
    (hd : d.length ≤ c) :
    flashChunks c length d = (if length < 0 ∧ d.length = c then [d] else []) ∧
      flashRest c length d = (if length < 0 ∧ d.length = c then [] else d) := by
  obtain ⟨h1, h2⟩ := slices_short c d hc hd
  simp [flashChunks, flashRest, h1, h2]

theorem flashChunks_full (c : Nat) (length : Int) (b d : List Byte) (hc : 0 < c)
    (hb : b.length = c) (hd : d ≠ []) :
    flashChunks c length (b ++ d) = b :: flashChunks c length d ∧
      flashRest c length (b ++ d) = flashRest c length d := by
  obtain ⟨h1, h2⟩ := slices_full c b d hc hb hd
  simp [flashChunks, flashRest, h1, h2]

theorem flashChunks_pred (c : Nat) (length : Int) (d : List Byte) (hl : length ≠ 0) :
    flashChunks c (length - 1) d = flashChunks c length d ∧
      flashRest c (length - 1) d = flashRest c length d := by
  have : (length - 1 < 0) = (length < 0) := by
    apply propext; constructor <;> intro h <;> omega
  simp [flashChunks, flashRest, this]

theorem flashChunks_flushed (c : Nat) (length : Int) (b d : List Byte) (hc : 0 < c)
    (hb : b.length = c) (hd : d = [] → length < 0) :
    flashChunks c length (b ++ d) = b :: flashChunks c length d ∧
      flashRest c length (b ++ d) = flashRest c length d := by
  by_cases h : d = []
  · subst h
    obtain ⟨h1, h2⟩ := flashChunks_short c length b hc (by omega)
    obtain ⟨h3, h4⟩ := flashChunks_short c length [] hc (by simp)
    have h0 : ¬ (0 = c) := by omega
    rw [List.append_nil, h1, h2, h3, h4]
    simp [hd rfl, hb, h0]
  · exact flashChunks_full c length b d hc hb h

theorem addFlashStringLoop_done (p : Platform) (str : List Byte) (pos : Nat)
    (t : Web_StreamingBuffer) (ht : t.buf.length ≤ CHUNKED_BUFFER_SIZE p) :
    Sends t t (flashChunks (CHUNKED_BUFFER_SIZE p) 0 (t.buf ++ flashFragment str pos 0)) ∧
      t.buf = flashRest (CHUNKED_BUFFER_SIZE p) 0 (t.buf ++ flashFragment str pos 0) ∧
      t.flashStringCalls = t.flashStringCalls ∧
      t.flashStringData = (if flashFragment str pos 0 = [] then t.flashStringData
         else (t.flashStringData + (flashFragment str pos 0).length) % UINT32_MOD) := by
  obtain ⟨h1, h2⟩ := flashChunks_short _ 0 t.buf (CHUNKED_BUFFER_SIZE_pos p) ht
  rw [flashFragment_zero, List.append_nil, h1, h2]
  refine ⟨?_, ?_, rfl, ?_⟩
  · simpa using Sends.sendsRefl t
  · simp
  · simp

theorem addFlashStringLoop_spec (p : Platform) (str : List Byte) (fuel pos : Nat)
    (length flush_step : Int) (s : Web_StreamingBuffer) (hn : s.lowMemorySkip = false)
    (hb : s.buf.length ≤ CHUNKED_BUFFER_SIZE p)
    (hf : flush_step = (CHUNKED_BUFFER_SIZE p : Int) - (s.buf.length : Int))
    (hfuel1 : 0 ≤ length → length.toNat ≤ fuel)
    (hfuel2 : length < 0 → str.length - pos + 1 ≤ fuel) :
    Sends s (addFlashStringLoop p str fuel pos length flush_step s)
        (flashChunks (CHUNKED_BUFFER_SIZE p) length (s.buf ++ flashFragment str pos length)) ∧
      (addFlashStringLoop p str fuel pos length flush_step s).buf =
        flashRest (CHUNKED_BUFFER_SIZE p) length (s.buf ++ flashFragment str pos length) ∧
      (addFlashStringLoop p str fuel pos length flush_step s).flashStringCalls =
        s.flashStringCalls ∧
      (addFlashStringLoop p str fuel pos length flush_step s).flashStringData =
        (if flashFragment str pos length = [] then s.flashStringData
         else (s.flashStringData + (flashFragment str pos length).length) % UINT32_MOD) := by
  have hc := CHUNKED_BUFFER_SIZE_pos p
  induction fuel generalizing pos length flush_step s with
  | zero =>
    have hl : length = 0 := by omega
    subst hl
    exact addFlashStringLoop_done p str pos s hb
  | succ n ih =>
    unfold addFlashStringLoop
    by_cases hl : length = 0
    · subst hl
      rw [if_neg (by simp)]
      exact addFlashStringLoop_done p str pos s hb
    · rw [if_pos hl]
      dsimp only
      -- one round, once the head of the round has made room in the buffer
      have hround : ∀ (s1 : Web_StreamingBuffer) (fs1 : Int), s1.lowMemorySkip = false →
          s1.buf.length + 1 ≤ CHUNKED_BUFFER_SIZE p →
          fs1 = (CHUNKED_BUFFER_SIZE p : Int) - (s1.buf.length : Int) →
          ∀ r : Web_StreamingBuffer,
          r = (if pgm_read_byte str pos = 0 ∧ length < 0 then s1
            else addFlashStringLoop p str n (pos + 1) (length - 1) (fs1 - 1)
              { s1 with buf := s1.buf ++ [pgm_read_byte str pos],
                        flashStringData := add32 s1.flashStringData 1 }) →
          Sends s1 r (flashChunks (CHUNKED_BUFFER_SIZE p) length
              (s1.buf ++ flashFragment str pos length)) ∧
            r.buf = flashRest (CHUNKED_BUFFER_SIZE p) length
              (s1.buf ++ flashFragment str pos length) ∧
            r.flashStringCalls = s1.flashStringCalls ∧
            r.flashStringData =
              (if flashFragment str pos length = [] then s1.flashStringData
               else (s1.flashStringData + (flashFragment str pos length).length) %
                UINT32_MOD) := by
        intro s1 fs1 hn1 hb1 hf1 r hr
        by_cases hnul : pgm_read_byte str pos = 0 ∧ length < 0
        · rw [if_pos hnul] at hr
          rw [hr]
          obtain ⟨h1, h2⟩ := flashChunks_short _ length s1.buf hc (by omega)
          have hne : ¬ (s1.buf.length = CHUNKED_BUFFER_SIZE p) := by omega
          rw [flashFragment_nul str pos length hnul.2 hnul.1, List.append_nil, h1, h2]
          refine ⟨?_, ?_, rfl, ?_⟩
          · simpa [hne] using Sends.sendsRefl s1
          · simp [hne]
          · simp
        · rw [if_neg hnul] at hr
          have hstep := flashFragment_step str pos length hl hnul
          have hi := ih (pos + 1) (length - 1) (fs1 - 1)
            { s1 with buf := s1.buf ++ [pgm_read_byte str pos],
                      flashStringData := add32 s1.flashStringData 1 } hn1
            (by simp only [List.length_append, List.length_singleton]; omega)
            (by simp only [List.length_append, List.length_singleton]; omega)
            (by intro h; omega)
            (by
              intro h
              have hneg : length < 0 := by omega
              have hc0 : pgm_read_byte str pos ≠ 0 := fun h0 => hnul ⟨h0, hneg⟩
              have := pgm_read_byte_ne_zero str pos hc0
              have := hfuel2 hneg
              omega)
          rw [← hr] at hi
          obtain ⟨hp1, hp2⟩ := flashChunks_pred (CHUNKED_BUFFER_SIZE p) length
            (s1.buf ++ [pgm_read_byte str pos] ++ flashFragment str (pos + 1) (length - 1)) hl
          simp only [hp1, hp2] at hi
          have hD : s1.buf ++ [pgm_read_byte str pos] ++ flashFragment str (pos + 1) (length - 1)
              = s1.buf ++ flashFragment str pos length := by
            rw [hstep]; simp
          rw [hD] at hi
          obtain ⟨hi1, hi2, hi3, hi4⟩ := hi
          refine ⟨⟨hi1.lowMemorySkip, hi1.out, hi1.sentBytes⟩, hi2, hi3, ?_⟩
          rw [hi4, hstep]
          simp only [reduceCtorEq, if_false, List.length_cons]
          show (if flashFragment str (pos + 1) (length - 1) = [] then
              (s1.flashStringData + 1) % 4294967296
            else ((s1.flashStringData + 1) % 4294967296 +
              (flashFragment str (pos + 1) (length - 1)).length) % 4294967296) =
            (s1.flashStringData + ((flashFragment str (pos + 1) (length - 1)).length + 1)) %
              4294967296
          split
          · rename_i h0; rw [h0]; rfl
          · omega
      by_cases hz : flush_step = 0
      · simp only [hz, if_true]
        have hfull : s.buf.length = CHUNKED_BUFFER_SIZE p := by omega
        have hne : s.buf ≠ [] := by
          intro h0; rw [h0] at hfull; simp at hfull; omega
        have he := flush_emits p s hn
        rw [if_neg hne] at he
        have hbuf := flush_buf p s
        have hr := hround (flush p s) (CHUNKED_BUFFER_SIZE p : Int) (he.lowMemorySkip.trans hn)
          (by rw [hbuf]; simp; omega) (by rw [hbuf]; simp) _ rfl
        simp only [hbuf, List.nil_append] at hr ⊢
        have hfrag : flashFragment str pos length = [] → length < 0 := by
          intro h0
          by_contra hneg
          have := flashFragment_step str pos length hl (fun h => hneg h.2)
          rw [h0] at this
          exact absurd this (by simp)
        obtain ⟨h1, h2⟩ := flashChunks_flushed _ length s.buf (flashFragment str pos length)
          hc hfull hfrag
        rw [h1, h2]
        obtain ⟨hr1, hr2, hr3, hr4⟩ := hr
        refine ⟨by simpa using he.sends.sendsTrans hr1, hr2, hr3.trans he.flashStringCalls, ?_⟩
        rw [hr4, he.flashStringData]
      · simp only [hz, if_false]
        exact hround s flush_step hn (by omega) hf _ rfl

theorem slices_prefix_flatten (c : Nat) (d : List Byte) (n : Nat) :
    ((List.range n).map (fun i => (d.drop (i * c)).take c)).flatten = d.take (n * c) := by
  induction n with
  | zero => simp
  | succ n ih =>
    rw [List.range_succ, List.map_append, List.flatten_append, ih]
    have : (n + 1) * c = n * c + c := by ring
    rw [this, List.take_add]
    simp

theorem slices_flatten (c : Nat) (d : List Byte) :
    (slices c d).flatten ++ sliceRest c d = d := by
  unfold slices sliceRest
  rw [slices_prefix_flatten, List.take_append_drop]

theorem sliceCount_mul_lt (c : Nat) (d : List Byte) (hd : d ≠ []) :
    sliceCount c d * c < d.length := by
  have hl : 0 < d.length := List.length_pos.mpr hd
  have := Nat.div_mul_le_self (d.length - 1) c
  unfold sliceCount
  omega

theorem sliceRest_length_le (c : Nat) (d : List Byte) (hc : 0 < c) :
    (sliceRest c d).length ≤ c := by
  unfold sliceRest sliceCount
  rw [List.length_drop]
  have h1 := Nat.div_add_mod (d.length - 1) c
  have h2 := Nat.mod_lt (d.length - 1) hc
  have h3 : c * ((d.length - 1) / c) = (d.length - 1) / c * c := Nat.mul_comm _ _
  omega

theorem sliceRest_length_pos (c : Nat) (d : List Byte) (hd : d ≠ []) :
    1 ≤ (sliceRest c d).length := by
  have := sliceCount_mul_lt c d hd
  unfold sliceRest
  rw [List.length_drop]
  omega

theorem slices_length (c : Nat) (d : List Byte) : (slices c d).length = sliceCount c d := by
  simp [slices]

theorem slices_mem_length (c : Nat) (d : List Byte) (x : List Byte) (hx : x ∈ slices c d) :
    x.length = c := by
  unfold slices at hx
  rw [List.mem_map] at hx
  obtain ⟨i, hi, rfl⟩ := hx
  rw [List.mem_range] at hi
  rw [List.length_take, List.length_drop]
  have h1 := Nat.div_mul_le_self (d.length - 1) c
  have h2 : (i + 1) * c ≤ sliceCount c d * c := Nat.mul_le_mul_right c hi
  have h3 : (i + 1) * c = i * c + c := by ring
  unfold sliceCount at h2
  omega

theorem flashChunks_flatten (c : Nat) (length : Int) (d : List Byte) :
    (flashChunks c length d).flatten ++ flashRest c length d = d := by
  unfold flashChunks flashRest
  split
  · simpa using slices_flatten c d
  · simpa using slices_flatten c d

theorem flashRest_length_le (c : Nat) (length : Int) (d : List Byte) (hc : 0 < c) :
    (flashRest c length d).length ≤ c := by
  unfold flashRest
  split
  · simp
  · exact sliceRest_length_le c d hc

theorem flashChunks_explicit (c : Nat) (length : Int) (d : List Byte) (hl : 0 ≤ length) :
    flashChunks c length d = slices c d ∧ flashRest c length d = sliceRest c d := by
  have : ¬ length < 0 := by omega
  simp [flashChunks, flashRest, this]

theorem fullChunk_flatten (c : Nat) (b : List Byte) :
    (fullChunk c b).flatten ++ fullRest c b = b := by
  unfold fullChunk fullRest
  split <;> simp

theorem fullRest_length_lt (c : Nat) (b : List Byte) (hc : 0 < c) :
    (fullRest c b).length < c := by
  unfold fullRest
  split
  · simpa using hc
  · omega

theorem fullChunk_of_le (c : Nat) (b d : List Byte) (hc : 0 < c) (hb : b.length ≤ c)
    (hd : d ≠ []) :
    fullChunk c b ++ slices c (fullRest c b ++ d) = slices c (b ++ d) ∧
      sliceRest c (fullRest c b ++ d) = sliceRest c (b ++ d) := by
  unfold fullChunk fullRest
  by_cases h : c ≤ b.length
  · obtain ⟨h1, h2⟩ := slices_full c b d hc (by omega) hd
    simp [h, h1, h2]
  · simp [h]

theorem checkFull_normal (p : Platform) (s : Web_StreamingBuffer)
    (h : s.lowMemorySkip = false) :
    Emits s (checkFull p s) (fullChunk (CHUNKED_BUFFER_SIZE p) s.buf) ∧
      (checkFull p s).buf = fullRest (CHUNKED_BUFFER_SIZE p) s.buf := by
  unfold fullChunk fullRest
  by_cases hb : CHUNKED_BUFFER_SIZE p ≤ s.buf.length
  · simpa [hb] using checkFull_full p s h hb
  · rw [checkFull_notFull p s h (by omega)]
    simp [hb, Emits.emitsRefl]

theorem operatorPlusEq_char_normal (p : Platform) (a : Byte) (s : Web_StreamingBuffer)
    (h : s.lowMemorySkip = false) :
    Emits s (operatorPlusEq_char p a s) (fullChunk (CHUNKED_BUFFER_SIZE p) s.buf) ∧
      (operatorPlusEq_char p a s).buf = fullRest (CHUNKED_BUFFER_SIZE p) s.buf ++ [a] := by
  have hc := CHUNKED_BUFFER_SIZE_pos p
  unfold operatorPlusEq_char fullChunk fullRest
  by_cases hb : CHUNKED_BUFFER_SIZE p ≤ s.buf.length
  · have hne : s.buf ≠ [] := by
      intro h0; rw [h0] at hb; simp at hb; omega
    have he := flush_emits p s h
    rw [if_neg hne] at he
    simp only [ge_iff_le, hb, if_true, flush_buf, List.nil_append]
    refine ⟨?_, trivial⟩
    have h0 : Emits (flush p s) { flush p s with buf := [a] } [] := by
      constructor <;> simp
    simpa [flush_buf] using he.emitsTrans h0
  · simp only [ge_iff_le, hb, if_false]
    refine ⟨?_, trivial⟩
    constructor <;> simp

theorem operatorPlusEq_char_lowMemory (p : Platform) (a : Byte) (s : Web_StreamingBuffer)
    (h : s.lowMemorySkip = true) :
    operatorPlusEq_char p a s =
      { s with buf := fullRest (CHUNKED_BUFFER_SIZE p) s.buf ++ [a] } := by
  unfold operatorPlusEq_char fullRest
  by_cases hb : CHUNKED_BUFFER_SIZE p ≤ s.buf.length
  · simp [hb, flush_lowMemory p s h]
  · simp [hb]

theorem addString_lowMemory (p : Platform) (a : List Byte) (s : Web_StreamingBuffer)
    (h : s.lowMemorySkip = true) : addString p a s = s := by
  simp [addString, h]

theorem addString_nil (p : Platform) (s : Web_StreamingBuffer) : addString p [] s = s := by
  simp [addString]

theorem addString_normal (p : Platform) (a : List Byte) (s : Web_StreamingBuffer)
    (hn : s.lowMemorySkip = false) (ha : a ≠ []) :
    Emits s (addString p a s)
        (fullChunk (CHUNKED_BUFFER_SIZE p) s.buf ++
          slices (CHUNKED_BUFFER_SIZE p) (fullRest (CHUNKED_BUFFER_SIZE p) s.buf ++ a)) ∧
      (addString p a s).buf =
        sliceRest (CHUNKED_BUFFER_SIZE p) (fullRest (CHUNKED_BUFFER_SIZE p) s.buf ++ a) := by
  have hc := CHUNKED_BUFFER_SIZE_pos p
  have hal : a.length ≠ 0 := fun h => ha (List.eq_nil_of_length_eq_zero h)
  obtain ⟨he, hbuf⟩ := checkFull_normal p s hn
  have hlt := fullRest_length_lt (CHUNKED_BUFFER_SIZE p) s.buf hc
  rw [← hbuf] at hlt ⊢
  have hn1 : (checkFull p s).lowMemorySkip = false := he.lowMemorySkip.trans hn
  unfold addString
  rw [if_neg (by simp [hn]), if_neg hal]
  dsimp only
  generalize checkFull p s = s1 at he hlt hn1 ⊢
  have hfs : (if (CHUNKED_BUFFER_SIZE p : Int) - (s1.buf.length : Int) < 1 then (0 : Int)
      else (CHUNKED_BUFFER_SIZE p : Int) - (s1.buf.length : Int)) =
      (CHUNKED_BUFFER_SIZE p : Int) - (s1.buf.length : Int) := by
    rw [if_neg (by omega)]
  rw [hfs]
  by_cases hsmall : a.length < ((CHUNKED_BUFFER_SIZE p : Int) - (s1.buf.length : Int)).toNat
  · rw [if_pos hsmall]
    obtain ⟨h1, h2⟩ := slices_short (CHUNKED_BUFFER_SIZE p) (s1.buf ++ a) hc
      (by rw [List.length_append]; omega)
    rw [h1, h2, List.append_nil]
    refine ⟨?_, rfl⟩
    have h0 : Emits s1 { s1 with buf := s1.buf ++ a } [] := by
      constructor <;> simp
    simpa using he.emitsTrans h0
  · rw [if_neg hsmall]
    have hl := addStringLoop_spec p a (2 * a.length + 1) 0
      ((CHUNKED_BUFFER_SIZE p : Int) - (s1.buf.length : Int)) s1 hn1 (by omega) rfl
      (by omega) (by intro _ _; omega)
    rw [List.drop_zero] at hl
    exact ⟨he.emitsTrans hl.1, hl.2⟩

theorem addString_spec (p : Platform) (a : List Byte) (s : Web_StreamingBuffer)
    (hn : s.lowMemorySkip = false) (hb : s.buf.length ≤ CHUNKED_BUFFER_SIZE p) (ha : a ≠ []) :
    Emits s (addString p a s) (slices (CHUNKED_BUFFER_SIZE p) (s.buf ++ a)) ∧
      (addString p a s).buf = sliceRest (CHUNKED_BUFFER_SIZE p) (s.buf ++ a) := by
  obtain ⟨h1, h2⟩ := addString_normal p a s hn ha
  obtain ⟨h3, h4⟩ := fullChunk_of_le (CHUNKED_BUFFER_SIZE p) s.buf a
    (CHUNKED_BUFFER_SIZE_pos p) hb ha
  rw [h3] at h1
  rw [h4] at h2
  exact ⟨h1, h2⟩

theorem addFlashString_null (p : Platform) (length : Int) (s : Web_StreamingBuffer) :
    addFlashString p none length s = s := rfl

theorem addFlashString_lowMemory (p : Platform) (str : List Byte) (length : Int)
    (s : Web_StreamingBuffer) (h : s.lowMemorySkip = true) :
    addFlashString p (some str) length s =
      { s with flashStringCalls := add32 s.flashStringCalls 1 } := by
  simp [addFlashString, h]

theorem addFlashString_normal (p : Platform) (str : List Byte) (length : Int)
    (s : Web_StreamingBuffer) (hn : s.lowMemorySkip = false) :
    Sends s (addFlashString p (some str) length s)
        (fullChunk (CHUNKED_BUFFER_SIZE p) s.buf ++
          flashChunks (CHUNKED_BUFFER_SIZE p) length
            (fullRest (CHUNKED_BUFFER_SIZE p) s.buf ++ flashFragment str 0 length)) ∧
      (addFlashString p (some str) length s).buf =
        flashRest (CHUNKED_BUFFER_SIZE p) length
          (fullRest (CHUNKED_BUFFER_SIZE p) s.buf ++ flashFragment str 0 length) ∧
      (addFlashString p (some str) length s).flashStringCalls = add32 s.flashStringCalls 1 ∧
      (addFlashString p (some str) length s).flashStringData =
        (if flashFragment str 0 length = [] then s.flashStringData
         else (s.flashStringData + (flashFragment str 0 length).length) % UINT32_MOD) := by
  have hc := CHUNKED_BUFFER_SIZE_pos p
  obtain ⟨he, hbuf⟩ := checkFull_normal p { s with flashStringCalls := add32 s.flashStringCalls 1 } hn
  have hlt := fullRest_length_lt (CHUNKED_BUFFER_SIZE p) s.buf hc
  dsimp only at he hbuf
  rw [← hbuf] at hlt ⊢
  have hn1 := he.lowMemorySkip.trans hn
  unfold addFlashString
  dsimp only
  rw [if_neg (by simp [hn])]
  generalize checkFull p { s with flashStringCalls := add32 s.flashStringCalls 1 } = s1
    at he hlt hn1 ⊢
  have hfs : (if (CHUNKED_BUFFER_SIZE p : Int) - (s1.buf.length : Int) < 1 then (0 : Int)
      else (CHUNKED_BUFFER_SIZE p : Int) - (s1.buf.length : Int)) =
      (CHUNKED_BUFFER_SIZE p : Int) - (s1.buf.length : Int) := by
    rw [if_neg (by omega)]
  rw [hfs]
  obtain ⟨h1, h2, h3, h4⟩ := addFlashStringLoop_spec p str (length.toNat + str.length + 1) 0
    length ((CHUNKED_BUFFER_SIZE p : Int) - (s1.buf.length : Int)) s1 hn1 (by omega) rfl
    (by intro _; omega) (by intro _; omega)
  have hs0 : Sends s s1 (fullChunk (CHUNKED_BUFFER_SIZE p) s.buf) :=
    ⟨he.lowMemorySkip, he.out, he.sentBytes⟩
  refine ⟨hs0.sendsTrans h1, h2, ?_, ?_⟩
  · rw [h3, he.flashStringCalls]
  · rw [h4, he.flashStringData]

theorem sendHeaderWait_eq (f d fuel : Nat) (s : Web_StreamingBuffer) :
    sendHeaderWait f d fuel s = { s with env := (sendHeaderWait f d fuel s).env } := by
  induction fuel generalizing s with
  | zero => rfl
  | succ n ih =>
    unfold sendHeaderWait
    dsimp only
    split
    · rw [ih]; rfl
    · rfl

theorem sendHeaderBlocking_eq (p : Platform) (allowOriginAll : Bool)
    (content_type origin : String) (httpCode : Int) (cacheable : Bool)
    (s : Web_StreamingBuffer) :
    sendHeaderBlocking p allowOriginAll content_type origin httpCode cacheable s =
      { s with out := s.out ++ headerEvents p content_type origin httpCode cacheable,
               env := (sendHeaderBlocking p allowOriginAll content_type origin httpCode
                 cacheable s).env } := by
  unfold sendHeaderBlocking headerEvents
  cases p with
  | ESP8266 =>
    dsimp only
    rw [sendHeaderWait_eq]
    cases cacheable <;> by_cases ho : origin.length > 0 <;> simp [ho, delay]
  | ESP32 idfMajor =>
    dsimp only
    generalize decide (idfMajor > 4) = idf5
    cases cacheable <;> by_cases ho : origin.length > 0 <;> cases idf5 <;>
      cases hs : (origin == "*") <;> simp [ho, hs, delay]

theorem startStream_low (p : Platform) (allowOriginAll : Bool)
    (content_type origin : String) (httpCode : Int) (cacheable : Bool)
    (s : Web_StreamingBuffer) (hf : peekFreeHeap s.env < 3000) :
    startStream p allowOriginAll content_type origin httpCode cacheable s =
      { s with lowMemorySkip := true, maxCoreUsage := 0, maxServerUsage := 0,
               initialRam := peekFreeHeap s.env, beforeTXRam := peekFreeHeap s.env,
               sentBytes := 0, buf := [],
               out := s.out ++ (startEvents p ++ fallbackEvents p),
               env := popReserve (popFreeHeap s.env) } := by
  unfold startStream startEvents fallbackEvents fallbackResponse
  cases p <;> simp [hf]

theorem startStream_normal (p : Platform) (allowOriginAll : Bool)
    (content_type origin : String) (httpCode : Int) (cacheable : Bool)
    (s : Web_StreamingBuffer) (hf : 3000 ≤ peekFreeHeap s.env) :
    startStream p allowOriginAll content_type origin httpCode cacheable s =
      { s with maxCoreUsage := 0, maxServerUsage := 0,
               initialRam := peekFreeHeap s.env, beforeTXRam := peekFreeHeap s.env,
               sentBytes := 0, buf := [],
               out := s.out ++ (startEvents p ++
                 headerEvents p content_type origin httpCode cacheable),
               env := (startStream p allowOriginAll content_type origin httpCode
                 cacheable s).env } := by
  have hf2 : ¬ peekFreeHeap s.env < 3000 := by omega
  unfold startStream startEvents
  cases p with
  | ESP8266 =>
    dsimp only
    rw [if_neg hf2, sendHeaderBlocking_eq]
    simp
  | ESP32 idfMajor =>
    dsimp only
    rw [if_neg hf2, sendHeaderBlocking_eq]
    simp

theorem chunksOf_startEvents (p : Platform) : chunksOf (startEvents p) = [] := by
  cases p <;> rfl

theorem chunksOf_fallbackEvents (p : Platform) : chunksOf (fallbackEvents p) = [] := by
  cases p <;> rfl

theorem chunksOf_headerEvents (p : Platform) (content_type origin : String) (httpCode : Int)
    (cacheable : Bool) : chunksOf (headerEvents p content_type origin httpCode cacheable) = [] := by
  unfold headerEvents
  dsimp only
  generalize (match p with
    | .ESP8266 => false
    | .ESP32 idfMajor => decide (idfMajor > 4)) = idf5
  cases cacheable <;> by_cases ho : origin.length > 0 <;> cases idf5 <;>
    cases hs : (origin == "*") <;> simp [ho, hs, chunksOf]

theorem endStream_normal_out (p : Platform) (s : Web_StreamingBuffer)
    (hn : s.lowMemorySkip = false) :
    (endStream p s).out = s.out ++ ((if s.buf = [] then [] else [Event.sendContent s.buf]) ++
      [Event.sendContent [], Event.clientFlush]) := by
  unfold endStream
  simp only [hn, Bool.not_false, if_true, delay]
  rw [sendContentBlocking_out]
  by_cases hb : s.buf = []
  · simp [hb]
  · have : s.buf.length > 0 := List.length_pos.mpr hb
    simp [hb, this, sendContentBlocking_out]

theorem endStream_normal_sentBytes (p : Platform) (s : Web_StreamingBuffer)
    (hn : s.lowMemorySkip = false) :
    (endStream p s).sentBytes = (s.sentBytes + s.buf.length) % UINT32_MOD := by
  unfold endStream
  simp only [hn, Bool.not_false, if_true, delay]
  rw [sendContentBlocking_sentBytes]
  by_cases hb : s.buf = []
  · simp [hb]
  · have : s.buf.length > 0 := List.length_pos.mpr hb
    simp [hb, this, sendContentBlocking_sentBytes]

theorem endStream_buf (p : Platform) (s : Web_StreamingBuffer)
    (hn : s.lowMemorySkip = false) : (endStream p s).buf = [] := by
  unfold endStream
  simp only [hn, Bool.not_false, if_true, delay]
  rw [sendContentBlocking_buf]

theorem endStream_lowMemorySkip (p : Platform) (s : Web_StreamingBuffer) :
    (endStream p s).lowMemorySkip = false := by
  unfold endStream
  cases hn : s.lowMemorySkip
  · simp only [Bool.not_false, if_true, delay]
    rw [sendContentBlocking_lowMemorySkip]
    split
    · exact (sendContentBlocking_lowMemorySkip p s).trans hn
    · exact hn
  · simp [delay]

theorem endStream_lowMemory (p : Platform) (s : Web_StreamingBuffer)
    (hl : s.lowMemorySkip = true) :
    endStream p s = { s with
      lowMemorySkip := false,
      out := s.out ++ (if s.env.logError then
        [Event.addLog LogLevel.LOG_LEVEL_ERROR "Webpage skipped: low memory: " s.finalRam]
        else []),
      env := { s.env with now := s.env.now + 5 } } := by
  unfold endStream
  cases hlog : s.env.logError <;> simp [hl, hlog, delay]

theorem sendHeaderBlocking_frame (p : Platform) (allowOriginAll : Bool)
    (content_type origin : String) (httpCode : Int) (cacheable : Bool)
    (s : Web_StreamingBuffer) :
    Frame { s with out := s.out ++ headerEvents p content_type origin httpCode cacheable }
      (sendHeaderBlocking p allowOriginAll content_type origin httpCode cacheable s) := by
  unfold sendHeaderBlocking headerEvents
  cases p with
  | ESP8266 =>
    dsimp only
    refine Frame.frameTrans ?_ (Frame.frameTrans (sendHeaderWait_frame _ _ _ _) (delay_frame _ _))
    cases cacheable <;> by_cases ho : origin.length > 0 <;>
      simp [ho] <;> constructor <;> simp
  | ESP32 idfMajor =>
    dsimp only
    refine Frame.frameTrans ?_ (delay_frame _ _)
    generalize decide (idfMajor > 4) = idf5
    cases cacheable <;> by_cases ho : origin.length > 0 <;> cases idf5 <;>
      cases hs : (origin == "*") <;> simp [ho, hs] <;> constructor <;> simp

theorem Call.run_normal (p : Platform) (c : Call) (s : Web_StreamingBuffer)
    (hn : s.lowMemorySkip = false) :
    ∃ cs, Sends s (c.run p s) cs ∧ cs.flatten ++ (c.run p s).buf = s.buf ++ c.fragment := by
  cases c with
  | char a =>
    obtain ⟨h1, h2⟩ := operatorPlusEq_char_normal p a s hn
    refine ⟨_, h1.sends, ?_⟩
    show _ ++ (operatorPlusEq_char p a s).buf = _
    rw [h2, ← List.append_assoc, fullChunk_flatten]
    rfl
  | string a =>
    by_cases ha : a = []
    · subst ha
      refine ⟨[], ?_, ?_⟩
      · show Sends s (addString p [] s) []
        rw [addString_nil]; exact Sends.sendsRefl s
      · show _ ++ (addString p [] s).buf = _
        rw [addString_nil]; simp [Call.fragment]
    · obtain ⟨h1, h2⟩ := addString_normal p a s hn ha
      refine ⟨_, h1.sends, ?_⟩
      show _ ++ (addString p a s).buf = _
      rw [h2, List.flatten_append, List.append_assoc, slices_flatten, ← List.append_assoc,
        fullChunk_flatten]
      rfl
  | flashString str length =>
    cases str with
    | none => exact ⟨[], Sends.sendsRefl s, by simp [Call.run, Call.fragment, addFlashString]⟩
    | some str =>
      obtain ⟨h1, h2, _, _⟩ := addFlashString_normal p str length s hn
      refine ⟨_, h1, ?_⟩
      show _ ++ (addFlashString p (some str) length s).buf = _
      rw [h2, List.flatten_append, List.append_assoc, flashChunks_flatten, ← List.append_assoc,
        fullChunk_flatten]
      rfl
  | flush =>
    refine ⟨_, (flush_emits p s hn).sends, ?_⟩
    show _ ++ (ESPEasy.flush p s).buf = _
    rw [flush_buf]
    by_cases hb : s.buf = [] <;> simp [hb, Call.fragment]

theorem runCalls_normal (p : Platform) (calls : List Call) (s : Web_StreamingBuffer)
    (hn : s.lowMemorySkip = false) :
    ∃ cs, Sends s (runCalls p calls s) cs ∧
      cs.flatten ++ (runCalls p calls s).buf = s.buf ++ fragments calls := by
  induction calls generalizing s with
  | nil => exact ⟨[], Sends.sendsRefl s, by simp [runCalls, fragments]⟩
  | cons c l ih =>
    obtain ⟨cs, h1, h2⟩ := Call.run_normal p c s hn
    obtain ⟨ds, h3, h4⟩ := ih (c.run p s) (h1.lowMemorySkip.trans hn)
    refine ⟨cs ++ ds, h1.sendsTrans h3, ?_⟩
    show _ ++ (runCalls p l (c.run p s)).buf = _
    rw [List.flatten_append, List.append_assoc, h4, ← List.append_assoc, h2]
    simp [fragments]

theorem Call.run_lowMemory (p : Platform) (c : Call) (s : Web_StreamingBuffer)
    (hl : s.lowMemorySkip = true) :
    (c.run p s).lowMemorySkip = true ∧ (c.run p s).out = s.out ∧
      (c.run p s).sentBytes = s.sentBytes := by
  cases c with
  | char a =>
    have e : Call.run p (.char a) s = operatorPlusEq_char p a s := rfl
    rw [e, operatorPlusEq_char_lowMemory p a s hl]
    exact ⟨hl, rfl, rfl⟩
  | string a =>
    have e : Call.run p (.string a) s = addString p a s := rfl
    rw [e, addString_lowMemory p a s hl]
    exact ⟨hl, rfl, rfl⟩
  | flashString str length =>
    cases str with
    | none => exact ⟨hl, rfl, rfl⟩
    | some str =>
      have e : Call.run p (.flashString (some str) length) s =
        addFlashString p (some str) length s := rfl
      rw [e, addFlashString_lowMemory p str length s hl]
      exact ⟨hl, rfl, rfl⟩
  | flush =>
    have e : Call.run p .flush s = ESPEasy.flush p s := rfl
    rw [e, flush_lowMemory p s hl]
    exact ⟨hl, rfl, rfl⟩

theorem runCalls_lowMemory (p : Platform) (calls : List Call) (s : Web_StreamingBuffer)
    (hl : s.lowMemorySkip = true) :
    (runCalls p calls s).lowMemorySkip = true ∧ (runCalls p calls s).out = s.out ∧
      (runCalls p calls s).sentBytes = s.sentBytes := by
  induction calls generalizing s with
  | nil => exact ⟨hl, rfl, rfl⟩
  | cons c l ih =>
    obtain ⟨h1, h2, h3⟩ := Call.run_lowMemory p c s hl
    obtain ⟨h4, h5, h6⟩ := ih (c.run p s) h1
    exact ⟨h4, h5.trans h2, h6.trans h3⟩

theorem Call.run_buf_le (p : Platform) (c : Call) (s : Web_StreamingBuffer)
    (hb : s.buf.length ≤ CHUNKED_BUFFER_SIZE p) :
    (c.run p s).buf.length ≤ CHUNKED_BUFFER_SIZE p := by
  have hc := CHUNKED_BUFFER_SIZE_pos p
  cases hm : s.lowMemorySkip
  · cases c with
    | char a =>
      show (operatorPlusEq_char p a s).buf.length ≤ _
      rw [(operatorPlusEq_char_normal p a s hm).2]
      have := fullRest_length_lt (CHUNKED_BUFFER_SIZE p) s.buf hc
      simp only [List.length_append, List.length_singleton]
      omega
    | string a =>
      show (addString p a s).buf.length ≤ _
      by_cases ha : a = []
      · rw [ha, addString_nil]; exact hb
      · rw [(addString_normal p a s hm ha).2]
        exact sliceRest_length_le _ _ hc
    | flashString str length =>
      cases str with
      | none => exact hb
      | some str =>
        show (addFlashString p (some str) length s).buf.length ≤ _
        rw [(addFlashString_normal p str length s hm).2.1]
        exact flashRest_length_le _ _ _ hc
    | flush =>
      show (ESPEasy.flush p s).buf.length ≤ _
      rw [flush_buf]; simp
  · cases c with
    | char a =>
      show (operatorPlusEq_char p a s).buf.length ≤ _
      rw [operatorPlusEq_char_lowMemory p a s hm]
      have := fullRest_length_lt (CHUNKED_BUFFER_SIZE p) s.buf hc
      simp only [List.length_append, List.length_singleton]
      omega
    | string a =>
      show (addString p a s).buf.length ≤ _
      rw [addString_lowMemory p a s hm]; exact hb
    | flashString str length =>
      cases str with
      | none => exact hb
      | some str =>
        show (addFlashString p (some str) length s).buf.length ≤ _
        rw [addFlashString_lowMemory p str length s hm]; exact hb
    | flush =>
      show (ESPEasy.flush p s).buf.length ≤ _
      rw [flush_buf]; simp

/-- The stream from a `startStream` that leaves the low-memory mode off to `endStream`. -/
theorem stream_normal (p : Platform) (allowOriginAll : Bool) (content_type origin : String)
    (httpCode : Int) (cacheable : Bool) (calls : List Call) (s : Web_StreamingBuffer)
    (hn : s.lowMemorySkip = false) (hf : 3000 ≤ peekFreeHeap s.env) :
    ∃ cs, chunks (endStream p (runCalls p calls
        (startStream p allowOriginAll content_type origin httpCode cacheable s))) =
          chunks s ++ cs ∧
      cs.flatten = fragments calls ∧
      (endStream p (runCalls p calls
        (startStream p allowOriginAll content_type origin httpCode cacheable s))).sentBytes =
          (fragments calls).length % UINT32_MOD := by
  have hstart := startStream_normal p allowOriginAll content_type origin httpCode cacheable s hf
  generalize startStream p allowOriginAll content_type origin httpCode cacheable s = s1
    at hstart ⊢
  have hn1 : s1.lowMemorySkip = false := by rw [hstart]; exact hn
  have hb1 : s1.buf = [] := by rw [hstart]
  have hsb1 : s1.sentBytes = 0 := by rw [hstart]
  have hch1 : chunks s1 = chunks s := by
    unfold chunks
    rw [hstart]
    simp [chunksOf_append, chunksOf_startEvents, chunksOf_headerEvents]
  obtain ⟨cs, h1, h2⟩ := runCalls_normal p calls s1 hn1
  generalize runCalls p calls s1 = sn at h1 h2 ⊢
  have hnn : sn.lowMemorySkip = false := h1.lowMemorySkip.trans hn1
  rw [hb1, List.nil_append] at h2
  refine ⟨cs ++ ((if sn.buf = [] then [] else [sn.buf]) ++ [[]]), ?_, ?_, ?_⟩
  · unfold chunks
    rw [endStream_normal_out p sn hnn, chunksOf_append]
    show chunksOf sn.out ++ _ = _
    have := h1.sendsChunks
    unfold chunks at this hch1
    rw [this, hch1, List.append_assoc]
    congr 1
    congr 1
    by_cases hb : sn.buf = [] <;> simp [hb, chunksOf]
  · rw [← h2]
    by_cases hb : sn.buf = [] <;> simp [hb]
  · rw [endStream_normal_sentBytes p sn hnn, h1.sentBytes, hsb1, ← h2]
    simp only [List.length_append, Nat.zero_add]
    by_cases hc : cs = []
    · simp [hc]
    · simp only [hc, if_false]
      show (cs.flatten.length % 4294967296 + sn.buf.length) % 4294967296 =
        (cs.flatten.length + sn.buf.length) % 4294967296
      omega

theorem Sends.sendsTransmitted {s t : Web_StreamingBuffer} {cs : List (List Byte)}
    (h : Sends s t cs) : transmitted t = transmitted s ++ cs.flatten := by
  unfold transmitted
  rw [h.sendsChunks, List.flatten_append]

theorem Call.run_lossless (p : Platform) (c : Call) (s : Web_StreamingBuffer)
    (hn : s.lowMemorySkip = false) :
    transmitted (c.run p s) ++ (c.run p s).buf = transmitted s ++ s.buf ++ c.fragment := by
  obtain ⟨cs, h1, h2⟩ := Call.run_normal p c s hn
  rw [h1.sendsTransmitted, List.append_assoc, h2, List.append_assoc]

theorem fragments_longStream : (fragments longStream).length = 4294967296 := by
  unfold fragments longStream
  have h : (Call.fragment (Call.string (List.replicate 512 (65 : Byte)))).length = 512 :=
    List.length_replicate 512 65
  rw [List.map_replicate, List.length_flatten, List.map_replicate, h, List.sum_replicate,
    smul_eq_mul]

theorem slices_head (c : Nat) (b d : List Byte) (hc : 0 < c) (hb : b.length < c)
    (hd : c < b.length + d.length) :
    slices c (b ++ d) = (b ++ d.take (c - b.length)) :: slices c (d.drop (c - b.length)) ∧
      sliceRest c (b ++ d) = sliceRest c (d.drop (c - b.length)) ∧
      (b ++ d.take (c - b.length)).length = c := by
  have hlen : (b ++ d.take (c - b.length)).length = c := by
    rw [List.length_append, List.length_take]; omega
  have hne : d.drop (c - b.length) ≠ [] := by
    intro h0
    have := congrArg List.length h0
    rw [List.length_drop] at this
    simp at this
    omega
  have hsplit : b ++ d = (b ++ d.take (c - b.length)) ++ d.drop (c - b.length) := by
    rw [List.append_assoc, List.take_append_drop]
  obtain ⟨h1, h2⟩ := slices_full c _ _ hc hlen hne
  rw [hsplit, h1, h2]
  exact ⟨rfl, rfl, hlen⟩

theorem flashChunks_head (c : Nat) (length : Int) (b d : List Byte) (hc : 0 < c)
    (hb : b.length < c) (hd : c < b.length + d.length) :
    flashChunks c length (b ++ d) =
      (b ++ d.take (c - b.length)) :: flashChunks c length (d.drop (c - b.length)) ∧
    flashRest c length (b ++ d) = flashRest c length (d.drop (c - b.length)) := by
  obtain ⟨h1, h2, _⟩ := slices_head c b d hc hb hd
  simp [flashChunks, flashRest, h1, h2]

theorem flashFragment_length (str : List Byte) (pos : Nat) (length : Int) (hl : 0 ≤ length) :
    (flashFragment str pos length).length = length.toNat := by
  unfold flashFragment
  rw [if_neg (by omega)]
  simp

theorem isHeaderCall_startEvents (p : Platform) :
    ∀ e ∈ startEvents p ++ fallbackEvents p, e.isHeaderCall = false := by
  cases p <;> simp [startEvents, fallbackEvents, fallbackResponse, Event.isHeaderCall]

theorem send_mem_headerEvents (p : Platform) (content_type origin : String) (httpCode : Int)
    (cacheable : Bool) :
    Event.send httpCode content_type "" ∈ headerEvents p content_type origin httpCode cacheable := by
  simp [headerEvents]

theorem fallbackResponse_not_mem (p : Platform) (content_type origin : String) (httpCode : Int)
    (cacheable : Bool) :
    fallbackResponse ∉ startEvents p ++ headerEvents p content_type origin httpCode cacheable := by
  unfold headerEvents
  cases p with
  | ESP8266 =>
    cases cacheable <;> by_cases ho : origin.length > 0 <;>
      simp [ho, startEvents, fallbackResponse]
  | ESP32 idfMajor =>
    dsimp only
    generalize decide (idfMajor > 4) = idf5
    cases cacheable <;> by_cases ho : origin.length > 0 <;> cases idf5 <;>
      cases hs : (origin == "*") <;> simp [ho, hs, startEvents, fallbackResponse]

theorem flush_of_buf_nil (p : Platform) (s : Web_StreamingBuffer) (hb : s.buf = []) :
    flush p s = s := by
  unfold flush
  cases hm : s.lowMemorySkip
  · simp [hb]
  · simp only [if_true]
    cases s
    simp_all

theorem timeOutReached_after (start k : Nat) (e : Env) (hnow : e.now = start + k)
    (hk : k ≤ 100) :
    timeOutReached (add32 (start % UINT32_MOD) 100) e = decide (k = 100) := by
  unfold timeOutReached timePassedSince toInt32 sub32 millis add32 UINT32_MOD
  rw [hnow]
  by_cases h : k = 100
  · subst h
    simp only [decide_True, decide_eq_true_eq]
    split <;> omega
  · simp only [h, decide_False, decide_eq_false_iff_not]
    split <;> omega

theorem sendContentWaitCond_now (timeout : Nat) (e : Env) :
    (sendContentWaitCond timeout e).2.now = e.now := by
  unfold sendContentWaitCond
  dsimp only
  split
  · rfl
  · split <;> rfl

theorem sendContentWaitCond_true (timeout : Nat) (e : Env)
    (h : (sendContentWaitCond timeout e).1 = true) :
    timeOutReached timeout (sendContentWaitCond timeout e).2 = false := by
  unfold sendContentWaitCond at h ⊢
  dsimp only at h ⊢
  split at h
  · rename_i h1
    rw [if_pos h1]
    simpa using h
  · rename_i h1
    rw [if_neg h1]
    split at h
    · rename_i h2
      rw [if_pos h2]
      simpa using h
    · exact absurd h (by simp)

theorem trackCoreMem_now (s : Web_StreamingBuffer) :
    (trackCoreMem s).env.now = s.env.now := by
  unfold trackCoreMem
  dsimp only
  split <;> rfl

theorem sendContentWaitBody_now (s : Web_StreamingBuffer) :
    (sendContentWaitBody s).env.now = s.env.now + 1 := by
  unfold sendContentWaitBody
  dsimp only
  split
  · show (trackCoreMem _).env.now + 1 = _
    rw [trackCoreMem_now]; rfl
  · show (trackCoreMem _).env.now + 1 = _
    rw [trackCoreMem_now]; rfl

/-- The wait loop of `sendContentBlocking` ends by itself: once `k` milliseconds of the 100 have
passed, `101 - k` evaluations of the condition are enough, and more fuel changes nothing. -/
theorem sendContentWait_fuel (start k : Nat) (hk : k ≤ 100) (s : Web_StreamingBuffer)
    (hnow : s.env.now = start + k) (fuel extra : Nat) (hfuel : 101 - k ≤ fuel) :
    sendContentWait (add32 (start % UINT32_MOD) 100) (fuel + extra) s =
      sendContentWait (add32 (start % UINT32_MOD) 100) fuel s := by
  induction fuel generalizing k s with
  | zero => omega
  | succ n ih =>
    have e1 : n + 1 + extra = (n + extra) + 1 := by omega
    rw [e1]
    unfold sendContentWait
    dsimp only
    by_cases hc : (sendContentWaitCond (add32 (start % UINT32_MOD) 100) s.env).1 = true
    · rw [if_pos hc, if_pos hc]
      have h1 := sendContentWaitCond_true _ _ hc
      have h2 := timeOutReached_after start k
        (sendContentWaitCond (add32 (start % UINT32_MOD) 100) s.env).2
        ((sendContentWaitCond_now _ _).trans hnow) hk
      rw [h2] at h1
      have hk2 : k ≠ 100 := by simpa using h1
      exact ih (k + 1) (by omega) _
        (by rw [sendContentWaitBody_now]; show (sendContentWaitCond _ _).2.now + 1 = _
            rw [sendContentWaitCond_now, hnow]; omega)
        (by omega)
    · rw [if_neg hc, if_neg hc]

theorem sendHeaderWaitCond_now (f deadline : Nat) (e : Env) :
    (sendHeaderWaitCond f deadline e).2.now = e.now := by
  unfold sendHeaderWaitCond
  dsimp only
  split <;> rfl

theorem sendHeaderWaitCond_true (f deadline : Nat) (e : Env)
    (h : (sendHeaderWaitCond f deadline e).1 = true) :
    timeOutReached deadline (sendHeaderWaitCond f deadline e).2 = false := by
  unfold sendHeaderWaitCond at h ⊢
  dsimp only at h ⊢
  split at h
  · rename_i h1
    rw [if_pos h1]
    simpa using h
  · exact absurd h (by simp)

/-- The wait loop of `sendHeaderBlocking` ends by itself within 101 evaluations of its
condition; more fuel changes nothing. -/
theorem sendHeaderWait_fuel (f start k : Nat) (hk : k ≤ 100) (s : Web_StreamingBuffer)
    (hnow : s.env.now = start + k) (fuel extra : Nat) (hfuel : 101 - k ≤ fuel) :
    sendHeaderWait f (add32 (start % UINT32_MOD) 100) (fuel + extra) s =
      sendHeaderWait f (add32 (start % UINT32_MOD) 100) fuel s := by
  induction fuel generalizing k s with
  | zero => omega
  | succ n ih =>
    have e1 : n + 1 + extra = (n + extra) + 1 := by omega
    rw [e1]
    unfold sendHeaderWait
    dsimp only
    by_cases hc : (sendHeaderWaitCond f (add32 (start % UINT32_MOD) 100) s.env).1 = true
    · rw [if_pos hc, if_pos hc]
      have h1 := sendHeaderWaitCond_true _ _ _ hc
      have h2 := timeOutReached_after start k
        (sendHeaderWaitCond f (add32 (start % UINT32_MOD) 100) s.env).2
        ((sendHeaderWaitCond_now _ _ _).trans hnow) hk
      rw [h2] at h1
      have hk2 : k ≠ 100 := by simpa using h1
      exact ih (k + 1) (by omega) _
        (by show (sendHeaderWaitCond _ _ _).2.now + 1 = _
            rw [sendHeaderWaitCond_now, hnow]; omega)
        (by omega)
    · rw [if_neg hc, if_neg hc]

/-- The fuel of 101 that `sendContentBlocking` gives its wait loop is enough. -/
theorem sendContentWait_enough (s : Web_StreamingBuffer) (extra : Nat) :
    sendContentWait (add32 (millis s.env) 100) (101 + extra) s =
      sendContentWait (add32 (millis s.env) 100) 101 s :=
  sendContentWait_fuel s.env.now 0 (by omega) s rfl 101 extra (by omega)

/-- The fuel of 101 that `sendHeaderBlocking` gives its wait loop is enough. -/
theorem sendHeaderWait_enough (f : Nat) (s : Web_StreamingBuffer) (extra : Nat) :
    sendHeaderWait f (add32 (millis s.env) 100) (101 + extra) s =
      sendHeaderWait f (add32 (millis s.env) 100) 101 s :=
  sendHeaderWait_fuel f s.env.now 0 (by omega) s rfl 101 extra (by omega)

theorem addString_scenario_D (s : Web_StreamingBuffer) (hn : s.lowMemorySkip = false)
    (a : List Byte) (hb : s.buf.length = 400) (ha : a.length = 200) :
    chunks (addString Platform.ESP8266 a s) = chunks s ++ [s.buf ++ a.take 112] ∧
    (s.buf ++ a.take 112).length = 512 ∧
    (addString Platform.ESP8266 a s).buf = a.drop 112 ∧
    (addString Platform.ESP8266 a s).buf.length = 88 := by
  have hane : a ≠ [] := by
    intro h0; rw [h0] at ha; simp at ha
  have hC : CHUNKED_BUFFER_SIZE Platform.ESP8266 = 512 := rfl
  obtain ⟨h1, h2⟩ := addString_spec Platform.ESP8266 a s hn (by rw [hC]; omega) hane
  rw [hC] at h1 h2
  obtain ⟨h3, h4, h5⟩ := slices_head 512 s.buf a (by omega) (by omega) (by omega)
  obtain ⟨h6, h7⟩ := slices_short 512 (a.drop (512 - s.buf.length)) (by omega)
    (by rw [List.length_drop]; omega)
  have h112 : 512 - s.buf.length = 112 := by omega
  rw [h3, h6, h112] at h1
  rw [h4, h7, h112] at h2
  rw [h112] at h5
  refine ⟨h1.emitsChunks, h5, h2, ?_⟩
  rw [h2, List.length_drop]
  omega

/-- In low-memory mode no append and no flush touches the heap snapshots or the
surroundings. -/
theorem Call.run_lowMemory_frame (p : Platform) (c : Call) (s : Web_StreamingBuffer)
    (hl : s.lowMemorySkip = true) :
    (c.run p s).finalRam = s.finalRam ∧ (c.run p s).initialRam = s.initialRam ∧
      (c.run p s).env = s.env := by
  cases c with
  | char a =>
    have e : Call.run p (.char a) s = operatorPlusEq_char p a s := rfl
    rw [e, operatorPlusEq_char_lowMemory p a s hl]
    exact ⟨rfl, rfl, rfl⟩
  | string a =>
    have e : Call.run p (.string a) s = addString p a s := rfl
    rw [e, addString_lowMemory p a s hl]
    exact ⟨rfl, rfl, rfl⟩
  | flashString str length =>
    cases str with
    | none => exact ⟨rfl, rfl, rfl⟩
    | some str =>
      have e : Call.run p (.flashString (some str) length) s =
        addFlashString p (some str) length s := rfl
      rw [e, addFlashString_lowMemory p str length s hl]
      exact ⟨rfl, rfl, rfl⟩
  | flush =>
    have e : Call.run p .flush s = ESPEasy.flush p s := rfl
    rw [e, flush_lowMemory p s hl]
    exact ⟨rfl, rfl, rfl⟩

theorem runCalls_lowMemory_frame (p : Platform) (calls : List Call) (s : Web_StreamingBuffer)
    (hl : s.lowMemorySkip = true) :
    (runCalls p calls s).finalRam = s.finalRam ∧ (runCalls p calls s).initialRam = s.initialRam ∧
      (runCalls p calls s).env = s.env := by
  induction calls generalizing s with
  | nil => exact ⟨rfl, rfl, rfl⟩
  | cons c l ih =>
    obtain ⟨h1, h2, h3⟩ := Call.run_lowMemory_frame p c s hl
    obtain ⟨h4, h5, h6⟩ := ih (c.run p s) (Call.run_lowMemory p c s hl).1
    exact ⟨h4.trans h1, h5.trans h2, h6.trans h3⟩

theorem fullChunk_mem (c : Nat) (b x : List Byte) (hx : x ∈ fullChunk c b) :
    x = b ∧ c ≤ b.length := by
  unfold fullChunk at hx
  split at hx
  · simp at hx
    exact ⟨hx, by assumption⟩
  · simp at hx

theorem flashChunks_mem_length (c : Nat) (length : Int) (d x : List Byte)
    (hx : x ∈ flashChunks c length d) : x.length = c := by
  unfold flashChunks at hx
  rcases List.mem_append.mp hx with h | h
  · exact slices_mem_length c d x h
  · split at h
    · rename_i hc
      simp at h
      rw [h]; exact hc.2
    · simp at h

theorem Call.run_chunk_bounds (p : Platform) (c : Call) (s : Web_StreamingBuffer) :
    ∃ cs : List (List Byte), (c.run p s).out = s.out ++ cs.map Event.sendContent ∧
      (∀ x ∈ cs, 1 ≤ x.length) ∧
      (s.buf.length ≤ CHUNKED_BUFFER_SIZE p →
        ∀ x ∈ cs, x.length ≤ CHUNKED_BUFFER_SIZE p) := by
  have hc := CHUNKED_BUFFER_SIZE_pos p
  cases hm : s.lowMemorySkip
  · cases c with
    | char a =>
      obtain ⟨h1, _⟩ := operatorPlusEq_char_normal p a s hm
      refine ⟨_, h1.out, ?_, ?_⟩
      · intro x hx
        obtain ⟨h2, h3⟩ := fullChunk_mem _ _ _ hx
        rw [h2]; omega
      · intro hb x hx
        obtain ⟨h2, _⟩ := fullChunk_mem _ _ _ hx
        rw [h2]; exact hb
    | string a =>
      by_cases ha : a = []
      · subst ha
        refine ⟨[], ?_, by simp, by simp⟩
        show (addString p [] s).out = _
        rw [addString_nil]; simp
      · obtain ⟨h1, _⟩ := addString_normal p a s hm ha
        refine ⟨_, h1.out, ?_, ?_⟩
        · intro x hx
          rcases List.mem_append.mp hx with h | h
          · obtain ⟨h2, h3⟩ := fullChunk_mem _ _ _ h
            rw [h2]; omega
          · rw [slices_mem_length _ _ x h]; omega
        · intro hb x hx
          rcases List.mem_append.mp hx with h | h
          · obtain ⟨h2, _⟩ := fullChunk_mem _ _ _ h
            rw [h2]; exact hb
          · rw [slices_mem_length _ _ x h]
    | flashString str length =>
      cases str with
      | none => exact ⟨[], by simp [Call.run, addFlashString], by simp, by simp⟩
      | some str =>
        obtain ⟨h1, _, _, _⟩ := addFlashString_normal p str length s hm
        refine ⟨_, h1.out, ?_, ?_⟩
        · intro x hx
          rcases List.mem_append.mp hx with h | h
          · obtain ⟨h2, h3⟩ := fullChunk_mem _ _ _ h
            rw [h2]; omega
          · rw [flashChunks_mem_length _ _ _ x h]; omega
        · intro hb x hx
          rcases List.mem_append.mp hx with h | h
          · obtain ⟨h2, _⟩ := fullChunk_mem _ _ _ h
            rw [h2]; exact hb
          · rw [flashChunks_mem_length _ _ _ x h]
    | flush =>
      refine ⟨_, (flush_emits p s hm).out, ?_, ?_⟩
      · intro x hx
        by_cases hb : s.buf = []
        · simp [hb] at hx
        · simp [hb] at hx
          rw [hx]
          exact List.length_pos.mpr hb
      · intro hb x hx
        by_cases hb2 : s.buf = []
        · simp [hb2] at hx
        · simp [hb2] at hx
          rw [hx]; exact hb
  · exact ⟨[], by simpa using (Call.run_lowMemory p c s hm).2.1, by simp, by simp⟩

theorem runCalls_chunk_bounds (p : Platform) (calls : List Call) (s : Web_StreamingBuffer)
    (hb : s.buf.length ≤ CHUNKED_BUFFER_SIZE p) :
    ∃ cs : List (List Byte), (runCalls p calls s).out = s.out ++ cs.map Event.sendContent ∧
      (∀ x ∈ cs, 1 ≤ x.length ∧ x.length ≤ CHUNKED_BUFFER_SIZE p) ∧
      (runCalls p calls s).buf.length ≤ CHUNKED_BUFFER_SIZE p := by
  induction calls generalizing s with
  | nil => exact ⟨[], by simp [runCalls], by simp, hb⟩
  | cons c l ih =>
    obtain ⟨cs, h1, h2, h3⟩ := Call.run_chunk_bounds p c s
    obtain ⟨ds, h4, h5, h6⟩ := ih (c.run p s) (Call.run_buf_le p c s hb)
    refine ⟨cs ++ ds, ?_, ?_, h6⟩
    · show (runCalls p l (c.run p s)).out = _
      rw [h4, h1, List.map_append, List.append_assoc]
    · intro x hx
      rcases List.mem_append.mp hx with h | h
      · exact ⟨h2 x h, h3 hb x h⟩
      · exact h5 x h

theorem runCalls_lowMemorySkip (p : Platform) (calls : List Call) (s : Web_StreamingBuffer) :
    (runCalls p calls s).lowMemorySkip = s.lowMemorySkip := by
  cases hm : s.lowMemorySkip
  · obtain ⟨cs, h, _⟩ := runCalls_normal p calls s hm
    rw [h.lowMemorySkip, hm]
  · exact (runCalls_lowMemory p calls s hm).1

theorem flashFragment_explicit (str : List Byte) (length : Int) (hl : 0 ≤ length) :
    flashFragment str 0 length = (List.range length.toNat).map (pgm_read_byte str) := by
  unfold flashFragment
  rw [if_neg (by omega)]
  simp

theorem flashFragment_negative (str : List Byte) (length : Int) (hl : length < 0) :
    flashFragment str 0 length = str.takeWhile (fun c => c != 0) := by
  unfold flashFragment
  rw [if_pos hl]
  simp

theorem pgm_read_byte_take (str : List Byte) (n : Nat) (hn : n ≤ str.length) :
    (List.range n).map (pgm_read_byte str) = str.take n := by
  apply List.ext_getElem
  · simp [hn]
  · intro i h1 h2
    simp at h1 h2
    simp [pgm_read_byte, List.getD_eq_getElem?_getD,
      List.getElem?_eq_getElem (show i < str.length by omega)]

theorem Grows.growsRefl (s : Web_StreamingBuffer) : Grows s s := ⟨Nat.le_refl _, Nat.le_refl _⟩

theorem Grows.growsTrans {s t u : Web_StreamingBuffer} (h1 : Grows s t) (h2 : Grows t u) :
    Grows s u :=
  ⟨Nat.le_trans h1.maxCoreUsage h2.maxCoreUsage,
    Nat.le_trans h1.maxServerUsage h2.maxServerUsage⟩

theorem trackTotalMem_grows (s : Web_StreamingBuffer) : Grows s (trackTotalMem s) := by
  unfold trackTotalMem
  dsimp only
  split
  · rename_i h
    exact ⟨Nat.le_refl _, Nat.le_of_lt h⟩
  · exact ⟨Nat.le_refl _, Nat.le_refl _⟩

theorem trackCoreMem_grows (s : Web_StreamingBuffer) : Grows s (trackCoreMem s) := by
  unfold trackCoreMem
  dsimp only
  split
  · rename_i h
    exact ⟨Nat.le_of_lt h, Nat.le_refl _⟩
  · exact ⟨Nat.le_refl _, Nat.le_refl _⟩

theorem delay_grows (ms : Nat) (s : Web_StreamingBuffer) : Grows s (delay ms s) :=
  ⟨Nat.le_refl _, Nat.le_refl _⟩

theorem sendContentWaitBody_grows (s : Web_StreamingBuffer) :
    Grows s (sendContentWaitBody s) := by
  unfold sendContentWaitBody
  dsimp only
  split
  · refine Grows.growsTrans ?_ (Grows.growsTrans (trackCoreMem_grows _) (delay_grows _ _))
    exact ⟨Nat.le_refl _, Nat.le_refl _⟩
  · refine Grows.growsTrans ?_ (Grows.growsTrans (trackCoreMem_grows _) (delay_grows _ _))
    exact ⟨Nat.le_refl _, Nat.le_refl _⟩

theorem sendContentWait_grows (timeout fuel : Nat) (s : Web_StreamingBuffer) :
    Grows s (sendContentWait timeout fuel s) := by
  induction fuel generalizing s with
  | zero => exact Grows.growsRefl s
  | succ n ih =>
    unfold sendContentWait
    dsimp only
    split
    · refine Grows.growsTrans ?_ (ih _)
      refine Grows.growsTrans ?_ (sendContentWaitBody_grows _)
      exact ⟨Nat.le_refl _, Nat.le_refl _⟩
    · exact ⟨Nat.le_refl _, Nat.le_refl _⟩

theorem sendContentBlocking_grows (p : Platform) (s : Web_StreamingBuffer) :
    Grows s (sendContentBlocking p s) := by
  unfold sendContentBlocking
  dsimp only [delay]
  constructor
  · refine Nat.le_trans ?_ (sendContentWait_grows _ _ _).maxCoreUsage
    split_ifs <;> exact Nat.le_refl _
  · refine Nat.le_trans ?_ (sendContentWait_grows _ _ _).maxServerUsage
    split_ifs <;> exact Nat.le_refl _

theorem flush_grows (p : Platform) (s : Web_StreamingBuffer) : Grows s (flush p s) := by
  unfold flush
  split
  · exact ⟨Nat.le_refl _, Nat.le_refl _⟩
  · split
    · exact sendContentBlocking_grows p s
    · exact Grows.growsRefl s

theorem checkFull_grows (p : Platform) (s : Web_StreamingBuffer) :
    Grows s (checkFull p s) := by
  cases hm : s.lowMemorySkip
  · by_cases hb : CHUNKED_BUFFER_SIZE p ≤ s.buf.length
    · have e : checkFull p s = flush p (trackTotalMem s) := by
        unfold checkFull
        simp [hm, hb]
      rw [e]
      exact Grows.growsTrans (trackTotalMem_grows s) (flush_grows p _)
    · rw [checkFull_notFull p s hm (by omega)]
      exact Grows.growsRefl s
  · rw [checkFull_lowMemory p s hm]
    exact ⟨Nat.le_refl _, Nat.le_refl _⟩

theorem operatorPlusEq_char_grows (p : Platform) (a : Byte) (s : Web_StreamingBuffer) :
    Grows s (operatorPlusEq_char p a s) := by
  unfold operatorPlusEq_char
  dsimp only
  split
  · exact ⟨(flush_grows p s).maxCoreUsage, (flush_grows p s).maxServerUsage⟩
  · exact ⟨Nat.le_refl _, Nat.le_refl _⟩

theorem addStringLoop_grows (p : Platform) (a : List Byte) (fuel pos : Nat) (flush_step : Int)
    (s : Web_StreamingBuffer) : Grows s (addStringLoop p a fuel pos flush_step s) := by
  induction fuel generalizing pos flush_step s with
  | zero => exact Grows.growsRefl s
  | succ n ih =>
    unfold addStringLoop
    split
    · split
      · exact Grows.growsTrans (flush_grows p s) (ih _ _ _)
      · dsimp only
        refine Grows.growsTrans ?_ (ih _ _ _)
        exact ⟨Nat.le_refl _, Nat.le_refl _⟩
    · exact Grows.growsRefl s

theorem addString_grows (p : Platform) (a : List Byte) (s : Web_StreamingBuffer) :
    Grows s (addString p a s) := by
  unfold addString
  dsimp only
  split_ifs
  all_goals first
    | exact Grows.growsRefl s
    | exact ⟨(checkFull_grows p s).maxCoreUsage, (checkFull_grows p s).maxServerUsage⟩
    | exact Grows.growsTrans (checkFull_grows p s) (addStringLoop_grows _ _ _ _ _ _)

theorem addFlashStringLoop_grows (p : Platform) (str : List Byte) (fuel pos : Nat)
    (length flush_step : Int) (s : Web_StreamingBuffer) :
    Grows s (addFlashStringLoop p str fuel pos length flush_step s) := by
  induction fuel generalizing pos length flush_step s with
  | zero => exact Grows.growsRefl s
  | succ n ih =>
    unfold addFlashStringLoop
    have h1 : Grows s (if flush_step = 0 then flush p s else s) := by
      split
      · exact flush_grows p s
      · exact Grows.growsRefl s
    split
    · dsimp only
      split
      · exact h1
      · refine Grows.growsTrans ?_ (ih _ _ _ _)
        exact ⟨h1.maxCoreUsage, h1.maxServerUsage⟩
    · exact Grows.growsRefl s

theorem addFlashString_grows (p : Platform) (str : Option (List Byte)) (length : Int)
    (s : Web_StreamingBuffer) : Grows s (addFlashString p str length s) := by
  unfold addFlashString
  cases str with
  | none => exact Grows.growsRefl s
  | some str =>
    dsimp only
    split
    · exact ⟨Nat.le_refl _, Nat.le_refl _⟩
    · refine Grows.growsTrans ?_ (addFlashStringLoop_grows _ _ _ _ _ _ _)
      refine Grows.growsTrans ?_ (checkFull_grows p _)
      exact ⟨Nat.le_refl _, Nat.le_refl _⟩

theorem endStream_grows (p : Platform) (s : Web_StreamingBuffer) :
    Grows s (endStream p s) := by
  cases hm : s.lowMemorySkip
  · have h1 : Grows s (if s.buf.length > 0 then sendContentBlocking p s else s) := by
      split
      · exact sendContentBlocking_grows p s
      · exact Grows.growsRefl s
    have h2 := sendContentBlocking_grows p
      { (if s.buf.length > 0 then sendContentBlocking p s else s) with buf := [] }
    have e1 : (endStream p s).maxCoreUsage = (sendContentBlocking p
        { (if s.buf.length > 0 then sendContentBlocking p s else s) with
          buf := [] }).maxCoreUsage := by
      unfold endStream
      rw [hm]
      rfl
    have e2 : (endStream p s).maxServerUsage = (sendContentBlocking p
        { (if s.buf.length > 0 then sendContentBlocking p s else s) with
          buf := [] }).maxServerUsage := by
      unfold endStream
      rw [hm]
      rfl
    constructor
    · rw [e1]
      exact Nat.le_trans h1.maxCoreUsage h2.maxCoreUsage
    · rw [e2]
      exact Nat.le_trans h1.maxServerUsage h2.maxServerUsage
  · rw [endStream_lowMemory p s hm]
    exact ⟨Nat.le_refl _, Nat.le_refl _⟩

theorem Call.run_grows (p : Platform) (c : Call) (s : Web_StreamingBuffer) :
    Grows s (c.run p s) := by
  cases c with
  | char a => exact operatorPlusEq_char_grows p a s
  | string a => exact addString_grows p a s
  | flashString str length => exact addFlashString_grows p str length s
  | flush => exact flush_grows p s

theorem runCalls_grows (p : Platform) (calls : List Call) (s : Web_StreamingBuffer) :
    Grows s (runCalls p calls s) := by
  induction calls generalizing s with
  | nil => exact Grows.growsRefl s
  | cons c l ih => exact Grows.growsTrans (Call.run_grows p c s) (ih _)

theorem sub32_of_le (a b : Nat) (ha : a < UINT32_MOD) (hb : b ≤ a) : sub32 a b = a - b := by
  unfold sub32 UINT32_MOD at *
  omega

theorem sendContentWait_now (start k : Nat) (hk : k ≤ 100) (s : Web_StreamingBuffer)
    (hnow : s.env.now = start + k) (fuel : Nat) :
    s.env.now ≤ (sendContentWait (add32 (start % UINT32_MOD) 100) fuel s).env.now ∧
      (sendContentWait (add32 (start % UINT32_MOD) 100) fuel s).env.now ≤ start + 100 := by
  induction fuel generalizing k s with
  | zero =>
    unfold sendContentWait
    omega
  | succ n ih =>
    unfold sendContentWait
    dsimp only
    by_cases hc : (sendContentWaitCond (add32 (start % UINT32_MOD) 100) s.env).1 = true
    · rw [if_pos hc]
      have h1 := sendContentWaitCond_true _ _ hc
      have h2 := timeOutReached_after start k
        (sendContentWaitCond (add32 (start % UINT32_MOD) 100) s.env).2
        ((sendContentWaitCond_now _ _).trans hnow) hk
      rw [h2] at h1
      have hk2 : k ≠ 100 := by simpa using h1
      have hb : (sendContentWaitBody
          { s with env := (sendContentWaitCond (add32 (start % UINT32_MOD) 100) s.env).2 }).env.now
          = start + (k + 1) := by
        rw [sendContentWaitBody_now]
        show (sendContentWaitCond _ _).2.now + 1 = _
        rw [sendContentWaitCond_now, hnow]; omega
      have := ih (k + 1) (by omega) _ hb
      omega
    · rw [if_neg hc]
      show s.env.now ≤ (sendContentWaitCond _ _).2.now ∧ (sendContentWaitCond _ _).2.now ≤ _
      rw [sendContentWaitCond_now]
      omega

theorem sendContentWait_now_le (s : Web_StreamingBuffer) (fuel : Nat) :
    s.env.now ≤ (sendContentWait (add32 (millis s.env) 100) fuel s).env.now ∧
      (sendContentWait (add32 (millis s.env) 100) fuel s).env.now ≤ s.env.now + 100 :=
  sendContentWait_now s.env.now 0 (by omega) s rfl fuel

theorem sendContentBlocking_now (p : Platform) (s : Web_StreamingBuffer) :
    s.env.now + 1 ≤ (sendContentBlocking p s).env.now ∧
      (sendContentBlocking p s).env.now ≤ s.env.now + 101 := by
  unfold sendContentBlocking
  dsimp only [delay]
  constructor
  · refine Nat.le_trans ?_ (Nat.succ_le_succ (sendContentWait_now_le _ _).1)
    split_ifs <;> exact Nat.le_refl _
  · refine Nat.le_trans (Nat.succ_le_succ (sendContentWait_now_le _ _).2) ?_
    split_ifs <;> exact Nat.le_refl _

theorem bump32_add (m n d : Nat) : bump32 n (bump32 m d) = bump32 (m + n) d := by
  induction m generalizing d with
  | zero => simp [bump32]
  | succ k ih =>
    have e : k + 1 + n = (k + n) + 1 := by omega
    rw [e]
    simp only [bump32]
    exact ih _

theorem bump32_eq (n d : Nat) (hn : 0 < n) : bump32 n d = (d + n) % UINT32_MOD := by
  induction n generalizing d with
  | zero => omega
  | succ k ih =>
    simp only [bump32]
    by_cases hk : k = 0
    · subst hk
      simp [bump32, add32]
    · rw [ih _ (by omega)]
      unfold add32 UINT32_MOD
      omega

theorem trackCoreMem_withFlash (s : Web_StreamingBuffer) (c d : Nat) :
    trackCoreMem (withFlash s c d) = withFlash (trackCoreMem s) c d := by
  unfold trackCoreMem withFlash
  dsimp only
  split <;> rfl

theorem trackTotalMem_withFlash (s : Web_StreamingBuffer) (c d : Nat) :
    trackTotalMem (withFlash s c d) = withFlash (trackTotalMem s) c d := by
  unfold trackTotalMem withFlash
  dsimp only
  split <;> rfl

theorem sendContentWaitBody_withFlash (s : Web_StreamingBuffer) (c d : Nat) :
    sendContentWaitBody (withFlash s c d) = withFlash (sendContentWaitBody s) c d := by
  unfold sendContentWaitBody
  dsimp only
  by_cases h : peekFreeHeap s.env < s.duringTXRam
  · have h2 : peekFreeHeap (withFlash s c d).env < (withFlash s c d).duringTXRam := h
    rw [if_pos h, if_pos h2]
    exact congrArg (delay 1) (trackCoreMem_withFlash
      { s with duringTXRam := peekFreeHeap (popFreeHeap s.env),
               env := popFreeHeap (popFreeHeap s.env) } c d)
  · have h2 : ¬ peekFreeHeap (withFlash s c d).env < (withFlash s c d).duringTXRam := h
    rw [if_neg h, if_neg h2]
    exact congrArg (delay 1) (trackCoreMem_withFlash { s with env := popFreeHeap s.env } c d)

theorem sendContentWait_withFlash (timeout fuel : Nat) (s : Web_StreamingBuffer) (c d : Nat) :
    sendContentWait timeout fuel (withFlash s c d) =
      withFlash (sendContentWait timeout fuel s) c d := by
  induction fuel generalizing s with
  | zero => rfl
  | succ n ih =>
    unfold sendContentWait
    dsimp only
    by_cases h : (sendContentWaitCond timeout s.env).1 = true
    · have h2 : (sendContentWaitCond timeout (withFlash s c d).env).1 = true := h
      rw [if_pos h, if_pos h2]
      exact (congrArg (sendContentWait timeout n)
        (sendContentWaitBody_withFlash { s with env := (sendContentWaitCond timeout s.env).2 }
          c d)).trans (ih _)
    · have h2 : ¬ (sendContentWaitCond timeout (withFlash s c d).env).1 = true := h
      rw [if_neg h, if_neg h2]
      rfl

theorem sendContentBlocking_eq (p : Platform) (s : Web_StreamingBuffer) :
    sendContentBlocking p s =
      delay 1 { sendContentWait (add32 (millis (sendContentPrepare s).env) 100) 101
          (sendContentPrepare s) with
        sentBytes := add32 (sendContentWait (add32 (millis (sendContentPrepare s).env) 100) 101
          (sendContentPrepare s)).sentBytes (s.buf.length % UINT32_MOD) } := by
  unfold sendContentBlocking sendContentPrepare
  dsimp only
  split_ifs <;> rfl

theorem sendContentPrepare_withFlash (s : Web_StreamingBuffer) (c d : Nat) :
    sendContentPrepare (withFlash s c d) = withFlash (sendContentPrepare s) c d := by
  unfold sendContentPrepare
  dsimp only
  by_cases h : (delay 0 s).beforeTXRam > peekFreeHeap (delay 0 s).env
  · have h2 : (delay 0 (withFlash s c d)).beforeTXRam >
        peekFreeHeap (delay 0 (withFlash s c d)).env := h
    rw [if_pos h, if_pos h2]
    rfl
  · have h2 : ¬ (delay 0 (withFlash s c d)).beforeTXRam >
        peekFreeHeap (delay 0 (withFlash s c d)).env := h
    rw [if_neg h, if_neg h2]
    rfl

theorem sendContentBlocking_withFlash (p : Platform) (s : Web_StreamingBuffer) (c d : Nat) :
    sendContentBlocking p (withFlash s c d) = withFlash (sendContentBlocking p s) c d := by
  rw [sendContentBlocking_eq, sendContentBlocking_eq, sendContentPrepare_withFlash,
    sendContentWait_withFlash]
  rfl

theorem flush_withFlash (p : Platform) (s : Web_StreamingBuffer) (c d : Nat) :
    flush p (withFlash s c d) = withFlash (flush p s) c d := by
  unfold flush
  cases hm : s.lowMemorySkip
  · have hm2 : (withFlash s c d).lowMemorySkip = false := hm
    rw [hm2]
    simp only [Bool.false_eq_true, if_false]
    by_cases hb : s.buf.length > 0
    · have hb2 : (withFlash s c d).buf.length > 0 := hb
      rw [if_pos hb, if_pos hb2]
      exact sendContentBlocking_withFlash p s c d
    · have hb2 : ¬ (withFlash s c d).buf.length > 0 := hb
      rw [if_neg hb, if_neg hb2]
  · have hm2 : (withFlash s c d).lowMemorySkip = true := hm
    rw [hm2]
    simp only [if_true]
    rfl

theorem checkFull_withFlash (p : Platform) (s : Web_StreamingBuffer) (c d : Nat)
    (hn : s.lowMemorySkip = false) :
    checkFull p (withFlash s c d) = withFlash (checkFull p s) c d := by
  have hn2 : (withFlash s c d).lowMemorySkip = false := hn
  unfold checkFull
  dsimp only
  rw [hn, hn2]
  simp only [Bool.false_eq_true, if_false]
  by_cases hb : s.buf.length ≥ CHUNKED_BUFFER_SIZE p
  · have hb2 : (withFlash s c d).buf.length ≥ CHUNKED_BUFFER_SIZE p := hb
    rw [if_pos hb, if_pos hb2, trackTotalMem_withFlash, flush_withFlash]
  · have hb2 : ¬ (withFlash s c d).buf.length ≥ CHUNKED_BUFFER_SIZE p := hb
    rw [if_neg hb, if_neg hb2]

theorem addFlashStringLoop_copy (p : Platform) (a : List Byte) (m : Nat) :
    ∀ (fuel pos : Nat) (len k : Int) (s : Web_StreamingBuffer),
      m ≤ fuel → (m : Int) ≤ len → (m : Int) ≤ k → pos + m ≤ a.length →
      addFlashStringLoop p a fuel pos len k s =
        addFlashStringLoop p a (fuel - m) (pos + m) (len - m) (k - m)
          { s with buf := s.buf ++ (a.drop pos).take m,
                   flashStringData := bump32 m s.flashStringData } := by
  induction m with
  | zero =>
    intro fuel pos len k s _ _ _ _
    have e : ({ s with buf := s.buf ++ (a.drop pos).take 0,
                       flashStringData := bump32 0 s.flashStringData } : Web_StreamingBuffer)
        = s := by
      cases s
      simp [bump32]
    rw [e]
    simp
  | succ m ih =>
    intro fuel pos len k s hfuel hlen hk hpos
    obtain ⟨f, rfl⟩ : ∃ f, fuel = f + 1 := ⟨fuel - 1, by omega⟩
    have hlen0 : len ≠ 0 := by push_cast at hlen; omega
    have hk0 : k ≠ 0 := by push_cast at hk; omega
    have hpos2 : pos < a.length := by omega
    have hc : pgm_read_byte a pos = a[pos] := by
      unfold pgm_read_byte
      simp [List.getD_eq_getElem?_getD, List.getElem?_eq_getElem hpos2]
    have hnot : ¬ (pgm_read_byte a pos = 0 ∧ len < 0) := by
      push_cast at hlen
      intro h
      omega
    have step : addFlashStringLoop p a (f + 1) pos len k s =
        addFlashStringLoop p a f (pos + 1) (len - 1) (k - 1)
          { s with buf := s.buf ++ [a[pos]],
                   flashStringData := add32 s.flashStringData 1 } := by
      have hnot2 : ¬ (a[pos] = 0 ∧ len < 0) := by rw [← hc]; exact hnot
      rw [addFlashStringLoop]
      simp only [hlen0, hk0, ne_eq, not_false_eq_true, if_true, if_false, hc]
      rw [if_neg hnot2]
    rw [step, ih f (pos + 1) (len - 1) (k - 1) _ (by omega) (by push_cast at hlen ⊢; omega)
      (by push_cast at hk ⊢; omega) (by omega)]
    have e1 : f + 1 - (m + 1) = f - m := by omega
    have e2 : pos + 1 + m = pos + (m + 1) := by omega
    have e3 : len - 1 - (m : Int) = len - ((m + 1 : Nat) : Int) := by push_cast; omega
    have e4 : k - 1 - (m : Int) = k - ((m + 1 : Nat) : Int) := by push_cast; omega
    have e5 : s.buf ++ [a[pos]] ++ (a.drop (pos + 1)).take m =
        s.buf ++ (a.drop pos).take (m + 1) := by
      rw [List.drop_eq_getElem_cons hpos2, List.take_succ_cons, List.append_assoc]
      rfl
    rw [e1, e2, e3, e4]
    dsimp only
    rw [e5]
    rfl

theorem addFlashStringLoop_flush_first (p : Platform) (a : List Byte) (fuel pos : Nat)
    (len : Int) (s : Web_StreamingBuffer) (hlen : len ≠ 0) :
    addFlashStringLoop p a (fuel + 1) pos len 0 s =
      addFlashStringLoop p a (fuel + 1) pos len (CHUNKED_BUFFER_SIZE p) (flush p s) := by
  have hc := CHUNKED_BUFFER_SIZE_pos p
  have hc2 : ((CHUNKED_BUFFER_SIZE p : Nat) : Int) ≠ 0 := by omega
  rw [addFlashStringLoop, addFlashStringLoop]
  simp only [hlen, hc2, ne_eq, not_false_eq_true, if_true, if_false]

theorem addStringLoop_copy (p : Platform) (a : List Byte) (f pos m : Nat) (k : Int)
    (s : Web_StreamingBuffer) (hpos : pos < a.length) (hk : 1 ≤ k)
    (hm1 : m ≤ a.length - pos) (hm2 : (m : Int) ≤ k)
    (hm3 : m = a.length - pos ∨ (m : Int) = k) :
    addStringLoop p a (f + 1) pos k s =
      addStringLoop p a f (pos + m) (k - m)
        { s with buf := s.buf ++ (a.drop pos).take m } := by
  have hk0 : ¬ k ≤ 0 := by omega
  rw [addStringLoop]
  simp only [hpos, hk0, if_true, if_false]
  have hfetch : (if k ≥ (a.length : Int) - (pos : Int) then (a.length : Int) - (pos : Int)
      else k) = (m : Int) := by
    split
    · rcases hm3 with h | h
      · omega
      · omega
    · rcases hm3 with h | h
      · omega
      · omega
  rw [hfetch]
  simp

theorem addStringLoop_flush (p : Platform) (a : List Byte) (f pos : Nat) (k : Int)
    (s : Web_StreamingBuffer) (hpos : pos < a.length) (hk : k ≤ 0) :
    addStringLoop p a (f + 1) pos k s =
      addStringLoop p a f pos (CHUNKED_BUFFER_SIZE p) (flush p s) := by
  rw [addStringLoop]
  simp only [hpos, hk, if_true]

theorem addStringLoop_done (p : Platform) (a : List Byte) (fuel pos : Nat) (k : Int)
    (s : Web_StreamingBuffer) (hpos : a.length ≤ pos) :
    addStringLoop p a fuel pos k s = s := by
  cases fuel with
  | zero => rfl
  | succ f =>
    rw [addStringLoop]
    rw [if_neg (by omega)]

theorem addFlashStringLoop_zero (p : Platform) (a : List Byte) (fuel pos : Nat) (k : Int)
    (s : Web_StreamingBuffer) :
    addFlashStringLoop p a fuel pos 0 k s = s := by
  cases fuel with
  | zero => rfl
  | succ f =>
    rw [addFlashStringLoop]
    simp

/-- With an explicit length the loop of `addFlashString` goes through the same states as the
loop of `addString`, apart from the count in `flashStringData`. -/
theorem addFlashStringLoop_sim (p : Platform) (a : List Byte) (n : Nat) :
    ∀ (fuelF fuelS pos : Nat) (flush_step : Int) (s : Web_StreamingBuffer) (c d : Nat),
      a.length - pos = n → pos ≤ a.length →
      s.buf.length ≤ CHUNKED_BUFFER_SIZE p →
      flush_step = (CHUNKED_BUFFER_SIZE p : Int) - (s.buf.length : Int) →
      n ≤ fuelF → 2 * n ≤ fuelS → (flush_step ≤ 0 → 0 < n → 2 * n + 1 ≤ fuelS) →
      addFlashStringLoop p a fuelF pos (n : Int) flush_step (withFlash s c d) =
        withFlash (addStringLoop p a fuelS pos flush_step s) c (bump32 n d) := by
  have hC := CHUNKED_BUFFER_SIZE_pos p
  induction n using Nat.strong_induction_on with
  | _ n ih =>
    intro fuelF fuelS pos flush_step s c d hn hpos hb hf hfF hfS hfS0
    by_cases hn0 : n = 0
    · subst hn0
      rw [Nat.cast_zero, addFlashStringLoop_zero, addStringLoop_done p a fuelS pos flush_step s
        (by omega)]
      rfl
    · have hpos2 : pos < a.length := by omega
      have copy : ∀ (fuelF fuelS : Nat) (flush_step : Int) (s : Web_StreamingBuffer),
          s.buf.length ≤ CHUNKED_BUFFER_SIZE p →
          flush_step = (CHUNKED_BUFFER_SIZE p : Int) - (s.buf.length : Int) →
          1 ≤ flush_step → n ≤ fuelF → 2 * n ≤ fuelS →
          addFlashStringLoop p a fuelF pos (n : Int) flush_step (withFlash s c d) =
            withFlash (addStringLoop p a fuelS pos flush_step s) c (bump32 n d) := by
        intro fuelF fuelS flush_step s hb hf hk hfF hfS
        obtain ⟨fS, rfl⟩ : ∃ fS, fuelS = fS + 1 := ⟨fuelS - 1, by omega⟩
        obtain ⟨m, hm⟩ : ∃ m : Nat, m = min n flush_step.toNat := ⟨_, rfl⟩
        have hm1 : m ≤ n := by omega
        have hm2 : (m : Int) ≤ flush_step := by omega
        have hm3 : m = n ∨ (m : Int) = flush_step := by omega
        have hm4 : 1 ≤ m := by omega
        rw [addFlashStringLoop_copy p a m fuelF pos n flush_step (withFlash s c d) (by omega)
          (by omega) hm2 (by omega),
          addStringLoop_copy p a fS pos m flush_step s hpos2 hk (by omega) hm2
            (by rw [hn]; exact hm3)]
        have e1 : (n : Int) - (m : Int) = ((n - m : Nat) : Int) := by omega
        rw [e1]
        have h := ih (n - m) (by omega) (fuelF - m) fS (pos + m) (flush_step - m)
          { s with buf := s.buf ++ (a.drop pos).take m } c (bump32 m d) (by omega) (by omega)
          (by
            show (s.buf ++ (a.drop pos).take m).length ≤ _
            rw [List.length_append, List.length_take, List.length_drop]
            omega)
          (by
            show _ = _ - (((s.buf ++ (a.drop pos).take m).length : Nat) : Int)
            rw [List.length_append, List.length_take, List.length_drop]
            omega)
          (by omega) (by omega) (by intro _ _; omega)
        rw [bump32_add] at h
        have e2 : m + (n - m) = n := by omega
        rw [e2] at h
        exact h
      by_cases hk : 1 ≤ flush_step
      · exact copy fuelF fuelS flush_step s hb hf hk hfF hfS
      · have hk0 : flush_step = 0 := by omega
        subst hk0
        have hfS1 := hfS0 (by omega) (by omega)
        obtain ⟨fF, rfl⟩ : ∃ fF, fuelF = fF + 1 := ⟨fuelF - 1, by omega⟩
        obtain ⟨fS, rfl⟩ : ∃ fS, fuelS = fS + 1 := ⟨fuelS - 1, by omega⟩
        rw [addFlashStringLoop_flush_first p a fF pos n (withFlash s c d)
          (by exact_mod_cast hn0), flush_withFlash,
          addStringLoop_flush p a fS pos 0 s hpos2 (by omega)]
        exact copy (fF + 1) fS (CHUNKED_BUFFER_SIZE p) (flush p s)
          (by rw [flush_buf]; simp) (by rw [flush_buf]; simp) (by omega) hfF (by omega)

theorem addStringLoop_short (p : Platform) (a : List Byte) (k : Int) (s : Web_StreamingBuffer)
    (ha : a ≠ []) (hk : (a.length : Int) ≤ k) :
    addStringLoop p a (2 * a.length + 1) 0 k s = { s with buf := s.buf ++ a } := by
  have hlen : 0 < a.length := List.length_pos.mpr ha
  obtain ⟨f, hf⟩ : ∃ f, 2 * a.length + 1 = f + 1 := ⟨2 * a.length, rfl⟩
  rw [hf, addStringLoop_copy p a f 0 a.length k s hlen (by omega) (by omega) hk
    (Or.inl (by omega)), addStringLoop_done p a f (0 + a.length) _ _ (by omega)]
  simp

theorem checkFull_buf_lt (p : Platform) (s : Web_StreamingBuffer) (hn : s.lowMemorySkip = false) :
    (checkFull p s).buf.length < CHUNKED_BUFFER_SIZE p := by
  rw [(checkFull_normal p s hn).2]
  exact fullRest_length_lt _ _ (CHUNKED_BUFFER_SIZE_pos p)

theorem addString_eq_loop (p : Platform) (a : List Byte) (s : Web_StreamingBuffer)
    (hn : s.lowMemorySkip = false) (ha : a ≠ []) :
    addString p a s =
      addStringLoop p a (2 * a.length + 1) 0
        ((CHUNKED_BUFFER_SIZE p : Int) - ((checkFull p s).buf.length : Int)) (checkFull p s) := by
  have hlt := checkFull_buf_lt p s hn
  have hlen : a.length ≠ 0 := by
    intro h
    exact ha (List.length_eq_zero.mp h)
  have hstep : ¬ ((CHUNKED_BUFFER_SIZE p : Int) - ((checkFull p s).buf.length : Int) < 1) := by
    omega
  unfold addString
  simp only [hn, hlen, Bool.false_eq_true, if_false, hstep]
  split
  · rename_i h
    rw [addStringLoop_short p a _ _ ha (by omega)]
  · rfl

theorem addFlashString_eq_loop (p : Platform) (str : List Byte) (length : Int)
    (s : Web_StreamingBuffer) (hn : s.lowMemorySkip = false) :
    addFlashString p (some str) length s =
      addFlashStringLoop p str (length.toNat + str.length + 1) 0 length
        ((CHUNKED_BUFFER_SIZE p : Int) - ((checkFull p s).buf.length : Int))
        (withFlash (checkFull p s) (add32 s.flashStringCalls 1) s.flashStringData) := by
  have hlt := checkFull_buf_lt p s hn
  have hstep : ¬ ((CHUNKED_BUFFER_SIZE p : Int) - ((checkFull p s).buf.length : Int) < 1) := by
    omega
  have e := checkFull_withFlash p s (add32 s.flashStringCalls 1) s.flashStringData hn
  have hn2 : (withFlash s (add32 s.flashStringCalls 1) s.flashStringData).lowMemorySkip =
      false := hn
  show (let t := withFlash s (add32 s.flashStringCalls 1) s.flashStringData
    if t.lowMemorySkip = true then t
    else addFlashStringLoop p str (length.toNat + str.length + 1) 0 length
      (if (CHUNKED_BUFFER_SIZE p : Int) - ((checkFull p t).buf.length : Int) < 1 then 0
        else (CHUNKED_BUFFER_SIZE p : Int) - ((checkFull p t).buf.length : Int))
      (checkFull p t)) = _
  dsimp only
  rw [hn2, e]
  simp only [Bool.false_eq_true, if_false]
  have hb : (withFlash (checkFull p s) (add32 s.flashStringCalls 1) s.flashStringData).buf =
      (checkFull p s).buf := rfl
  rw [hb, if_neg hstep]

/-- In normal mode `addFlashString` with the source's bytes and their number as explicit length
returns the state `addString` returns, with the two flash counters advanced. -/
theorem addFlashString_eq_addString (p : Platform) (a : List Byte) (s : Web_StreamingBuffer)
    (hn : s.lowMemorySkip = false) (ha : a ≠ []) :
    addFlashString p (some a) (a.length : Int) s =
      withFlash (addString p a s) (add32 s.flashStringCalls 1)
        (bump32 a.length s.flashStringData) := by
  have hlt := checkFull_buf_lt p s hn
  rw [addFlashString_eq_loop p a _ s hn, addString_eq_loop p a s hn ha]
  exact addFlashStringLoop_sim p a a.length _ _ 0 _ (checkFull p s) _ _ (by omega) (by omega)
    (by omega) rfl (by simp; omega) (by omega) (by intro h; omega)

/-! ## The claims on the streaming output channel -/

/-- Claim C1, refuted as stated: on the ESP8266 a normal-mode stream of 8388608 appends of 512
bytes each appends 4294967296 bytes, and `endStream` returns with `sentBytes = 0`, not with the
sum of the lengths of the fragments. -/
theorem C1_sentBytes_wraps_at_4GiB :
    (endStream Platform.ESP8266 (runCalls Platform.ESP8266 longStream
      (scenarioStart 20000))).sentBytes = 0 ∧
    (fragments longStream).length = 4294967296 ∧
    (endStream Platform.ESP8266 (runCalls Platform.ESP8266 longStream
      (scenarioStart 20000))).sentBytes ≠ (fragments longStream).length := by
  obtain ⟨cs, _, _, h⟩ := stream_normal Platform.ESP8266 false "text/html" "" 200 false
    longStream (Web_StreamingBuffer.new (scenarioEnv 20000)) rfl (by decide)
  have h0 : (endStream Platform.ESP8266 (runCalls Platform.ESP8266 longStream
      (scenarioStart 20000))).sentBytes = 0 := by
    unfold scenarioStart
    rw [h, fragments_longStream]
    rfl
  refine ⟨h0, fragments_longStream, ?_⟩
  rw [h0, fragments_longStream]
  decide

/-- Claim C1, amended: in normal mode every append is lossless: the bytes transmitted so far
followed by `buf` after `operator+=(char)`, `addString` or `addFlashString` are the bytes
transmitted before followed by the old `buf` and the bytes of the fragment. Hence for a stream
that `startStream` opens in normal mode (`s0` not in low-memory mode, at least 3000 bytes
free), after any sequence of appends and flushes and `endStream`, the chunks transmitted since
`startStream` concatenate to the appended fragments in order, and `sentBytes` is the sum of
their lengths modulo `2 ^ 32`, so the sum itself when that is below `2 ^ 32`. -/
theorem C1_lossless_streaming (p : Platform) (s : Web_StreamingBuffer)
    (hn : s.lowMemorySkip = false) (a : Byte) (frag : List Byte) (str : List Byte)
    (length : Int) (s0 : Web_StreamingBuffer) (hn0 : s0.lowMemorySkip = false)
    (hf : 3000 ≤ peekFreeHeap s0.env) (allowOriginAll : Bool) (content_type origin : String)
    (httpCode : Int) (cacheable : Bool) (calls : List Call) :
    (transmitted (operatorPlusEq_char p a s) ++ (operatorPlusEq_char p a s).buf =
        transmitted s ++ s.buf ++ [a]) ∧
    (transmitted (addString p frag s) ++ (addString p frag s).buf =
        transmitted s ++ s.buf ++ frag) ∧
    (transmitted (addFlashString p (some str) length s) ++
        (addFlashString p (some str) length s).buf =
        transmitted s ++ s.buf ++ flashFragment str 0 length) ∧
    (∃ cs, chunks (endStream p (runCalls p calls
          (startStream p allowOriginAll content_type origin httpCode cacheable s0))) =
        chunks s0 ++ cs ∧ cs.flatten = fragments calls) ∧
    (endStream p (runCalls p calls
        (startStream p allowOriginAll content_type origin httpCode cacheable s0))).sentBytes =
      (fragments calls).length % UINT32_MOD ∧
    ((fragments calls).length < UINT32_MOD →
      (endStream p (runCalls p calls
        (startStream p allowOriginAll content_type origin httpCode cacheable s0))).sentBytes =
      (fragments calls).length) := by
  obtain ⟨cs, h1, h2, h3⟩ := stream_normal p allowOriginAll content_type origin httpCode
    cacheable calls s0 hn0 hf
  refine ⟨Call.run_lossless p (Call.char a) s hn, Call.run_lossless p (Call.string frag) s hn,
    Call.run_lossless p (Call.flashString (some str) length) s hn, ⟨cs, h1, h2⟩, h3, ?_⟩
  intro hlt
  rw [h3, Nat.mod_eq_of_lt hlt]

/-- Claim C1, witness: Scenario D after two appends, and a stream of three calls. -/
theorem C1_lossless_streaming_witness :
    scenarioD2.lowMemorySkip = false ∧
    (Web_StreamingBuffer.new (scenarioEnv 20000)).lowMemorySkip = false ∧
    3000 ≤ peekFreeHeap (Web_StreamingBuffer.new (scenarioEnv 20000)).env ∧
    (endStream Platform.ESP8266 (runCalls Platform.ESP8266
        [Call.string (List.replicate 600 65), Call.char 10, Call.flush]
        (startStream Platform.ESP8266 false "text/html" "" 200 false
          (Web_StreamingBuffer.new (scenarioEnv 20000))))).sentBytes =
      (fragments [Call.string (List.replicate 600 65), Call.char 10, Call.flush]).length %
        UINT32_MOD :=
  ⟨by decide, by decide, by decide,
    (C1_lossless_streaming Platform.ESP8266 scenarioD2 (by decide) 65 (List.replicate 200 65)
      [72, 105] (-1) (Web_StreamingBuffer.new (scenarioEnv 20000)) (by decide) (by decide)
      false "text/html" "" 200 false
      [Call.string (List.replicate 600 65), Call.char 10, Call.flush]).2.2.2.2.1⟩

/-- Claim C2: if `buf` holds at most `CHUNKED_BUFFER_SIZE` bytes, then in normal mode and in
low-memory mode alike it holds at most `CHUNKED_BUFFER_SIZE` bytes when `operator+=(char)`,
`addString`, `addFlashString`, `flush`, `startStream` or `endStream` returns, for fragments of
every length. -/
theorem C2_buffer_bound (p : Platform) (s : Web_StreamingBuffer)
    (hb : s.buf.length ≤ CHUNKED_BUFFER_SIZE p) (a : Byte) (frag : List Byte)
    (str : Option (List Byte)) (length : Int) (allowOriginAll : Bool)
    (content_type origin : String) (httpCode : Int) (cacheable : Bool) :
    (operatorPlusEq_char p a s).buf.length ≤ CHUNKED_BUFFER_SIZE p ∧
    (addString p frag s).buf.length ≤ CHUNKED_BUFFER_SIZE p ∧
    (addFlashString p str length s).buf.length ≤ CHUNKED_BUFFER_SIZE p ∧
    (flush p s).buf.length ≤ CHUNKED_BUFFER_SIZE p ∧
    (startStream p allowOriginAll content_type origin httpCode cacheable s).buf.length ≤
      CHUNKED_BUFFER_SIZE p ∧
    (endStream p s).buf.length ≤ CHUNKED_BUFFER_SIZE p := by
  refine ⟨Call.run_buf_le p (Call.char a) s hb, Call.run_buf_le p (Call.string frag) s hb,
    Call.run_buf_le p (Call.flashString str length) s hb, Call.run_buf_le p Call.flush s hb,
    ?_, ?_⟩
  · by_cases hf : peekFreeHeap s.env < 3000
    · rw [startStream_low p _ _ _ _ _ s hf]; simp
    · rw [startStream_normal p _ _ _ _ _ s (by omega)]; simp
  · cases hm : s.lowMemorySkip
    · rw [endStream_buf p s hm]; simp
    · rw [endStream_lowMemory p s hm]; exact hb

/-- Claim C2, witness: Scenario D after two appends, with 400 bytes in the buffer. -/
theorem C2_buffer_bound_witness :
    scenarioD2.buf.length ≤ CHUNKED_BUFFER_SIZE Platform.ESP8266 ∧
    (operatorPlusEq_char Platform.ESP8266 65 scenarioD2).buf.length ≤
      CHUNKED_BUFFER_SIZE Platform.ESP8266 ∧
    (addString Platform.ESP8266 (List.replicate 2000 65) scenarioD2).buf.length ≤
      CHUNKED_BUFFER_SIZE Platform.ESP8266 ∧
    (addFlashString Platform.ESP8266 (some [72, 105]) (-1) scenarioD2).buf.length ≤
      CHUNKED_BUFFER_SIZE Platform.ESP8266 ∧
    (flush Platform.ESP8266 scenarioD2).buf.length ≤ CHUNKED_BUFFER_SIZE Platform.ESP8266 ∧
    (startStream Platform.ESP8266 false "text/html" "" 200 false scenarioD2).buf.length ≤
      CHUNKED_BUFFER_SIZE Platform.ESP8266 ∧
    (endStream Platform.ESP8266 scenarioD2).buf.length ≤ CHUNKED_BUFFER_SIZE Platform.ESP8266 :=
  ⟨by decide, C2_buffer_bound Platform.ESP8266 scenarioD2 (by decide) 65
    (List.replicate 2000 65) (some [72, 105]) (-1) false "text/html" "" 200 false⟩

/-- Claim C3, refuted as stated: in Scenario D (capacity 512, the buffer holds 400 bytes after
two appends of 200 bytes) the third `addString` of 200 bytes transmits one chunk of 512 bytes
and leaves 88 bytes buffered; it does not transmit the 400 buffered bytes as a chunk and then
buffer the 200 bytes of the fragment. -/
theorem C3_scenario_D_sends_512 :
    scenarioD2.lowMemorySkip = false ∧ scenarioD2.buf = List.replicate 400 65 ∧
    chunks scenarioD2 = [] ∧
    chunks (addString Platform.ESP8266 (List.replicate 200 65) scenarioD2) =
      [List.replicate 512 65] ∧
    (addString Platform.ESP8266 (List.replicate 200 65) scenarioD2).buf =
      List.replicate 88 65 ∧
    ¬ (chunks (addString Platform.ESP8266 (List.replicate 200 65) scenarioD2) =
        [List.replicate 400 65] ∧
      (addString Platform.ESP8266 (List.replicate 200 65) scenarioD2).buf.length = 200) := by
  decide

/-- Claim C3, amended: a normal-mode append transmits the buffered content first, as one chunk,
only when the buffer has already reached the capacity `C`; for `operator+=(char)` that is the
only case in which the byte does not fit. When the buffer holds `b` bytes, `b` below `C`, and
`b` plus the length of the fragment exceeds `C`, `addString` and `addFlashString` first copy
the first `C - b` bytes of the fragment into the buffer and then transmit the full buffer, `C`
bytes, as one chunk; the rest of the fragment follows in pieces of `C` bytes, the last of which
stays buffered. When the fragment fits, `addString` transmits nothing. With capacity 512,
400 bytes buffered and a fragment of 200 bytes (the third append of Scenario D) `addString`
transmits exactly one chunk, of 512 bytes, and leaves 88 bytes buffered. -/
theorem C3_fill_then_flush (p : Platform) (s : Web_StreamingBuffer)
    (hn : s.lowMemorySkip = false) (a : List Byte) (ha : a ≠ []) (c : Byte)
    (str : List Byte) (length : Int) :
    (chunks (addString p a s) = chunks s ++
      (if CHUNKED_BUFFER_SIZE p ≤ s.buf.length then
        s.buf :: slices (CHUNKED_BUFFER_SIZE p) a
      else if CHUNKED_BUFFER_SIZE p < s.buf.length + a.length then
        (s.buf ++ a.take (CHUNKED_BUFFER_SIZE p - s.buf.length)) ::
          slices (CHUNKED_BUFFER_SIZE p) (a.drop (CHUNKED_BUFFER_SIZE p - s.buf.length))
      else [])) ∧
    ((addString p a s).buf =
      (if CHUNKED_BUFFER_SIZE p ≤ s.buf.length then sliceRest (CHUNKED_BUFFER_SIZE p) a
      else if CHUNKED_BUFFER_SIZE p < s.buf.length + a.length then
        sliceRest (CHUNKED_BUFFER_SIZE p) (a.drop (CHUNKED_BUFFER_SIZE p - s.buf.length))
      else s.buf ++ a)) ∧
    (chunks (operatorPlusEq_char p c s) = chunks s ++
      (if CHUNKED_BUFFER_SIZE p ≤ s.buf.length then [s.buf] else [])) ∧
    ((operatorPlusEq_char p c s).buf =
      (if CHUNKED_BUFFER_SIZE p ≤ s.buf.length then [c] else s.buf ++ [c])) ∧
    (chunks (addFlashString p (some str) length s) = chunks s ++
      (if CHUNKED_BUFFER_SIZE p ≤ s.buf.length then
        s.buf :: flashChunks (CHUNKED_BUFFER_SIZE p) length (flashFragment str 0 length)
      else if CHUNKED_BUFFER_SIZE p < s.buf.length + (flashFragment str 0 length).length then
        (s.buf ++ (flashFragment str 0 length).take (CHUNKED_BUFFER_SIZE p - s.buf.length)) ::
          flashChunks (CHUNKED_BUFFER_SIZE p) length
            ((flashFragment str 0 length).drop (CHUNKED_BUFFER_SIZE p - s.buf.length))
      else flashChunks (CHUNKED_BUFFER_SIZE p) length (s.buf ++ flashFragment str 0 length))) ∧
    (∀ x ∈ slices (CHUNKED_BUFFER_SIZE p) a, x.length = CHUNKED_BUFFER_SIZE p) ∧
    (s.buf.length < CHUNKED_BUFFER_SIZE p →
      CHUNKED_BUFFER_SIZE p < s.buf.length + a.length →
      (s.buf ++ a.take (CHUNKED_BUFFER_SIZE p - s.buf.length)).length =
        CHUNKED_BUFFER_SIZE p) ∧
    (s.buf.length = 400 → a.length = 200 →
      chunks (addString Platform.ESP8266 a s) = chunks s ++ [s.buf ++ a.take 112] ∧
      (s.buf ++ a.take 112).length = 512 ∧
      (addString Platform.ESP8266 a s).buf = a.drop 112 ∧
      (addString Platform.ESP8266 a s).buf.length = 88) := by
  have hc := CHUNKED_BUFFER_SIZE_pos p
  obtain ⟨h1, h2⟩ := addString_normal p a s hn ha
  obtain ⟨h3, h4⟩ := operatorPlusEq_char_normal p c s hn
  obtain ⟨h5, _, _, _⟩ := addFlashString_normal p str length s hn
  rw [h1.emitsChunks, h2, h3.emitsChunks, h4, h5.sendsChunks]
  refine ⟨?_, ?_, ?_, ?_, ?_, fun x hx => slices_mem_length _ _ x hx, ?_,
    fun hb hl => addString_scenario_D s hn a hb hl⟩
  · congr 1
    unfold fullChunk fullRest
    by_cases hfull : CHUNKED_BUFFER_SIZE p ≤ s.buf.length
    · simp [hfull]
    · rw [if_neg hfull, if_neg hfull, if_neg hfull, List.nil_append]
      by_cases hover : CHUNKED_BUFFER_SIZE p < s.buf.length + a.length
      · rw [if_pos hover]
        exact (slices_head _ s.buf a hc (by omega) hover).1
      · rw [if_neg hover]
        exact (slices_short _ (s.buf ++ a) hc (by rw [List.length_append]; omega)).1
  · unfold fullRest
    by_cases hfull : CHUNKED_BUFFER_SIZE p ≤ s.buf.length
    · simp [hfull]
    · rw [if_neg hfull, if_neg hfull]
      by_cases hover : CHUNKED_BUFFER_SIZE p < s.buf.length + a.length
      · rw [if_pos hover]
        exact (slices_head _ s.buf a hc (by omega) hover).2.1
      · rw [if_neg hover]
        exact (slices_short _ (s.buf ++ a) hc (by rw [List.length_append]; omega)).2
  · rfl
  · unfold fullRest
    by_cases hfull : CHUNKED_BUFFER_SIZE p ≤ s.buf.length <;> simp [hfull]
  · congr 1
    unfold fullChunk fullRest
    by_cases hfull : CHUNKED_BUFFER_SIZE p ≤ s.buf.length
    · simp [hfull]
    · rw [if_neg hfull, if_neg hfull, if_neg hfull, List.nil_append]
      by_cases hover : CHUNKED_BUFFER_SIZE p < s.buf.length + (flashFragment str 0 length).length
      · rw [if_pos hover]
        exact (flashChunks_head _ length s.buf _ hc (by omega) hover).1
      · rw [if_neg hover]
  · intro hlt hover
    rw [List.length_append, List.length_take]
    omega

/-- Claim C3, witness: the third append of Scenario D. -/
theorem C3_fill_then_flush_witness :
    scenarioD2.lowMemorySkip = false ∧ List.replicate 200 (65 : Byte) ≠ [] ∧
    chunks (addString Platform.ESP8266 (List.replicate 200 65) scenarioD2) =
      chunks scenarioD2 ++
      (if CHUNKED_BUFFER_SIZE Platform.ESP8266 ≤ scenarioD2.buf.length then
        scenarioD2.buf :: slices (CHUNKED_BUFFER_SIZE Platform.ESP8266) (List.replicate 200 65)
      else if CHUNKED_BUFFER_SIZE Platform.ESP8266 <
          scenarioD2.buf.length + (List.replicate 200 (65 : Byte)).length then
        (scenarioD2.buf ++ (List.replicate 200 65).take
            (CHUNKED_BUFFER_SIZE Platform.ESP8266 - scenarioD2.buf.length)) ::
          slices (CHUNKED_BUFFER_SIZE Platform.ESP8266) ((List.replicate 200 65).drop
            (CHUNKED_BUFFER_SIZE Platform.ESP8266 - scenarioD2.buf.length))
      else []) ∧
    (addString Platform.ESP8266 (List.replicate 200 65) scenarioD2).buf.length = 88 :=
  ⟨by decide, by decide,
    (C3_fill_then_flush Platform.ESP8266 scenarioD2 (by decide) (List.replicate 200 65)
      (by decide) 65 [72, 105] (-1)).1,
    ((C3_fill_then_flush Platform.ESP8266 scenarioD2 (by decide) (List.replicate 200 65)
      (by decide) 65 [72, 105] (-1)).2.2.2.2.2.2.2 (by decide) (by decide)).2.2.2⟩

/-- Claim C4: in normal mode with `b` bytes buffered, `b` below `CHUNKED_BUFFER_SIZE`, a
fragment of exactly `CHUNKED_BUFFER_SIZE - b` bytes is buffered whole without any
transmission: `addString`, and `addFlashString` called with that explicit length, make no call
to the transport at all, leave `sentBytes` as it was and return with the old buffer contents
followed by the fragment, `CHUNKED_BUFFER_SIZE` bytes in all. -/
theorem C4_exact_fit (p : Platform) (s : Web_StreamingBuffer) (hn : s.lowMemorySkip = false)
    (hb : s.buf.length < CHUNKED_BUFFER_SIZE p) (a : List Byte)
    (ha : a.length = CHUNKED_BUFFER_SIZE p - s.buf.length) (str : List Byte) :
    (addString p a s).out = s.out ∧ (addString p a s).sentBytes = s.sentBytes ∧
    (addString p a s).buf = s.buf ++ a ∧
    (addString p a s).buf.length = CHUNKED_BUFFER_SIZE p ∧
    (addFlashString p (some str) ((CHUNKED_BUFFER_SIZE p - s.buf.length : Nat) : Int) s).out =
      s.out ∧
    (addFlashString p (some str)
      ((CHUNKED_BUFFER_SIZE p - s.buf.length : Nat) : Int) s).sentBytes = s.sentBytes ∧
    (addFlashString p (some str) ((CHUNKED_BUFFER_SIZE p - s.buf.length : Nat) : Int) s).buf =
      s.buf ++ flashFragment str 0 ((CHUNKED_BUFFER_SIZE p - s.buf.length : Nat) : Int) ∧
    (addFlashString p (some str)
      ((CHUNKED_BUFFER_SIZE p - s.buf.length : Nat) : Int) s).buf.length =
      CHUNKED_BUFFER_SIZE p := by
  have hc := CHUNKED_BUFFER_SIZE_pos p
  have hane : a ≠ [] := by
    intro h0; rw [h0] at ha; simp at ha; omega
  obtain ⟨h1, h2⟩ := addString_spec p a s hn (by omega) hane
  obtain ⟨h3, h4⟩ := slices_short (CHUNKED_BUFFER_SIZE p) (s.buf ++ a) hc
    (by rw [List.length_append]; omega)
  rw [h3] at h1
  rw [h4] at h2
  obtain ⟨g1, g2, _, _⟩ := addFlashString_normal p str
    ((CHUNKED_BUFFER_SIZE p - s.buf.length : Nat) : Int) s hn
  have hfl := flashFragment_length str 0 ((CHUNKED_BUFFER_SIZE p - s.buf.length : Nat) : Int)
    (by omega)
  have hrest : fullRest (CHUNKED_BUFFER_SIZE p) s.buf = s.buf := by
    unfold fullRest; rw [if_neg (by omega)]
  have hchunk : fullChunk (CHUNKED_BUFFER_SIZE p) s.buf = [] := by
    unfold fullChunk; rw [if_neg (by omega)]
  obtain ⟨g3, g4⟩ := flashChunks_explicit (CHUNKED_BUFFER_SIZE p)
    ((CHUNKED_BUFFER_SIZE p - s.buf.length : Nat) : Int)
    (s.buf ++ flashFragment str 0 ((CHUNKED_BUFFER_SIZE p - s.buf.length : Nat) : Int))
    (by omega)
  obtain ⟨g5, g6⟩ := slices_short (CHUNKED_BUFFER_SIZE p)
    (s.buf ++ flashFragment str 0 ((CHUNKED_BUFFER_SIZE p - s.buf.length : Nat) : Int)) hc
    (by rw [List.length_append, hfl]; simp; omega)
  rw [hrest, hchunk, g3, g5] at g1
  rw [hrest, g4, g6] at g2
  refine ⟨by simpa using h1.out, by simpa using h1.sentBytes, h2, ?_,
    by simpa using g1.out, by simpa using g1.sentBytes, g2, ?_⟩
  · rw [h2, List.length_append]; omega
  · rw [g2, List.length_append, hfl]; simp; omega

/-- Claim C4, witness: 400 bytes buffered and a fragment of 112 bytes on the ESP8266. -/
theorem C4_exact_fit_witness :
    scenarioD2.lowMemorySkip = false ∧
    scenarioD2.buf.length < CHUNKED_BUFFER_SIZE Platform.ESP8266 ∧
    (List.replicate 112 (65 : Byte)).length =
      CHUNKED_BUFFER_SIZE Platform.ESP8266 - scenarioD2.buf.length ∧
    (addString Platform.ESP8266 (List.replicate 112 65) scenarioD2).out = scenarioD2.out ∧
    (addString Platform.ESP8266 (List.replicate 112 65) scenarioD2).buf.length =
      CHUNKED_BUFFER_SIZE Platform.ESP8266 :=
  ⟨by decide, by decide, by decide,
    (C4_exact_fit Platform.ESP8266 scenarioD2 (by decide) (by decide) (List.replicate 112 65)
      (by decide) [72, 105]).1,
    (C4_exact_fit Platform.ESP8266 scenarioD2 (by decide) (by decide) (List.replicate 112 65)
      (by decide) [72, 105]).2.2.2.1⟩

/-- Claim C5: when the channel is in low-memory mode after `startStream`, then after every
sequence of `operator+=(char)`, `addString`, `addFlashString` and `flush` calls, and also after
the `endStream` that follows, the chunks handed to the transport are those handed over before
`startStream`, none more, and `sentBytes` is 0. -/
theorem C5_low_memory_transmits_nothing (p : Platform) (allowOriginAll : Bool)
    (content_type origin : String) (httpCode : Int) (cacheable : Bool)
    (s : Web_StreamingBuffer) (calls : List Call)
    (hl : (startStream p allowOriginAll content_type origin httpCode cacheable
      s).lowMemorySkip = true) :
    chunks (runCalls p calls
      (startStream p allowOriginAll content_type origin httpCode cacheable s)) = chunks s ∧
    (runCalls p calls
      (startStream p allowOriginAll content_type origin httpCode cacheable s)).sentBytes = 0 ∧
    chunks (endStream p (runCalls p calls
      (startStream p allowOriginAll content_type origin httpCode cacheable s))) = chunks s ∧
    (endStream p (runCalls p calls
      (startStream p allowOriginAll content_type origin httpCode cacheable s))).sentBytes = 0 := by
  have hstart : chunks (startStream p allowOriginAll content_type origin httpCode cacheable s) =
      chunks s ∧
      (startStream p allowOriginAll content_type origin httpCode cacheable s).sentBytes = 0 := by
    by_cases hf : peekFreeHeap s.env < 3000
    · rw [startStream_low p _ _ _ _ _ s hf]
      simp [chunks, chunksOf_append, chunksOf_startEvents, chunksOf_fallbackEvents]
    · rw [startStream_normal p _ _ _ _ _ s (by omega)]
      simp [chunks, chunksOf_append, chunksOf_startEvents, chunksOf_headerEvents]
  generalize startStream p allowOriginAll content_type origin httpCode cacheable s = s1
    at hl hstart ⊢
  obtain ⟨h1, h2, h3⟩ := runCalls_lowMemory p calls s1 hl
  generalize runCalls p calls s1 = sn at h1 h2 h3 ⊢
  have hch : chunks sn = chunks s := by
    unfold chunks at hstart ⊢
    rw [h2]; exact hstart.1
  refine ⟨hch, h3.trans hstart.2, ?_, ?_⟩
  · rw [endStream_lowMemory p sn h1]
    unfold chunks at hch ⊢
    cases sn.env.logError <;> simp [chunksOf_append, chunksOf, hch]
  · rw [endStream_lowMemory p sn h1]
    exact h3.trans hstart.2

/-- Claim C5, witness: Scenario C, a start with 2000 bytes free, then ten appends. -/
theorem C5_low_memory_transmits_nothing_witness :
    (startStream Platform.ESP8266 false "text/html" "" 200 false
      (Web_StreamingBuffer.new (scenarioEnv 2000))).lowMemorySkip = true ∧
    chunks (runCalls Platform.ESP8266 tenAppends
      (startStream Platform.ESP8266 false "text/html" "" 200 false
        (Web_StreamingBuffer.new (scenarioEnv 2000)))) =
      chunks (Web_StreamingBuffer.new (scenarioEnv 2000)) ∧
    (runCalls Platform.ESP8266 tenAppends
      (startStream Platform.ESP8266 false "text/html" "" 200 false
        (Web_StreamingBuffer.new (scenarioEnv 2000)))).sentBytes = 0 :=
  ⟨by decide,
    (C5_low_memory_transmits_nothing Platform.ESP8266 false "text/html" "" 200 false
      (Web_StreamingBuffer.new (scenarioEnv 2000)) tenAppends (by decide)).1,
    (C5_low_memory_transmits_nothing Platform.ESP8266 false "text/html" "" 200 false
      (Web_StreamingBuffer.new (scenarioEnv 2000)) tenAppends (by decide)).2.1⟩

/-- Claim C6: for a channel that is not in low-memory mode and a sampled free heap `f`,
`startStream` with `f < 3000` enters low-memory mode and makes, after its opening calls,
exactly the calls of the fallback, among them the fixed plain-text response and none of the
header calls; with `3000 ≤ f` (3000 itself included) it is the result of `sendHeaderBlocking`,
stays out of low-memory mode, sends the response headers, ending with `send` of the status and
content type, and does not send the fallback response. -/
theorem C6_admission_control (p : Platform) (allowOriginAll : Bool)
    (content_type origin : String) (httpCode : Int) (cacheable : Bool)
    (s : Web_StreamingBuffer) (hn : s.lowMemorySkip = false) :
    (startStream p allowOriginAll content_type origin httpCode cacheable s).lowMemorySkip =
      decide (peekFreeHeap s.env < 3000) ∧
    (startStream p allowOriginAll content_type origin httpCode cacheable s).out =
      s.out ++ (startEvents p ++
        (if peekFreeHeap s.env < 3000 then fallbackEvents p
         else headerEvents p content_type origin httpCode cacheable)) ∧
    fallbackResponse ∈ fallbackEvents p ∧
    (∀ e ∈ startEvents p ++ fallbackEvents p, e.isHeaderCall = false) ∧
    Event.send httpCode content_type "" ∈
      headerEvents p content_type origin httpCode cacheable ∧
    fallbackResponse ∉ startEvents p ++ headerEvents p content_type origin httpCode cacheable ∧
    (3000 ≤ peekFreeHeap s.env →
      ∃ t, startStream p allowOriginAll content_type origin httpCode cacheable s =
          sendHeaderBlocking p allowOriginAll content_type origin httpCode cacheable t ∧
        t.out = s.out ++ startEvents p ∧ t.lowMemorySkip = false) := by
  refine ⟨?_, ?_, ?_, isHeaderCall_startEvents p, send_mem_headerEvents p _ _ _ _,
    fallbackResponse_not_mem p _ _ _ _, ?_⟩
  · by_cases hf : peekFreeHeap s.env < 3000
    · rw [startStream_low p _ _ _ _ _ s hf]; simp [hf]
    · rw [startStream_normal p _ _ _ _ _ s (by omega)]; simp [hf, hn]
  · by_cases hf : peekFreeHeap s.env < 3000
    · rw [startStream_low p _ _ _ _ _ s hf]; simp [hf]
    · rw [startStream_normal p _ _ _ _ _ s (by omega)]; simp [hf]
  · cases p <;> simp [fallbackEvents]
  · intro hf
    have hf2 : ¬ peekFreeHeap s.env < 3000 := by omega
    unfold startStream startEvents
    cases p with
    | ESP8266 =>
      dsimp only
      rw [if_neg hf2]
      exact ⟨_, rfl, rfl, hn⟩
    | ESP32 idfMajor =>
      dsimp only
      rw [if_neg hf2]
      exact ⟨_, rfl, by simp, hn⟩

/-- Claim C6, witness: a fresh channel on the ESP8266 with exactly 3000 bytes free. -/
theorem C6_admission_control_witness :
    (Web_StreamingBuffer.new (scenarioEnv 3000)).lowMemorySkip = false ∧
    (startStream Platform.ESP8266 false "text/html" "" 200 false
      (Web_StreamingBuffer.new (scenarioEnv 3000))).lowMemorySkip =
      decide (peekFreeHeap (Web_StreamingBuffer.new (scenarioEnv 3000)).env < 3000) :=
  ⟨by decide,
    (C6_admission_control Platform.ESP8266 false "text/html" "" 200 false
      (Web_StreamingBuffer.new (scenarioEnv 3000)) (by decide)).1⟩

/-- Claim C7, refuted as stated: in low-memory mode (a start with 2000 bytes free)
`operator+=(char)` returns with the byte in `buf`, and `addFlashString` returns with
`flashStringCalls` raised from 0 to 1. -/
theorem C7_low_memory_appends_change_state :
    (scenarioStart 2000).lowMemorySkip = true ∧
    (scenarioStart 2000).buf = [] ∧
    (operatorPlusEq_char Platform.ESP8266 65 (scenarioStart 2000)).buf = [65] ∧
    operatorPlusEq_char Platform.ESP8266 65 (scenarioStart 2000) ≠ scenarioStart 2000 ∧
    (scenarioStart 2000).flashStringCalls = 0 ∧
    (addFlashString Platform.ESP8266 (some [72, 105]) (-1)
      (scenarioStart 2000)).flashStringCalls = 1 ∧
    addFlashString Platform.ESP8266 (some [72, 105]) (-1) (scenarioStart 2000) ≠
      scenarioStart 2000 := by
  decide

/-- Claim C7, amended: in low-memory mode `addString` returns with the whole channel state
unchanged, and so does `addFlashString` with a null source; `addFlashString` with a non-null
source changes `flashStringCalls` alone, which it raises by one (modulo `2 ^ 32`);
`operator+=(char)` changes `buf` alone: it empties a buffer that has reached
`CHUNKED_BUFFER_SIZE` and then buffers the byte. None of them calls the transport or changes
`sentBytes`. -/
theorem C7_low_memory_appends (p : Platform) (s : Web_StreamingBuffer)
    (hl : s.lowMemorySkip = true) (a : Byte) (frag : List Byte) (str : List Byte)
    (length : Int) :
    addString p frag s = s ∧
    addFlashString p none length s = s ∧
    addFlashString p (some str) length s =
      { s with flashStringCalls := (s.flashStringCalls + 1) % UINT32_MOD } ∧
    operatorPlusEq_char p a s =
      { s with buf := (if CHUNKED_BUFFER_SIZE p ≤ s.buf.length then [] else s.buf) ++ [a] } :=
  ⟨addString_lowMemory p frag s hl, rfl, addFlashString_lowMemory p str length s hl,
    operatorPlusEq_char_lowMemory p a s hl⟩

/-- Claim C7, witness: the low-memory channel of Scenario C. -/
theorem C7_low_memory_appends_witness :
    (scenarioStart 2000).lowMemorySkip = true ∧
    addString Platform.ESP8266 [72, 105] (scenarioStart 2000) = scenarioStart 2000 :=
  ⟨by decide,
    (C7_low_memory_appends Platform.ESP8266 (scenarioStart 2000) (by decide) 65 [72, 105]
      [72, 105] (-1)).1⟩

/-- Claim C8, refuted as stated: a normal-mode `flush` of one buffered byte with
`sentBytes = 4294967295` returns with `sentBytes = 0`: the length was added modulo `2 ^ 32`. -/
theorem C8_flush_wraps_sentBytes :
    scenarioTop.lowMemorySkip = false ∧ scenarioTop.buf = [65] ∧
    scenarioTop.sentBytes = 4294967295 ∧
    (flush Platform.ESP8266 scenarioTop).sentBytes = 0 ∧
    (flush Platform.ESP8266 scenarioTop).sentBytes ≠
      scenarioTop.sentBytes + scenarioTop.buf.length := by
  decide

/-- Claim C8, amended: in normal mode with a non-empty buffer `flush` hands exactly one chunk
to the transport, the buffer contents, adds its length to `sentBytes` modulo `2 ^ 32` (so
exactly, unless the 32 bit counter wraps) and leaves the buffer empty; with an empty buffer it
returns the state unchanged; in low-memory mode it empties the buffer and changes nothing
else. -/
theorem C8_flush_contract (p : Platform) (s : Web_StreamingBuffer) :
    (flush p s).buf = [] ∧
    (flush p s).out = s.out ++
      (if s.lowMemorySkip = false ∧ s.buf ≠ [] then [Event.sendContent s.buf] else []) ∧
    chunks (flush p s) = chunks s ++
      (if s.lowMemorySkip = false ∧ s.buf ≠ [] then [s.buf] else []) ∧
    (flush p s).sentBytes =
      (if s.lowMemorySkip = false ∧ s.buf ≠ [] then (s.sentBytes + s.buf.length) % UINT32_MOD
       else s.sentBytes) ∧
    (s.lowMemorySkip = false → s.buf ≠ [] → s.sentBytes + s.buf.length < UINT32_MOD →
      (flush p s).sentBytes = s.sentBytes + s.buf.length) ∧
    (s.lowMemorySkip = false → s.buf = [] → flush p s = s) ∧
    (s.lowMemorySkip = true → flush p s = { s with buf := [] }) := by
  have key : (flush p s).out = s.out ++
      (if s.lowMemorySkip = false ∧ s.buf ≠ [] then [Event.sendContent s.buf] else []) ∧
    (flush p s).sentBytes =
      (if s.lowMemorySkip = false ∧ s.buf ≠ [] then (s.sentBytes + s.buf.length) % UINT32_MOD
       else s.sentBytes) := by
    cases hm : s.lowMemorySkip
    · have he := flush_emits p s hm
      by_cases hb : s.buf = []
      · rw [if_pos hb] at he
        simpa [hb] using And.intro he.out he.sentBytes
      · rw [if_neg hb] at he
        simpa [hb] using And.intro he.out he.sentBytes
    · rw [flush_lowMemory p s hm]
      simp
  refine ⟨flush_buf p s, key.1, ?_, key.2, ?_, fun _ hb => flush_of_buf_nil p s hb,
    fun hm => flush_lowMemory p s hm⟩
  · unfold chunks
    rw [key.1, chunksOf_append]
    congr 1
    split <;> rfl
  · intro hm hb hlt
    rw [key.2, if_pos ⟨hm, hb⟩, Nat.mod_eq_of_lt hlt]

/-- Claim C8, witness: Scenario D after two appends, flushed with 400 bytes buffered. -/
theorem C8_flush_contract_witness :
    scenarioD2.lowMemorySkip = false ∧ scenarioD2.buf ≠ [] ∧
    scenarioD2.sentBytes + scenarioD2.buf.length < UINT32_MOD ∧
    (flush Platform.ESP8266 scenarioD2).sentBytes =
      scenarioD2.sentBytes + scenarioD2.buf.length :=
  ⟨by decide, by decide, by decide,
    (C8_flush_contract Platform.ESP8266 scenarioD2).2.2.2.2.1 (by decide) (by decide)
      (by decide)⟩

/-- Claim C9: a `flush` that immediately follows a `flush` makes no call to the transport and
returns the state the first `flush` left; on an empty buffer neither of two consecutive `flush`
calls makes a call to the transport. -/
theorem C9_flush_idempotent (p : Platform) (s : Web_StreamingBuffer) :
    flush p (flush p s) = flush p s ∧
    (flush p (flush p s)).out = (flush p s).out ∧
    chunks (flush p (flush p s)) = chunks (flush p s) ∧
    (s.buf = [] → (flush p s).out = s.out ∧ (flush p (flush p s)).out = s.out) := by
  have h := flush_of_buf_nil p (flush p s) (flush_buf p s)
  refine ⟨h, by rw [h], by rw [h], ?_⟩
  intro hb
  rw [h, flush_of_buf_nil p s hb]
  exact ⟨rfl, rfl⟩

/-- Claim C9, witness: a fresh stream, whose buffer is empty, flushed twice. -/
theorem C9_flush_idempotent_witness :
    (scenarioStart 20000).buf = [] ∧
    (flush Platform.ESP8266 (scenarioStart 20000)).out = (scenarioStart 20000).out ∧
    (flush Platform.ESP8266 (flush Platform.ESP8266 (scenarioStart 20000))).out =
      (scenarioStart 20000).out :=
  ⟨by decide, (C9_flush_idempotent Platform.ESP8266 (scenarioStart 20000)).2.2.2 (by decide)⟩

/-- Claim C10: in normal mode `endStream` hands the remaining buffer to the transport as one
chunk if it is non-empty, then hands over one zero-length chunk, its last transmission, and
leaves the buffer empty; in low-memory mode it hands no chunk to the transport. In both modes
the channel is not in low-memory mode when `endStream` returns. -/
theorem C10_endStream_contract (p : Platform) (s : Web_StreamingBuffer) :
    (endStream p s).lowMemorySkip = false ∧
    chunks (endStream p s) = chunks s ++
      (if s.lowMemorySkip then []
       else (if s.buf = [] then [] else [s.buf]) ++ [[]]) ∧
    (s.lowMemorySkip = false → (endStream p s).buf = []) ∧
    (s.lowMemorySkip = false → (endStream p s).out = s.out ++
      ((if s.buf = [] then [] else [Event.sendContent s.buf]) ++
        [Event.sendContent [], Event.clientFlush])) := by
  refine ⟨endStream_lowMemorySkip p s, ?_, fun hm => endStream_buf p s hm,
    fun hm => endStream_normal_out p s hm⟩
  cases hm : s.lowMemorySkip
  · unfold chunks
    rw [endStream_normal_out p s hm, chunksOf_append]
    by_cases hb : s.buf = [] <;> simp [hb, chunksOf]
  · rw [endStream_lowMemory p s hm]
    unfold chunks
    cases s.env.logError <;> simp [chunksOf_append, chunksOf]

/-- Claim C10, witness: the end of Scenario D after two appends, 400 bytes still buffered. -/
theorem C10_endStream_contract_witness :
    scenarioD2.lowMemorySkip = false ∧
    (endStream Platform.ESP8266 scenarioD2).buf = [] ∧
    (endStream Platform.ESP8266 scenarioD2).out = scenarioD2.out ++
      ((if scenarioD2.buf = [] then [] else [Event.sendContent scenarioD2.buf]) ++
        [Event.sendContent [], Event.clientFlush]) :=
  ⟨by decide, (C10_endStream_contract Platform.ESP8266 scenarioD2).2.2.1 (by decide),
    (C10_endStream_contract Platform.ESP8266 scenarioD2).2.2.2 (by decide)⟩

/-- Claim C11, as the code behaves: when `startStream` samples a free heap below 3000, it
stores the sampled value in `initialRam` and `beforeTXRam`, while the error-level diagnostic
that `endStream` emits for that stream, after any appends and flushes, reports `finalRam`, the
value left by the end of an earlier normal stream (0 on a fresh channel), whatever the sampled
value was. -/
theorem C11_low_memory_log_reports_finalRam (p : Platform) (allowOriginAll : Bool)
    (content_type origin : String) (httpCode : Int) (cacheable : Bool)
    (s : Web_StreamingBuffer) (calls : List Call) (hf : peekFreeHeap s.env < 3000) :
    (startStream p allowOriginAll content_type origin httpCode cacheable s).initialRam =
      peekFreeHeap s.env ∧
    (startStream p allowOriginAll content_type origin httpCode cacheable s).beforeTXRam =
      peekFreeHeap s.env ∧
    (endStream p (runCalls p calls
      (startStream p allowOriginAll content_type origin httpCode cacheable s))).out =
      (startStream p allowOriginAll content_type origin httpCode cacheable s).out ++
        (if s.env.logError = true then
          [Event.addLog LogLevel.LOG_LEVEL_ERROR "Webpage skipped: low memory: " s.finalRam]
        else []) := by
  have hs := startStream_low p allowOriginAll content_type origin httpCode cacheable s hf
  have hl : (startStream p allowOriginAll content_type origin httpCode cacheable
      s).lowMemorySkip = true := by rw [hs]
  have hfin : (startStream p allowOriginAll content_type origin httpCode cacheable
      s).finalRam = s.finalRam := by rw [hs]
  have henv : (startStream p allowOriginAll content_type origin httpCode cacheable
      s).env.logError = s.env.logError := by rw [hs]; rfl
  refine ⟨by rw [hs], by rw [hs], ?_⟩
  generalize startStream p allowOriginAll content_type origin httpCode cacheable s = s1
    at hl hfin henv ⊢
  obtain ⟨h1, h2, _⟩ := runCalls_lowMemory p calls s1 hl
  obtain ⟨h4, _, h6⟩ := runCalls_lowMemory_frame p calls s1 hl
  rw [endStream_lowMemory p _ h1]
  simp only [h2, h4, h6, hfin, henv]

/-- Claim C11, failing input: Scenario C on a fresh channel. `startStream` samples 2000 free
bytes, and the diagnostic of that stream reports 0. -/
theorem C11_low_memory_log_reports_finalRam_witness :
    peekFreeHeap (Web_StreamingBuffer.new (scenarioEnv 2000)).env = 2000 ∧
    (scenarioStart 2000).initialRam = 2000 ∧
    (endStream Platform.ESP8266 (runCalls Platform.ESP8266 tenAppends (scenarioStart 2000))).out =
      (scenarioStart 2000).out ++
        [Event.addLog LogLevel.LOG_LEVEL_ERROR "Webpage skipped: low memory: " 0] :=
  ⟨by decide, by decide,
    (C11_low_memory_log_reports_finalRam Platform.ESP8266 false "text/html" "" 200 false
      (Web_StreamingBuffer.new (scenarioEnv 2000)) tenAppends (by decide)).2.2⟩

/-- Claim C12, refuted as stated: a stream that served one flash string of two bytes has
`flashStringCalls = 1` and `flashStringData = 2`, and the `startStream` of the next stream
returns with both values still in place. -/
theorem C12_startStream_keeps_flash_counters :
    (addFlashString Platform.ESP8266 (some [72, 105]) (-1)
      (scenarioStart 20000)).flashStringCalls = 1 ∧
    (addFlashString Platform.ESP8266 (some [72, 105]) (-1)
      (scenarioStart 20000)).flashStringData = 2 ∧
    (startStream Platform.ESP8266 false "text/html" "" 200 false
      (addFlashString Platform.ESP8266 (some [72, 105]) (-1)
        (scenarioStart 20000))).flashStringCalls = 1 ∧
    (startStream Platform.ESP8266 false "text/html" "" 200 false
      (addFlashString Platform.ESP8266 (some [72, 105]) (-1)
        (scenarioStart 20000))).flashStringData = 2 := by
  decide

/-- Claim C12, amended: for every prior state, after `startStream` returns the buffer is
empty, `sentBytes`, `maxCoreUsage` and `maxServerUsage` are 0, and `initialRam` and
`beforeTXRam` both hold the free-heap value the call sampled; `flashStringCalls` and
`flashStringData` are not reset, they keep the values they had before the call. -/
theorem C12_startStream_resets (p : Platform) (allowOriginAll : Bool)
    (content_type origin : String) (httpCode : Int) (cacheable : Bool)
    (s : Web_StreamingBuffer) :
    (startStream p allowOriginAll content_type origin httpCode cacheable s).buf = [] ∧
    (startStream p allowOriginAll content_type origin httpCode cacheable s).sentBytes = 0 ∧
    (startStream p allowOriginAll content_type origin httpCode cacheable s).maxCoreUsage = 0 ∧
    (startStream p allowOriginAll content_type origin httpCode cacheable s).maxServerUsage = 0 ∧
    (startStream p allowOriginAll content_type origin httpCode cacheable s).initialRam =
      peekFreeHeap s.env ∧
    (startStream p allowOriginAll content_type origin httpCode cacheable s).beforeTXRam =
      peekFreeHeap s.env ∧
    (startStream p allowOriginAll content_type origin httpCode cacheable s).flashStringCalls =
      s.flashStringCalls ∧
    (startStream p allowOriginAll content_type origin httpCode cacheable s).flashStringData =
      s.flashStringData := by
  by_cases hf : peekFreeHeap s.env < 3000
  · rw [startStream_low p _ _ _ _ _ s hf]
    exact ⟨rfl, rfl, rfl, rfl, rfl, rfl, rfl, rfl⟩
  · rw [startStream_normal p _ _ _ _ _ s (by omega)]
    exact ⟨rfl, rfl, rfl, rfl, rfl, rfl, rfl, rfl⟩

/-- Claim C12, witness: the second stream of a channel that has served a flash string, with
20000 bytes free. -/
theorem C12_startStream_resets_witness :
    (startStream Platform.ESP8266 false "text/html" "" 200 false
      (addFlashString Platform.ESP8266 (some [72, 105]) (-1) (scenarioStart 20000))).buf = [] ∧
    (startStream Platform.ESP8266 false "text/html" "" 200 false
      (addFlashString Platform.ESP8266 (some [72, 105]) (-1)
        (scenarioStart 20000))).initialRam = 20000 :=
  ⟨(C12_startStream_resets Platform.ESP8266 false "text/html" "" 200 false
      (addFlashString Platform.ESP8266 (some [72, 105]) (-1) (scenarioStart 20000))).1,
    by decide⟩

/-! ## Helper lemmas on the AHTx driver -/

theorem roundHalfEven_abs_sub_le (t : Rat) : |(roundHalfEven t : Rat) - t| ≤ 1 / 2 := by
  unfold roundHalfEven
  have h1 := Int.floor_le t
  have h2 := Int.lt_floor_add_one t
  dsimp only
  split_ifs <;> push_cast <;> rw [abs_le] <;> constructor <;> linarith

theorem roundHalfEven_le (t : Rat) (n : Int) (h : t ≤ n) : roundHalfEven t ≤ n := by
  have h1 := roundHalfEven_abs_sub_le t
  rw [abs_le] at h1
  have h2 : (roundHalfEven t : Rat) < ((n + 1 : Int) : Rat) := by push_cast; linarith
  have h3 : roundHalfEven t < n + 1 := by exact_mod_cast h2
  omega

theorem le_roundHalfEven (t : Rat) (n : Int) (h : (n : Rat) ≤ t) : n ≤ roundHalfEven t := by
  have h1 := roundHalfEven_abs_sub_le t
  rw [abs_le] at h1
  have h2 : ((n - 1 : Int) : Rat) < (roundHalfEven t : Rat) := by push_cast; linarith
  have h3 : n - 1 < roundHalfEven t := by exact_mod_cast h2
  omega

theorem roundHalfEven_intCast (n : Int) : roundHalfEven (n : Rat) = n :=
  le_antisymm (roundHalfEven_le _ n le_rfl) (le_roundHalfEven _ n le_rfl)

/-- The rounding of a value within less than one half of an integer. -/
theorem roundHalfEven_eq_of_abs_lt (t : Rat) (n : Int) (h : |t - n| < 1 / 2) :
    roundHalfEven t = n := by
  have h1 := roundHalfEven_abs_sub_le t
  rw [abs_le] at h1
  rw [abs_lt] at h
  have h2 : (roundHalfEven t : Rat) < ((n + 1 : Int) : Rat) := by push_cast; linarith
  have h3 : ((n - 1 : Int) : Rat) < (roundHalfEven t : Rat) := by push_cast; linarith
  have h4 : roundHalfEven t < n + 1 := by exact_mod_cast h2
  have h5 : n - 1 < roundHalfEven t := by exact_mod_cast h3
  omega

/-- The rounding of a value halfway between two integers is the even one of the two. -/
theorem roundHalfEven_tie (n : Int) :
    roundHalfEven ((n : Rat) + 1 / 2) = if n % 2 = 0 then n else n + 1 := by
  have hf : ⌊(n : Rat) + 1 / 2⌋ = n := by
    rw [Int.floor_eq_iff]
    constructor <;> linarith
  unfold roundHalfEven
  dsimp only
  rw [hf]
  have e : (n : Rat) + 1 / 2 - n = 1 / 2 := by ring
  rw [e, if_neg (lt_irrefl _), if_neg (lt_irrefl _)]


theorem Float32.ulp_pos (x : Rat) : 0 < Float32.ulp x := by
  unfold Float32.ulp
  positivity

theorem Float32.log_lt (x : Rat) (hx : x ≠ 0) (k : Int) (h : |x| < 2 ^ k) :
    Int.log 2 |x| < k := by
  have h0 : 0 < |x| := abs_pos.mpr hx
  have := (Int.lt_zpow_iff_log_lt (R := Rat) (b := 2) (by norm_num) (x := k) h0).mp
    (by simpa using h)
  exact this

theorem Float32.le_log (x : Rat) (hx : x ≠ 0) (k : Int) (h : 2 ^ k ≤ |x|) :
    k ≤ Int.log 2 |x| := by
  have h0 : 0 < |x| := abs_pos.mpr hx
  have := (Int.zpow_le_iff_le_log (R := Rat) (b := 2) (by norm_num) (x := k) h0).mp
    (by simpa using h)
  exact this

theorem Float32.abs_lt_zpow (x : Rat) : |x| < 2 ^ (Int.log 2 |x| + 1) := by
  have := Int.lt_zpow_succ_log_self (R := Rat) (b := 2) (by norm_num) |x|
  simpa using this

/-- The spacing around a value of known exponent. -/
theorem Float32.ulp_eq (x : Rat) (k : Int) (hk : -126 ≤ k) (h1 : 2 ^ k ≤ |x|)
    (h2 : |x| < 2 ^ (k + 1)) : Float32.ulp x = 2 ^ (k - 23) := by
  have hx : x ≠ 0 := by
    intro h0
    rw [h0, abs_zero] at h1
    exact absurd h1 (not_le.mpr (by positivity))
  have e1 := Float32.log_lt x hx _ h2
  have e2 := Float32.le_log x hx _ h1
  have e : Int.log 2 |x| = k := by omega
  unfold Float32.ulp
  rw [e, max_eq_left hk]

theorem Float32.ulp_le (x : Rat) (hx : x ≠ 0) (k : Int) (hk : -126 ≤ k)
    (h : |x| < 2 ^ (k + 1)) : Float32.ulp x ≤ 2 ^ (k - 23) := by
  have e1 := Float32.log_lt x hx _ h
  unfold Float32.ulp
  apply zpow_le_zpow_right₀ (by norm_num)
  have : max (Int.log 2 |x|) (-126) ≤ k := max_le (by omega) hk
  omega

theorem Float32.round_abs_sub_le_ulp (x : Rat) :
    |Float32.round x - x| ≤ Float32.ulp x / 2 := by
  have hu := Float32.ulp_pos x
  unfold Float32.round
  split_ifs with h0
  · rw [h0]; simp; linarith [Float32.ulp_pos 0]
  · have h := roundHalfEven_abs_sub_le (x / Float32.ulp x)
    have e : (roundHalfEven (x / Float32.ulp x) : Rat) * Float32.ulp x - x =
        ((roundHalfEven (x / Float32.ulp x) : Rat) - x / Float32.ulp x) * Float32.ulp x := by
      field_simp
    rw [e, abs_mul, abs_of_pos hu]
    calc |(roundHalfEven (x / Float32.ulp x) : Rat) - x / Float32.ulp x| * Float32.ulp x
        ≤ 1 / 2 * Float32.ulp x := mul_le_mul_of_nonneg_right h (le_of_lt hu)
      _ = Float32.ulp x / 2 := by ring

/-- The rounding error of a value below `2 ^ (k + 1)` is at most `2 ^ (k - 24)`. -/
theorem Float32.round_abs_sub_le (x : Rat) (k : Int) (hk : -126 ≤ k)
    (h : |x| < 2 ^ (k + 1)) : |Float32.round x - x| ≤ 2 ^ (k - 24) := by
  by_cases hx : x = 0
  · rw [hx]; simp [Float32.round]; positivity
  · have h1 := Float32.round_abs_sub_le_ulp x
    have h2 := Float32.ulp_le x hx k hk h
    have e : (2 : Rat) ^ (k - 24) = 2 ^ (k - 23) / 2 := by
      rw [show k - 23 = (k - 24) + 1 by ring, zpow_add_one₀ (by norm_num)]
      ring
    rw [e]
    linarith

theorem Float32.round_nonneg (x : Rat) (h : 0 ≤ x) : 0 ≤ Float32.round x := by
  unfold Float32.round
  split_ifs
  · exact le_rfl
  · have hu := Float32.ulp_pos x
    have : (0 : Int) ≤ roundHalfEven (x / Float32.ulp x) :=
      le_roundHalfEven _ 0 (by push_cast; positivity)
    have : (0 : Rat) ≤ roundHalfEven (x / Float32.ulp x) := by exact_mod_cast this
    positivity

theorem Float32.round_nonpos (x : Rat) (h : x ≤ 0) : Float32.round x ≤ 0 := by
  unfold Float32.round
  split_ifs
  · exact le_rfl
  · have hu := Float32.ulp_pos x
    have : roundHalfEven (x / Float32.ulp x) ≤ (0 : Int) :=
      roundHalfEven_le _ 0 (by push_cast; exact div_nonpos_of_nonpos_of_nonneg h (le_of_lt hu))
    have : (roundHalfEven (x / Float32.ulp x) : Rat) ≤ 0 := by exact_mod_cast this
    exact mul_nonpos_of_nonpos_of_nonneg this (le_of_lt hu)


/-- The rounding of a value of known exponent. -/
theorem Float32.round_eq (x : Rat) (k : Int) (hk : -126 ≤ k) (h1 : 2 ^ k ≤ |x|)
    (h2 : |x| < 2 ^ (k + 1)) :
    Float32.round x = (roundHalfEven (x / 2 ^ (k - 23)) : Rat) * 2 ^ (k - 23) := by
  have hx : x ≠ 0 := by
    intro h0
    rw [h0, abs_zero] at h1
    exact absurd h1 (not_le.mpr (by positivity))
  unfold Float32.round
  rw [if_neg hx, Float32.ulp_eq x k hk h1 h2]

theorem Float32.abs_round (x : Rat) (hx : x ≠ 0) :
    |Float32.round x| = |(roundHalfEven (x / Float32.ulp x) : Rat)| * Float32.ulp x := by
  unfold Float32.round
  rw [if_neg hx, abs_mul, abs_of_pos (Float32.ulp_pos x)]

theorem abs_roundHalfEven_le (t : Rat) (n : Int) (h : |t| ≤ n) :
    |(roundHalfEven t : Rat)| ≤ n := by
  rw [abs_le] at h ⊢
  have h1 := roundHalfEven_le t n h.2
  have h2 := le_roundHalfEven t (-n) (by push_cast; exact h.1)
  constructor
  · exact_mod_cast h2
  · exact_mod_cast h1

/-- Rounding does not cross a single precision value: a magnitude of at most `a`, where
`a = m * 2 ^ (k - 23)` with `2 ^ 23 ≤ m < 2 ^ 24` is a normal value of single precision, is
rounded to a magnitude of at most `a`. -/
theorem Float32.abs_round_le (x a : Rat) (m k : Int) (hk : -126 ≤ k) (hm1 : 2 ^ 23 ≤ m)
    (hm2 : m < 2 ^ 24) (ha : a = m * 2 ^ (k - 23)) (hx : |x| ≤ a) : |Float32.round x| ≤ a := by
  have hp : (0 : Rat) < 2 ^ (k - 23) := by positivity
  have hmq1 : ((2 : Rat) ^ 23) ≤ (m : Rat) := by exact_mod_cast hm1
  have hmq2 : (m : Rat) < 2 ^ 24 := by exact_mod_cast hm2
  have ha0 : 0 ≤ a := le_trans (abs_nonneg x) hx
  by_cases h0 : x = 0
  · rw [h0]; simpa [Float32.round] using ha0
  have ek : (2 : Rat) ^ (k + 1) = 2 ^ 24 * 2 ^ (k - 23) := by
    rw [show k + 1 = 24 + (k - 23) by ring, zpow_add₀ (by norm_num)]
    norm_num
  have ek2 : (2 : Rat) ^ k = 2 ^ 23 * 2 ^ (k - 23) := by
    rw [show k = 23 + (k - 23) by ring, zpow_add₀ (by norm_num)]
    norm_num
  have halt : a < 2 ^ (k + 1) := by
    rw [ha, ek]
    exact mul_lt_mul_of_pos_right hmq2 hp
  have hlog := Float32.log_lt x h0 _ (lt_of_le_of_lt hx halt)
  have hu := Float32.ulp_pos x
  rw [Float32.abs_round x h0]
  have hdiv : |x / Float32.ulp x| = |x| / Float32.ulp x := by
    rw [abs_div, abs_of_pos hu]
  by_cases hc : max (Int.log 2 |x|) (-126) = k
  · have eu : Float32.ulp x = 2 ^ (k - 23) := by
      unfold Float32.ulp
      rw [hc]
    have h1 : |x / Float32.ulp x| ≤ (m : Rat) := by
      rw [hdiv, div_le_iff₀ hu, eu, ← ha]
      exact hx
    have h2 := abs_roundHalfEven_le _ m h1
    calc |(roundHalfEven (x / Float32.ulp x) : Rat)| * Float32.ulp x
        ≤ (m : Rat) * Float32.ulp x := mul_le_mul_of_nonneg_right h2 (le_of_lt hu)
      _ = a := by rw [eu, ha]
  · have hlt : max (Int.log 2 |x|) (-126) + 1 ≤ k := by
      have : max (Int.log 2 |x|) (-126) ≤ k := max_le (by omega) hk
      omega
    have hx2 : |x| < 2 ^ (max (Int.log 2 |x|) (-126) + 1) :=
      lt_of_lt_of_le (Float32.abs_lt_zpow x)
        (zpow_le_zpow_right₀ (by norm_num) (by have := le_max_left (Int.log 2 |x|) (-126); omega))
    have eu : (2 : Rat) ^ (max (Int.log 2 |x|) (-126) + 1) = 2 ^ 24 * Float32.ulp x := by
      unfold Float32.ulp
      rw [show max (Int.log 2 |x|) (-126) + 1 = 24 + (max (Int.log 2 |x|) (-126) - 23) by ring,
        zpow_add₀ (by norm_num)]
      norm_num
    have e24 : ((2 ^ 24 : Int) : Rat) = 2 ^ 24 := by norm_num
    have h1 : |x / Float32.ulp x| ≤ ((2 ^ 24 : Int) : Rat) := by
      rw [hdiv, div_le_iff₀ hu, e24, ← eu]
      exact le_of_lt hx2
    have h2 := abs_roundHalfEven_le _ _ h1
    calc |(roundHalfEven (x / Float32.ulp x) : Rat)| * Float32.ulp x
        ≤ ((2 ^ 24 : Int) : Rat) * Float32.ulp x := mul_le_mul_of_nonneg_right h2 (le_of_lt hu)
      _ = 2 ^ (max (Int.log 2 |x|) (-126) + 1) := by rw [e24, eu]
      _ ≤ 2 ^ k := zpow_le_zpow_right₀ (by norm_num) hlt
      _ = 2 ^ 23 * 2 ^ (k - 23) := ek2
      _ ≤ (m : Rat) * 2 ^ (k - 23) := mul_le_mul_of_nonneg_right hmq1 (le_of_lt hp)
      _ = a := ha.symm

/-- A value `m * 2 ^ j` with `|m| < 2 ^ 24` and `-149 ≤ j` is a value of single precision: the
rounding returns it. -/
theorem Float32.round_of_representable (x : Rat) (m j : Int) (hm : |m| < 2 ^ 24)
    (hj : -149 ≤ j) (hx : x = (m : Rat) * 2 ^ j) : Float32.round x = x := by
  by_cases h0 : x = 0
  · rw [h0]; simp [Float32.round]
  have hp : (0 : Rat) < 2 ^ j := by positivity
  have habs : |x| < 2 ^ (j + 24) := by
    rw [hx, abs_mul, abs_of_pos hp, show j + 24 = 24 + j by ring, zpow_add₀ (by norm_num)]
    apply mul_lt_mul_of_pos_right _ hp
    rw [← Int.cast_abs]
    exact_mod_cast hm
  have hlog := Float32.log_lt _ h0 _ habs
  have hle : max (Int.log 2 |x|) (-126) - 23 ≤ j := by
    have : max (Int.log 2 |x|) (-126) ≤ j + 23 := max_le (by omega) (by omega)
    omega
  obtain ⟨s, hs⟩ := Int.eq_ofNat_of_zero_le (sub_nonneg.mpr hle)
  have hu := Float32.ulp_pos x
  have eu : (2 : Rat) ^ j = 2 ^ s * Float32.ulp x := by
    unfold Float32.ulp
    rw [← zpow_natCast, ← zpow_add₀ (by norm_num), ← hs]
    congr 1
    ring
  have ediv : x / Float32.ulp x = ((m * 2 ^ s : Int) : Rat) := by
    rw [div_eq_iff (ne_of_gt hu)]
    calc x = (m : Rat) * 2 ^ j := hx
      _ = (m : Rat) * (2 ^ s * Float32.ulp x) := by rw [eu]
      _ = ((m * 2 ^ s : Int) : Rat) * Float32.ulp x := by push_cast; ring
  unfold Float32.round
  rw [if_neg h0, ediv, roundHalfEven_intCast]
  calc ((m * 2 ^ s : Int) : Rat) * Float32.ulp x
      = (m : Rat) * (2 ^ s * Float32.ulp x) := by push_cast; ring
    _ = (m : Rat) * 2 ^ j := by rw [eu]
    _ = x := hx.symm

theorem Float32.ofNat_exact (n : Nat) (h : n < 2 ^ 24) : Float32.ofNat n = n := by
  unfold Float32.ofNat
  exact Float32.round_of_representable _ (n : Int) 0
    (by rw [abs_of_nonneg (by positivity)]; exact_mod_cast h) (by norm_num) (by simp)

theorem Float32.div_pow_exact (n : Nat) (h : n < 2 ^ 24) :
    Float32.div n 1048576 = (n : Rat) / 1048576 := by
  unfold Float32.div
  refine Float32.round_of_representable _ (n : Int) (-20)
    (by rw [abs_of_nonneg (by positivity)]; exact_mod_cast h) (by norm_num) ?_
  rw [zpow_neg, div_eq_mul_inv]
  norm_num


/-- The humidity conversion of a 20 bits value: the rounded product is within `2 ^ (-18)` of the
exact one and stays in `[0, 100)`. -/
theorem Float32.humidity_bounds (n : Nat) (h : n < 2 ^ 20) :
    |Float32.round ((n : Rat) / 1048576 * 100) - (n : Rat) / 1048576 * 100| ≤ 1 / 2 ^ 18 ∧
    0 ≤ Float32.round ((n : Rat) / 1048576 * 100) ∧
    Float32.round ((n : Rat) / 1048576 * 100) < 100 := by
  have hn : (n : Rat) ≤ 1048575 := by
    have : n ≤ 1048575 := by omega
    exact_mod_cast this
  have h0 : (0 : Rat) ≤ (n : Rat) / 1048576 * 100 := by positivity
  have h1 : (n : Rat) / 1048576 * 100 ≤ 3276797 / 32768 := by linarith
  have habs : |(n : Rat) / 1048576 * 100| ≤ 3276797 / 32768 := by
    rw [abs_of_nonneg h0]; exact h1
  refine ⟨?_, Float32.round_nonneg _ h0, ?_⟩
  · have := Float32.round_abs_sub_le ((n : Rat) / 1048576 * 100) 6 (by norm_num)
      (lt_of_le_of_lt habs (by norm_num))
    refine le_trans this (le_of_eq ?_)
    norm_num
  · have := Float32.abs_round_le ((n : Rat) / 1048576 * 100) (3276797 / 32768) 13107188 6
      (by norm_num) (by norm_num) (by norm_num) (by norm_num) habs
    have h2 := le_trans (le_abs_self _) this
    exact lt_of_le_of_lt h2 (by norm_num)

/-- The temperature conversion of a 20 bits value: the rounded difference is within
`2 ^ (-16)` of the exact one and stays in `[-50, 150)`. -/
theorem Float32.temperature_bounds (n : Nat) (h : n < 2 ^ 20) :
    |Float32.round (Float32.round ((n : Rat) / 1048576 * 200) - 50) -
      ((n : Rat) / 1048576 * 200 - 50)| ≤ 1 / 2 ^ 16 ∧
    -50 ≤ Float32.round (Float32.round ((n : Rat) / 1048576 * 200) - 50) ∧
    Float32.round (Float32.round ((n : Rat) / 1048576 * 200) - 50) < 150 := by
  have hn : (n : Rat) ≤ 1048575 := by
    have : n ≤ 1048575 := by omega
    exact_mod_cast this
  have h0 : (0 : Rat) ≤ (n : Rat) / 1048576 * 200 := by positivity
  have h1 : (n : Rat) / 1048576 * 200 ≤ 3276797 / 16384 := by linarith
  have habs : |(n : Rat) / 1048576 * 200| ≤ 3276797 / 16384 := by
    rw [abs_of_nonneg h0]; exact h1
  have y0 := Float32.round_nonneg _ h0
  have y1 := le_trans (le_abs_self _)
    (Float32.abs_round_le ((n : Rat) / 1048576 * 200) (3276797 / 16384) 13107188 7
      (by norm_num) (by norm_num) (by norm_num) (by norm_num) habs)
  have e1 := Float32.round_abs_sub_le ((n : Rat) / 1048576 * 200) 7 (by norm_num)
    (lt_of_le_of_lt habs (by norm_num))
  have zabs : |Float32.round ((n : Rat) / 1048576 * 200) - 50| < 2 ^ ((7 : Int) + 1) := by
    rw [abs_lt]
    constructor
    · have : (-(2 : Rat) ^ ((7 : Int) + 1)) < -50 := by norm_num
      linarith
    · have : (3276797 : Rat) / 16384 - 50 < 2 ^ ((7 : Int) + 1) := by norm_num
      linarith
  have e2 := Float32.round_abs_sub_le (Float32.round ((n : Rat) / 1048576 * 200) - 50) 7
    (by norm_num) zabs
  have p17 : (2 : Rat) ^ ((7 : Int) - 24) = 1 / 2 ^ 17 := by norm_num
  rw [p17] at e1 e2
  refine ⟨?_, ?_, ?_⟩
  · have e : Float32.round (Float32.round ((n : Rat) / 1048576 * 200) - 50) -
        ((n : Rat) / 1048576 * 200 - 50) =
        (Float32.round (Float32.round ((n : Rat) / 1048576 * 200) - 50) -
          (Float32.round ((n : Rat) / 1048576 * 200) - 50)) +
        (Float32.round ((n : Rat) / 1048576 * 200) - (n : Rat) / 1048576 * 200) := by ring
    rw [e]
    refine le_trans (abs_add _ _) ?_
    have : (1 : Rat) / 2 ^ 16 = 1 / 2 ^ 17 + 1 / 2 ^ 17 := by norm_num
    rw [this]
    exact add_le_add e2 e1
  · by_cases hz : 0 ≤ Float32.round ((n : Rat) / 1048576 * 200) - 50
    · exact le_trans (by norm_num) (Float32.round_nonneg _ hz)
    · have hz2 : |Float32.round ((n : Rat) / 1048576 * 200) - 50| ≤ 50 := by
        rw [abs_le]
        constructor <;> linarith
      have := Float32.abs_round_le _ 50 13107200 5 (by norm_num) (by norm_num) (by norm_num)
        (by norm_num) hz2
      exact (abs_le.mp this).1
  · by_cases hz : Float32.round ((n : Rat) / 1048576 * 200) - 50 ≤ 0
    · exact lt_of_le_of_lt (Float32.round_nonpos _ hz) (by norm_num)
    · have hz2 : |Float32.round ((n : Rat) / 1048576 * 200) - 50| ≤ 2457597 / 16384 := by
        rw [abs_le]
        constructor <;> linarith
      have := Float32.abs_round_le _ (2457597 / 16384) 9830388 7 (by norm_num) (by norm_num)
        (by norm_num) (by norm_num) hz2
      exact lt_of_le_of_lt (le_trans (le_abs_self _) this) (by norm_num)

/-- The two conversions at the greatest 20 bits value, `0xFFFFF`: both products lie halfway
between two values of single precision and are rounded up, to the even one. -/
theorem Float32.round_full_scale :
    Float32.round ((1048575 : Rat) / 1048576 * 100) = 3276797 / 32768 ∧
    Float32.round (Float32.round ((1048575 : Rat) / 1048576 * 200) - 50) = 2457597 / 16384 := by
  have t1 : roundHalfEven ((13107187 : Int) + 1 / 2) = 13107188 := by
    rw [roundHalfEven_tie]; decide
  have a1 : Float32.round ((1048575 : Rat) / 1048576 * 100) = 3276797 / 32768 := by
    rw [Float32.round_eq _ 6 (by norm_num) (by norm_num [abs_of_nonneg])
      (by norm_num [abs_of_nonneg])]
    have : (1048575 : Rat) / 1048576 * 100 / 2 ^ ((6 : Int) - 23) =
        ((13107187 : Int) : Rat) + 1 / 2 := by
      norm_num
    rw [this, t1]
    norm_num
  have a2 : Float32.round ((1048575 : Rat) / 1048576 * 200) = 3276797 / 16384 := by
    rw [Float32.round_eq _ 7 (by norm_num) (by norm_num [abs_of_nonneg])
      (by norm_num [abs_of_nonneg])]
    have : (1048575 : Rat) / 1048576 * 200 / 2 ^ ((7 : Int) - 23) =
        ((13107187 : Int) : Rat) + 1 / 2 := by
      norm_num
    rw [this, t1]
    norm_num
  refine ⟨a1, ?_⟩
  have e : (3276797 : Rat) / 16384 - 50 = 2457597 / 16384 := by norm_num
  rw [a2, e]
  refine Float32.round_of_representable _ 9830388 (-16) (by norm_num) (by norm_num) ?_
  norm_num

/-- The two conversions at the payload of Scenario A, `H = 0x73C9F` and `T = 0x5BDD9`: the
exact results are values of single precision. -/
theorem Float32.round_scenario :
    Float32.round ((474271 : Rat) / 1048576 * 100) = 11856775 / 262144 ∧
    Float32.round (Float32.round ((376281 : Rat) / 1048576 * 200) - 50) = 2853425 / 131072 := by
  have a1 : Float32.round ((474271 : Rat) / 1048576 * 100) = 11856775 / 262144 := by
    have e : (474271 : Rat) / 1048576 * 100 = 11856775 / 262144 := by norm_num
    rw [e]
    refine Float32.round_of_representable _ 11856775 (-18) (by norm_num) (by norm_num) ?_
    norm_num
  have a2 : Float32.round ((376281 : Rat) / 1048576 * 200) = 9407025 / 131072 := by
    have e : (376281 : Rat) / 1048576 * 200 = 9407025 / 131072 := by norm_num
    rw [e]
    refine Float32.round_of_representable _ 9407025 (-17) (by norm_num) (by norm_num) ?_
    norm_num
  refine ⟨a1, ?_⟩
  have e : (9407025 : Rat) / 131072 - 50 = 2853425 / 131072 := by norm_num
  rw [a2, e]
  refine Float32.round_of_representable _ 2853425 (-17) (by norm_num) (by norm_num) ?_
  norm_num

theorem AHTx_Bus.data_lt (bus : AHTx_Bus) (i : Nat) : bus.data i < 256 := by
  unfold AHTx_Bus.data
  omega

theorem or_eq_add_of_lt (i a b : Nat) (hb : b < 2 ^ i) : (a <<< i) ||| b = a * 2 ^ i + b := by
  rw [Nat.shiftLeft_eq, Nat.mul_comm, ← Nat.mul_add_lt_is_or hb]

theorem AHTx_Bus.rawHumidity_eq (bus : AHTx_Bus) :
    bus.rawHumidity = bus.data 1 * 2 ^ 12 + bus.data 2 * 2 ^ 4 + (bus.data 3 >>> 4) := by
  have h1 := bus.data_lt 1
  have h2 := bus.data_lt 2
  have h3 := bus.data_lt 3
  have h4 : bus.data 3 >>> 4 < 2 ^ 4 := by
    rw [Nat.shiftRight_eq_div_pow]
    omega
  unfold AHTx_Bus.rawHumidity UINT32_MOD
  dsimp only
  have e1 : ((bus.data 1 <<< 8) ||| bus.data 2) % 4294967296 =
      bus.data 1 * 2 ^ 8 + bus.data 2 := by
    rw [or_eq_add_of_lt 8 _ _ (by omega)]
    exact Nat.mod_eq_of_lt (by omega)
  rw [e1, or_eq_add_of_lt 4 _ _ h4]
  omega

theorem AHTx_Bus.rawTemperature_eq (bus : AHTx_Bus) :
    bus.rawTemperature = (bus.data 3 &&& 0x0F) * 2 ^ 16 + bus.data 4 * 2 ^ 8 + bus.data 5 := by
  have h3 : bus.data 3 &&& 0x0F < 16 := by
    have := Nat.and_pow_two_sub_one_eq_mod (bus.data 3) 4
    have e : (2 : Nat) ^ 4 - 1 = 0x0F := by norm_num
    rw [e] at this
    rw [this]
    omega
  have h4 := bus.data_lt 4
  have h5 := bus.data_lt 5
  unfold AHTx_Bus.rawTemperature UINT32_MOD
  dsimp only
  have e1 : (((bus.data 3 &&& 0x0F) <<< 8) ||| bus.data 4) % 4294967296 =
      (bus.data 3 &&& 0x0F) * 2 ^ 8 + bus.data 4 := by
    rw [or_eq_add_of_lt 8 _ _ (by omega)]
    exact Nat.mod_eq_of_lt (by omega)
  rw [e1, or_eq_add_of_lt 8 _ _ (by omega)]
  omega

theorem AHTx_Bus.rawHumidity_lt (bus : AHTx_Bus) : bus.rawHumidity < 2 ^ 20 := by
  have h1 := bus.data_lt 1
  have h2 := bus.data_lt 2
  have h4 : bus.data 3 >>> 4 < 2 ^ 4 := by
    have h3 := bus.data_lt 3
    rw [Nat.shiftRight_eq_div_pow]
    omega
  rw [AHTx_Bus.rawHumidity_eq]
  omega

theorem AHTx_Bus.rawTemperature_lt (bus : AHTx_Bus) : bus.rawTemperature < 2 ^ 20 := by
  have h3 : bus.data 3 &&& 0x0F < 16 := by
    have := Nat.and_pow_two_sub_one_eq_mod (bus.data 3) 4
    have e : (2 : Nat) ^ 4 - 1 = 0x0F := by norm_num
    rw [e] at this
    rw [this]
    omega
  have h4 := bus.data_lt 4
  have h5 := bus.data_lt 5
  rw [AHTx_Bus.rawTemperature_eq]
  omega


theorem timePassedSince_elapsed (t0 d : Nat) (e : Env) (hnow : e.now = t0 + d)
    (hd : d < 2147483648) : timePassedSince (t0 % UINT32_MOD) e = (d : Int) := by
  unfold timePassedSince toInt32 sub32 millis UINT32_MOD
  rw [hnow]
  split <;> omega

theorem timeOutReached_elapsed (t0 d i : Nat) (e : Env) (hnow : e.now = t0 + d)
    (hd : d < 2147483648) (hi : i < 2147483648) :
    timeOutReached (add32 (t0 % UINT32_MOD) (i % UINT32_MOD)) e = decide (i ≤ d) := by
  unfold timeOutReached timePassedSince toInt32 sub32 millis add32 UINT32_MOD
  rw [hnow]
  by_cases h : i ≤ d
  · simp only [h, decide_True, decide_eq_true_eq]
    split <;> omega
  · simp only [h, decide_False, decide_eq_false_iff_not]
    split <;> omega

theorem timePassedSince_self (e : Env) : timePassedSince (millis e) e = 0 := by
  unfold timePassedSince toInt32 sub32 millis UINT32_MOD
  split <;> omega

theorem AHTx_Device.readData_accept (d : AHTx_Device) (bus : AHTx_Bus)
    (h1 : bus.requestFrom ≠ 0) (h2 : (AHTx_Status.ofByte (bus.data 0)).valid = true)
    (h3 : (AHTx_Status.ofByte (bus.data 0)).calibrated = true) :
    d.readData bus =
      (true,
       { d with
         last_hum_val := Float32.round ((bus.rawHumidity : Rat) / 1048576 * 100),
         last_temp_val :=
           Float32.round (Float32.round ((bus.rawTemperature : Rat) / 1048576 * 200) - 50) },
       DriverCall.requestFrom d.i2cAddress 6 :: List.replicate 6 DriverCall.read) := by
  unfold AHTx_Device.readData
  have e20 : (1 <<< 20 : Nat) = 1048576 := rfl
  have c20 : Float32.ofNat 1048576 = 1048576 := by
    simpa using Float32.ofNat_exact 1048576 (by norm_num)
  have cH := Float32.ofNat_exact bus.rawHumidity (lt_trans bus.rawHumidity_lt (by norm_num))
  have cT := Float32.ofNat_exact bus.rawTemperature
    (lt_trans bus.rawTemperature_lt (by norm_num))
  have dH := Float32.div_pow_exact bus.rawHumidity (lt_trans bus.rawHumidity_lt (by norm_num))
  have dT := Float32.div_pow_exact bus.rawTemperature
    (lt_trans bus.rawTemperature_lt (by norm_num))
  simp only [h1, h2, h3, if_false, Bool.and_self, Bool.not_true, e20, c20, cH, cT, dH, dT,
    Float32.mul, Float32.sub]
  norm_num

/-- The values that the payload of Scenario A, `18 73 C9 F5 BD D9`, decodes to. -/
theorem scenarioBus_decoded :
    Float32.round (((scenarioBus.data 1 * 2 ^ 12 + scenarioBus.data 2 * 2 ^ 4 +
      (scenarioBus.data 3 >>> 4) : Nat) : Rat) / 2 ^ 20 * 100) = 11856775 / 262144 ∧
    Float32.round (Float32.round ((((scenarioBus.data 3 &&& 0x0F) * 2 ^ 16 +
      scenarioBus.data 4 * 2 ^ 8 + scenarioBus.data 5 : Nat) : Rat) / 2 ^ 20 * 200) - 50) =
      2853425 / 131072 := by
  have eH : scenarioBus.data 1 * 2 ^ 12 + scenarioBus.data 2 * 2 ^ 4 +
      (scenarioBus.data 3 >>> 4) = 474271 := by decide
  have eT : (scenarioBus.data 3 &&& 0x0F) * 2 ^ 16 + scenarioBus.data 4 * 2 ^ 8 +
      scenarioBus.data 5 = 376281 := by decide
  have e20 : (2 : Rat) ^ 20 = 1048576 := by norm_num
  rw [eH, eT, e20]
  exact_mod_cast Float32.round_scenario

theorem AHTx_Device.readData_reject (d : AHTx_Device) (bus : AHTx_Bus)
    (h : bus.requestFrom = 0 ∨ (AHTx_Status.ofByte (bus.data 0)).valid = false ∨
      (AHTx_Status.ofByte (bus.data 0)).calibrated = false) :
    (d.readData bus).1 = false ∧ (d.readData bus).2.1 = d := by
  unfold AHTx_Device.readData
  by_cases h1 : bus.requestFrom = 0
  · simp [h1]
  · rcases h with h | h | h
    · exact absurd h h1
    · simp [h1, h]
    · simp [h1, h]

theorem AHTx_Device.readData_isHardware (d : AHTx_Device) (bus : AHTx_Bus) :
    ∀ c ∈ (d.readData bus).2.2, c.isHardware = true := by
  unfold AHTx_Device.readData
  dsimp only
  split
  · simp [DriverCall.isHardware]
  · split <;> simp [DriverCall.isHardware]

theorem AHTx_Device.readData_true_iff (d : AHTx_Device) (bus : AHTx_Bus) :
    (d.readData bus).1 = true ↔
      (bus.requestFrom ≠ 0 ∧ (AHTx_Status.ofByte (bus.data 0)).valid = true ∧
        (AHTx_Status.ofByte (bus.data 0)).calibrated = true) := by
  constructor
  · intro h
    by_contra hn
    have : bus.requestFrom = 0 ∨ (AHTx_Status.ofByte (bus.data 0)).valid = false ∨
        (AHTx_Status.ofByte (bus.data 0)).calibrated = false := by
      by_cases h1 : bus.requestFrom = 0
      · exact Or.inl h1
      · cases h2 : (AHTx_Status.ofByte (bus.data 0)).valid
        · exact Or.inr (Or.inl rfl)
        · cases h3 : (AHTx_Status.ofByte (bus.data 0)).calibrated
          · exact Or.inr (Or.inr rfl)
          · exact absurd ⟨h1, h2, h3⟩ hn
    rw [(AHTx_Device.readData_reject d bus this).1] at h
    exact absurd h (by simp)
  · rintro ⟨h1, h2, h3⟩
    rw [AHTx_Device.readData_accept d bus h1 h2 h3]


theorem pollStatus_late (e : Env) (bus : AHTx_Bus) (s : P105_data_struct)
    (hr : bus.status.ready = false) (ht : 1000 < timePassedSince s.trigger_time e) :
    s.pollStatus e bus =
      (false, { s with state := AHTx_state.AHTx_Uninitialized },
        [DriverCall.I2C_read8 s.device.i2cAddress,
         DriverCall.addLog LogLevel.LOG_LEVEL_ERROR (s.device.getDeviceName ++ " : reset"),
         DriverCall.I2C_write8 s.device.i2cAddress 0xBA]) := by
  unfold AHTx_Bus.status AHTx_Status.ready at hr
  unfold P105_data_struct.pollStatus AHTx_Device.readStatus AHTx_Device.softReset
  simp [hr, ht]

theorem pollStatus_early (e : Env) (bus : AHTx_Bus) (s : P105_data_struct)
    (hr : bus.status.ready = false) (ht : timePassedSince s.trigger_time e ≤ 1000) :
    s.pollStatus e bus = (false, s, [DriverCall.I2C_read8 s.device.i2cAddress]) := by
  unfold AHTx_Bus.status AHTx_Status.ready at hr
  unfold P105_data_struct.pollStatus AHTx_Device.readStatus
  have ht2 : ¬ timePassedSince s.trigger_time e > 1000 := by omega
  simp [hr, ht2]

theorem pollStatus_trigger (e : Env) (bus : AHTx_Bus) (s : P105_data_struct)
    (hr : bus.status.ready = true) (hs : s.state = AHTx_state.AHTx_Trigger_measurement) :
    s.pollStatus e bus =
      (false, { s with trigger_time := millis e,
                       state := AHTx_state.AHTx_Wait_for_samples },
        [DriverCall.I2C_read8 s.device.i2cAddress,
         DriverCall.I2C_write16_reg s.device.i2cAddress 0xAC 0x3300]) := by
  unfold AHTx_Bus.status AHTx_Status.ready at hr
  unfold P105_data_struct.pollStatus AHTx_Device.readStatus AHTx_Device.triggerMeasurement
  simp [hr, hs]

theorem pollStatus_read (e : Env) (bus : AHTx_Bus) (s : P105_data_struct)
    (hr : bus.status.ready = true) (hs : s.state ≠ AHTx_state.AHTx_Trigger_measurement) :
    s.pollStatus e bus =
      (if (s.device.readData bus).1 = true then
        (true, { s with device := (s.device.readData bus).2.1, last_measurement := millis e,
                        state := AHTx_state.AHTx_New_values },
          DriverCall.I2C_read8 s.device.i2cAddress :: (s.device.readData bus).2.2)
      else
        (false, { s with device := (s.device.readData bus).2.1 },
          DriverCall.I2C_read8 s.device.i2cAddress :: (s.device.readData bus).2.2)) := by
  unfold AHTx_Bus.status AHTx_Status.ready at hr
  unfold P105_data_struct.pollStatus AHTx_Device.readStatus
  cases hd : (s.device.readData bus).1 <;> simp [hr, hs, hd]

theorem updateMeasurements_waiting (TaskDeviceTimer : Nat) (e : Env) (bus : AHTx_Bus)
    (s : P105_data_struct)
    (hs : s.state = AHTx_state.AHTx_Trigger_measurement ∨
      s.state = AHTx_state.AHTx_Wait_for_samples) :
    s.updateMeasurements TaskDeviceTimer e bus = s.pollStatus e bus := by
  unfold P105_data_struct.updateMeasurements P105_data_struct.initialized
  rcases hs with hs | hs <;> simp [hs]

theorem updateMeasurements_uninitialized (TaskDeviceTimer : Nat) (e : Env) (bus : AHTx_Bus)
    (s : P105_data_struct) (hs : s.state = AHTx_state.AHTx_Uninitialized) :
    s.updateMeasurements TaskDeviceTimer e bus =
      (if bus.I2C_write = true then
        (false, { s with trigger_time := millis e,
                         state := AHTx_state.AHTx_Trigger_measurement },
          ( AHTx_Device.initialize s.device bus).2 ++
            [DriverCall.addLog LogLevel.LOG_LEVEL_INFO
              (s.device.getDeviceName ++ " : initialized")])
      else
        (false, s, ( AHTx_Device.initialize s.device bus).2 ++
          [DriverCall.addLog LogLevel.LOG_LEVEL_ERROR
            (s.device.getDeviceName ++ " : unable to initialize")])) := by
  have h1 : ( AHTx_Device.initialize s.device bus).1 = bus.I2C_write := by
    unfold AHTx_Device.initialize
    dsimp only
    split <;> rfl
  unfold P105_data_struct.updateMeasurements P105_data_struct.initialized
  cases hw : bus.I2C_write <;> simp [hs, h1, hw]

theorem updateMeasurements_newValues (TaskDeviceTimer : Nat) (e : Env) (bus : AHTx_Bus)
    (s : P105_data_struct) (hs : s.state = AHTx_state.AHTx_New_values) :
    s.updateMeasurements TaskDeviceTimer e bus =
      (if timeOutReached
          (add32 s.last_measurement (TaskDeviceTimer * 1000 % UINT32_MOD)) e = true then
        P105_data_struct.pollStatus e bus
          { s with trigger_time := millis e, state := AHTx_state.AHTx_Trigger_measurement }
      else (false, s, [])) := by
  unfold P105_data_struct.updateMeasurements P105_data_struct.initialized
  cases ht : timeOutReached
    (add32 s.last_measurement (TaskDeviceTimer * 1000 % UINT32_MOD)) e <;> simp [hs, ht]

theorem AHTx_Device.initialize_fst (d : AHTx_Device) (bus : AHTx_Bus) :
    ( AHTx_Device.initialize d bus).1 = bus.I2C_write := by
  unfold AHTx_Device.initialize
  dsimp only
  split <;> rfl

theorem AHTx_Device.initialize_snd (d : AHTx_Device) (bus : AHTx_Bus) :
    ( AHTx_Device.initialize d bus).2 =
      [if d.device_type = AHTx_device_type.AHT10_DEVICE ∧ d.alt_init = true then
        DriverCall.I2C_write8 d.i2cAddress 0xBA
      else if d.device_type = AHTx_device_type.AHT10_DEVICE then
        DriverCall.I2C_write16_reg d.i2cAddress 0xE1 0x0800
      else DriverCall.I2C_write16_reg d.i2cAddress 0xBE 0x0800] := by
  unfold AHTx_Device.initialize
  cases d.device_type <;> cases d.alt_init <;> simp

theorem AHTx_Status.ready_iff (b : Nat) (hb : b < 256) :
    (AHTx_Status.ofByte b).ready = true ↔ (b ≠ 0xFF ∧ b &&& 8 ≠ 0 ∧ b &&& 128 = 0) := by
  unfold AHTx_Status.ready AHTx_Status.valid AHTx_Status.calibrated AHTx_Status.busy
    AHTx_Status.ofByte
  rw [Nat.mod_eq_of_lt hb]
  simp [and_assoc]

theorem AHTx_Bus.payloadStatus_valid (bus : AHTx_Bus) :
    bus.payloadStatus.valid = true ↔ bus.data 0 ≠ 0xFF := by
  unfold AHTx_Bus.payloadStatus AHTx_Status.valid AHTx_Status.ofByte
  rw [Nat.mod_eq_of_lt (bus.data_lt 0)]
  simp

theorem AHTx_Bus.payloadStatus_calibrated (bus : AHTx_Bus) :
    bus.payloadStatus.calibrated = true ↔ bus.data 0 &&& (1 <<< 3) ≠ 0 := by
  unfold AHTx_Bus.payloadStatus AHTx_Status.calibrated AHTx_Status.ofByte
  rw [Nat.mod_eq_of_lt (bus.data_lt 0)]
  simp

/-- The poll returns true exactly when it reads a payload successfully. -/
theorem pollStatus_true_iff (e : Env) (bus : AHTx_Bus) (s : P105_data_struct) :
    (s.pollStatus e bus).1 = true ↔
      (s.state ≠ AHTx_state.AHTx_Trigger_measurement ∧ bus.status.ready = true ∧
        (s.device.readData bus).1 = true) := by
  cases hr : bus.status.ready
  · by_cases ht : 1000 < timePassedSince s.trigger_time e
    · rw [pollStatus_late e bus s hr ht]; simp
    · rw [pollStatus_early e bus s hr (by omega)]; simp
  · by_cases hs : s.state = AHTx_state.AHTx_Trigger_measurement
    · rw [pollStatus_trigger e bus s hr hs]; simp [hs]
    · rw [pollStatus_read e bus s hr hs]
      cases hd : (s.device.readData bus).1 <;> simp [hs]

theorem AHTx_Bus.status_ready_iff (bus : AHTx_Bus) :
    bus.status.ready = true ↔
      (bus.I2C_read8 % 256 ≠ 0xFF ∧ bus.I2C_read8 % 256 &&& 8 ≠ 0 ∧
        bus.I2C_read8 % 256 &&& 128 = 0) := by
  unfold AHTx_Bus.status
  exact AHTx_Status.ready_iff _ (Nat.mod_lt _ (by norm_num))

theorem updateMeasurements_true (TaskDeviceTimer : Nat) (e : Env) (bus : AHTx_Bus)
    (s : P105_data_struct) (h : (s.updateMeasurements TaskDeviceTimer e bus).1 = true) :
    s.state = AHTx_state.AHTx_Wait_for_samples ∧
      (s.updateMeasurements TaskDeviceTimer e bus).2.1.state = AHTx_state.AHTx_New_values := by
  cases hs : s.state
  · rw [updateMeasurements_uninitialized _ _ _ _ hs] at h
    split at h <;> simp at h
  · rw [updateMeasurements_waiting _ _ _ _ (Or.inl hs)] at h
    have := (pollStatus_true_iff e bus s).mp h
    exact absurd hs this.1
  · rw [updateMeasurements_waiting _ _ _ _ (Or.inr hs)] at h ⊢
    obtain ⟨h1, h2, h3⟩ := (pollStatus_true_iff e bus s).mp h
    rw [pollStatus_read e bus s h2 h1, if_pos h3]
    exact ⟨rfl, rfl⟩
  · rw [updateMeasurements_newValues _ _ _ _ hs] at h
    split at h
    · have := (pollStatus_true_iff e bus _).mp h
      exact absurd rfl this.1
    · simp at h

theorem updateMeasurements_false_of_ne (TaskDeviceTimer : Nat) (e : Env) (bus : AHTx_Bus)
    (s : P105_data_struct) (hs : s.state ≠ AHTx_state.AHTx_Wait_for_samples) :
    (s.updateMeasurements TaskDeviceTimer e bus).1 = false := by
  cases h : (s.updateMeasurements TaskDeviceTimer e bus).1
  · rfl
  · exact absurd (updateMeasurements_true _ _ _ _ h).1 hs

theorem updateMeasurements_uninitialized_state (TaskDeviceTimer : Nat) (e : Env)
    (bus : AHTx_Bus) (s : P105_data_struct) (hs : s.state = AHTx_state.AHTx_Uninitialized) :
    (s.updateMeasurements TaskDeviceTimer e bus).2.1.state ≠
      AHTx_state.AHTx_Wait_for_samples := by
  rw [updateMeasurements_uninitialized _ _ _ _ hs]
  split
  · simp
  · show s.state ≠ _
    rw [hs]; simp

theorem updateMeasurementsSeq_chain (inputs : List (Nat × Env × AHTx_Bus))
    (s : P105_data_struct) :
    List.Chain' (fun a b : Bool => ¬ (a = true ∧ b = true))
      (updateMeasurementsSeq inputs s).1 := by
  induction inputs generalizing s with
  | nil => simp [updateMeasurementsSeq]
  | cons x rest ih =>
    obtain ⟨T, e, bus⟩ := x
    show List.Chain' _ ((s.updateMeasurements T e bus).1 ::
      (updateMeasurementsSeq rest (s.updateMeasurements T e bus).2.1).1)
    rw [List.chain'_cons']
    refine ⟨?_, ih _⟩
    intro y hy
    rintro ⟨h1, h2⟩
    cases rest with
    | nil => simp [updateMeasurementsSeq] at hy
    | cons x2 rest2 =>
      obtain ⟨T2, e2, bus2⟩ := x2
      have hy2 : y = ((s.updateMeasurements T e bus).2.1.updateMeasurements T2 e2 bus2).1 := by
        simpa [updateMeasurementsSeq] using hy.symm
      have hst := (updateMeasurements_true T e bus s h1).2
      have := updateMeasurements_false_of_ne T2 e2 bus2 (s.updateMeasurements T e bus).2.1
        (by rw [hst]; simp)
      rw [← hy2, h2] at this
      exact absurd this (by simp)

theorem AHTx_Status.valid_of_not_busy (st : AHTx_Status) (h : st.busy = false) :
    st.valid = true := by
  unfold AHTx_Status.busy at h
  unfold AHTx_Status.valid
  by_contra hv
  have e : st.status = 0xFF := by simpa using hv
  rw [e] at h
  simp at h

theorem shiftRight_four (n : Nat) : n >>> 4 = n / 16 := by
  rw [Nat.shiftRight_eq_div_pow]

theorem and_fifteen (n : Nat) : n &&& 0x0F = n % 16 := by
  have := Nat.and_pow_two_sub_one_eq_mod n 4
  simpa using this

/-! ## The claims on the AHTx driver -/

/-- Claim C13: `updateMeasurements` returns true if and only if the phase on entry is
`AHTx_Wait_for_samples`, the status byte read is valid, calibrated and not busy, and `readData`
succeeds (the bus delivers a payload whose status byte is valid and calibrated); in that case
the phase on return is `AHTx_New_values`, `last_measurement` is the current time of the call and
the cached humidity and temperature are the values decoded from that payload: with `d[i]` the
byte that the `i`-th `Wire.read()` delivered, `H = d[1] * 2 ^ 12 + d[2] * 2 ^ 4 + (d[3] >> 4)`
and `T = (d[3] & 0x0F) * 2 ^ 16 + d[4] * 2 ^ 8 + d[5]`, the humidity is `H / 2 ^ 20 * 100`
rounded to single precision, within `2 ^ (-18)` of it, and the temperature is
`T / 2 ^ 20 * 200`, rounded, minus `50`, rounded, within `2 ^ (-16)` of
`T / 2 ^ 20 * 200 - 50`. -/
theorem C13_true_iff_new_values (TaskDeviceTimer : Nat) (e : Env) (bus : AHTx_Bus)
    (s : P105_data_struct) :
    ((s.updateMeasurements TaskDeviceTimer e bus).1 = true ↔
      (s.state = AHTx_state.AHTx_Wait_for_samples ∧ bus.status.ready = true ∧
        (s.device.readData bus).1 = true)) ∧
    ((s.device.readData bus).1 = true ↔
      (bus.requestFrom ≠ 0 ∧ bus.payloadStatus.valid = true ∧
        bus.payloadStatus.calibrated = true)) ∧
    ((s.updateMeasurements TaskDeviceTimer e bus).1 = true →
      (s.updateMeasurements TaskDeviceTimer e bus).2.1.state = AHTx_state.AHTx_New_values ∧
      (s.updateMeasurements TaskDeviceTimer e bus).2.1.last_measurement = millis e ∧
      (s.updateMeasurements TaskDeviceTimer e bus).2.1.trigger_time = s.trigger_time ∧
      (s.updateMeasurements TaskDeviceTimer e bus).2.1.device.last_hum_val =
        Float32.round (((bus.data 1 * 2 ^ 12 + bus.data 2 * 2 ^ 4 + (bus.data 3 >>> 4) : Nat)
          : Rat) / 2 ^ 20 * 100) ∧
      (s.updateMeasurements TaskDeviceTimer e bus).2.1.device.last_temp_val =
        Float32.round (Float32.round ((((bus.data 3 &&& 0x0F) * 2 ^ 16 + bus.data 4 * 2 ^ 8 +
          bus.data 5 : Nat) : Rat) / 2 ^ 20 * 200) - 50) ∧
      |(s.updateMeasurements TaskDeviceTimer e bus).2.1.device.last_hum_val -
        ((bus.data 1 * 2 ^ 12 + bus.data 2 * 2 ^ 4 + (bus.data 3 >>> 4) : Nat) : Rat) / 2 ^ 20
          * 100| ≤ 1 / 2 ^ 18 ∧
      |(s.updateMeasurements TaskDeviceTimer e bus).2.1.device.last_temp_val -
        ((((bus.data 3 &&& 0x0F) * 2 ^ 16 + bus.data 4 * 2 ^ 8 + bus.data 5 : Nat) : Rat)
          / 2 ^ 20 * 200 - 50)| ≤ 1 / 2 ^ 16) ∧
    (∀ i : Nat, bus.data i = bus.read.getD i 255 % 256) := by
  have hiff : (s.updateMeasurements TaskDeviceTimer e bus).1 = true ↔
      (s.state = AHTx_state.AHTx_Wait_for_samples ∧ bus.status.ready = true ∧
        (s.device.readData bus).1 = true) := by
    cases hs : s.state
    · rw [updateMeasurements_uninitialized _ _ _ _ hs]
      split <;> simp
    · rw [updateMeasurements_waiting _ _ _ _ (Or.inl hs), pollStatus_true_iff, hs]
      simp
    · rw [updateMeasurements_waiting _ _ _ _ (Or.inr hs), pollStatus_true_iff, hs]
      simp
    · rw [updateMeasurements_newValues _ _ _ _ hs]
      split
      · rw [pollStatus_true_iff]
        simp
      · simp
  refine ⟨hiff, AHTx_Device.readData_true_iff s.device bus, ?_, fun _ => rfl⟩
  intro h
  obtain ⟨hs, hr, hd⟩ := hiff.mp h
  obtain ⟨h1, h2, h3⟩ := (AHTx_Device.readData_true_iff s.device bus).mp hd
  have e20 : (2 : Rat) ^ 20 = 1048576 := by norm_num
  rw [updateMeasurements_waiting _ _ _ _ (Or.inr hs),
    pollStatus_read e bus s hr (by rw [hs]; simp), if_pos hd,
    AHTx_Device.readData_accept s.device bus h1 h2 h3,
    ← AHTx_Bus.rawHumidity_eq, ← AHTx_Bus.rawTemperature_eq, e20]
  exact ⟨rfl, rfl, rfl, rfl, rfl, (Float32.humidity_bounds _ bus.rawHumidity_lt).1,
    (Float32.temperature_bounds _ bus.rawTemperature_lt).1⟩

/-- Claim C13, witness: Scenario A, the call in phase `AHTx_Wait_for_samples` with a ready
status and the payload `18 73 C9 F5 BD D9` returns true, ends in `AHTx_New_values` with
`last_measurement = 5100`, and caches the humidity `11856775 / 262144 = 45.2300...` and the
temperature `2853425 / 131072 = 21.7699...`. -/
theorem C13_true_iff_new_values_witness :
    ((scenarioDriver AHTx_state.AHTx_Wait_for_samples).updateMeasurements 60 (clockAt 5100)
      scenarioBus).1 = true ∧
    ((scenarioDriver AHTx_state.AHTx_Wait_for_samples).updateMeasurements 60 (clockAt 5100)
      scenarioBus).2.1.state = AHTx_state.AHTx_New_values ∧
    ((scenarioDriver AHTx_state.AHTx_Wait_for_samples).updateMeasurements 60 (clockAt 5100)
      scenarioBus).2.1.last_measurement = 5100 ∧
    ((scenarioDriver AHTx_state.AHTx_Wait_for_samples).updateMeasurements 60 (clockAt 5100)
      scenarioBus).2.1.device.last_hum_val = 11856775 / 262144 ∧
    ((scenarioDriver AHTx_state.AHTx_Wait_for_samples).updateMeasurements 60 (clockAt 5100)
      scenarioBus).2.1.device.last_temp_val = 2853425 / 131072 :=
  ⟨by decide,
    ((C13_true_iff_new_values 60 (clockAt 5100) scenarioBus
      (scenarioDriver AHTx_state.AHTx_Wait_for_samples)).2.2.1 (by decide)).1,
    ((C13_true_iff_new_values 60 (clockAt 5100) scenarioBus
      (scenarioDriver AHTx_state.AHTx_Wait_for_samples)).2.2.1 (by decide)).2.1,
    (((C13_true_iff_new_values 60 (clockAt 5100) scenarioBus
      (scenarioDriver AHTx_state.AHTx_Wait_for_samples)).2.2.1 (by decide)).2.2.2.1).trans
      scenarioBus_decoded.1,
    (((C13_true_iff_new_values 60 (clockAt 5100) scenarioBus
      (scenarioDriver AHTx_state.AHTx_Wait_for_samples)).2.2.1 (by decide)).2.2.2.2.1).trans
      scenarioBus_decoded.2⟩

/-- Claim C14: a call of `updateMeasurements` entered in phase `AHTx_Trigger_measurement` or
`AHTx_Wait_for_samples`, in which the status byte read is not (valid, calibrated, not busy) and
more than 1000 ms have passed since `trigger_time`, reads the status, emits the error-level
diagnostic "reset", issues the soft-reset command `0xBA`, leaves the driver in phase
`AHTx_Uninitialized` with nothing else changed, and returns false. -/
theorem C14_stall_recovery (TaskDeviceTimer : Nat) (e : Env) (bus : AHTx_Bus)
    (s : P105_data_struct)
    (hs : s.state = AHTx_state.AHTx_Trigger_measurement ∨
      s.state = AHTx_state.AHTx_Wait_for_samples)
    (hr : bus.status.ready = false) (ht : 1000 < timePassedSince s.trigger_time e) :
    (s.updateMeasurements TaskDeviceTimer e bus).1 = false ∧
    (s.updateMeasurements TaskDeviceTimer e bus).2.1 =
      { s with state := AHTx_state.AHTx_Uninitialized } ∧
    (s.updateMeasurements TaskDeviceTimer e bus).2.2 =
      [DriverCall.I2C_read8 s.device.i2cAddress,
       DriverCall.addLog LogLevel.LOG_LEVEL_ERROR (s.device.getDeviceName ++ " : reset"),
       DriverCall.I2C_write8 s.device.i2cAddress 0xBA] ∧
    (s.device.softReset bus).2 = [DriverCall.I2C_write8 s.device.i2cAddress 0xBA] := by
  rw [updateMeasurements_waiting _ _ _ _ hs, pollStatus_late e bus s hr ht]
  exact ⟨rfl, rfl, rfl, rfl⟩

/-- Claim C14, witness: Scenario B, 1200 ms after `trigger_time` with the sensor still busy. -/
theorem C14_stall_recovery_witness :
    ((scenarioDriver AHTx_state.AHTx_Wait_for_samples).state =
        AHTx_state.AHTx_Trigger_measurement ∨
      (scenarioDriver AHTx_state.AHTx_Wait_for_samples).state =
        AHTx_state.AHTx_Wait_for_samples) ∧
    busyBus.status.ready = false ∧
    timePassedSince (scenarioDriver AHTx_state.AHTx_Wait_for_samples).trigger_time
      (clockAt 6200) = 1200 ∧
    ((scenarioDriver AHTx_state.AHTx_Wait_for_samples).updateMeasurements 60 (clockAt 6200)
      busyBus).2.1 =
      { scenarioDriver AHTx_state.AHTx_Wait_for_samples with
        state := AHTx_state.AHTx_Uninitialized } :=
  ⟨by decide, by decide, by decide,
    (C14_stall_recovery 60 (clockAt 6200) busyBus
      (scenarioDriver AHTx_state.AHTx_Wait_for_samples) (by decide) (by decide)
      (by decide)).2.1⟩


/-- Claim C15, refuted as stated: 1200 ms after `trigger_time` a call entered in phase
`AHTx_Trigger_measurement` that reads a ready status triggers a measurement and ends in
`AHTx_Wait_for_samples`; a call entered in `AHTx_Wait_for_samples` that reads a ready status and
then a payload that is not calibrated ends in `AHTx_Wait_for_samples`. Neither ends in
`AHTx_New_values` and neither issues the reset command. -/
theorem C15_ready_status_skips_guard :
    timePassedSince (scenarioDriver AHTx_state.AHTx_Trigger_measurement).trigger_time
      (clockAt 6200) = 1200 ∧
    (scenarioDriver AHTx_state.AHTx_Trigger_measurement).updateMeasurements 60 (clockAt 6200)
      scenarioBus =
      (false,
       { scenarioDriver AHTx_state.AHTx_Wait_for_samples with trigger_time := 6200 },
       [DriverCall.I2C_read8 0x38, DriverCall.I2C_write16_reg 0x38 0xAC 0x3300]) ∧
    (scenarioDriver AHTx_state.AHTx_Wait_for_samples).updateMeasurements 60 (clockAt 6200)
      staleBus =
      (false, scenarioDriver AHTx_state.AHTx_Wait_for_samples,
       [DriverCall.I2C_read8 0x38, DriverCall.requestFrom 0x38 6, DriverCall.read,
        DriverCall.read, DriverCall.read, DriverCall.read, DriverCall.read,
        DriverCall.read]) := by
  decide

/-- Claim C15, amended: in a call of `updateMeasurements` entered in phase
`AHTx_Trigger_measurement` or `AHTx_Wait_for_samples` with more than 1000 ms passed since
`trigger_time`, the reset is forced exactly when the status byte read is not (valid,
calibrated, not busy): then the call ends in `AHTx_Uninitialized`. With a ready status no
reset is issued: from `AHTx_Trigger_measurement` the call triggers a measurement, sets
`trigger_time` to the current time and ends in `AHTx_Wait_for_samples`; from
`AHTx_Wait_for_samples` it ends in `AHTx_New_values` when `readData` succeeds and leaves the
driver as it was, in `AHTx_Wait_for_samples`, when `readData` fails. -/
theorem C15_dwell_guard (TaskDeviceTimer : Nat) (e : Env) (bus : AHTx_Bus)
    (s : P105_data_struct)
    (hs : s.state = AHTx_state.AHTx_Trigger_measurement ∨
      s.state = AHTx_state.AHTx_Wait_for_samples)
    (ht : 1000 < timePassedSince s.trigger_time e) :
    (bus.status.ready = false →
      (s.updateMeasurements TaskDeviceTimer e bus).2.1 =
        { s with state := AHTx_state.AHTx_Uninitialized } ∧
      (s.updateMeasurements TaskDeviceTimer e bus).2.2 =
        [DriverCall.I2C_read8 s.device.i2cAddress,
         DriverCall.addLog LogLevel.LOG_LEVEL_ERROR (s.device.getDeviceName ++ " : reset"),
         DriverCall.I2C_write8 s.device.i2cAddress 0xBA]) ∧
    (bus.status.ready = true → s.state = AHTx_state.AHTx_Trigger_measurement →
      (s.updateMeasurements TaskDeviceTimer e bus).2.1 =
        { s with trigger_time := millis e, state := AHTx_state.AHTx_Wait_for_samples } ∧
      (s.updateMeasurements TaskDeviceTimer e bus).2.2 =
        [DriverCall.I2C_read8 s.device.i2cAddress,
         DriverCall.I2C_write16_reg s.device.i2cAddress 0xAC 0x3300]) ∧
    (bus.status.ready = true → s.state = AHTx_state.AHTx_Wait_for_samples →
      (s.device.readData bus).1 = true →
      (s.updateMeasurements TaskDeviceTimer e bus).2.1.state = AHTx_state.AHTx_New_values ∧
      (s.updateMeasurements TaskDeviceTimer e bus).2.2 =
        DriverCall.I2C_read8 s.device.i2cAddress :: (s.device.readData bus).2.2) ∧
    (bus.status.ready = true → s.state = AHTx_state.AHTx_Wait_for_samples →
      (s.device.readData bus).1 = false →
      (s.updateMeasurements TaskDeviceTimer e bus).2.1 = s ∧
      (s.updateMeasurements TaskDeviceTimer e bus).2.2 =
        DriverCall.I2C_read8 s.device.i2cAddress :: (s.device.readData bus).2.2) := by
  rw [updateMeasurements_waiting _ _ _ _ hs]
  refine ⟨?_, ?_, ?_, ?_⟩
  · intro hr
    rw [pollStatus_late e bus s hr ht]
    exact ⟨rfl, rfl⟩
  · intro hr hst
    rw [pollStatus_trigger e bus s hr hst]
    exact ⟨rfl, rfl⟩
  · intro hr hst hd
    rw [pollStatus_read e bus s hr (by rw [hst]; simp), if_pos hd]
    exact ⟨rfl, rfl⟩
  · intro hr hst hd
    rw [pollStatus_read e bus s hr (by rw [hst]; simp), if_neg (by simp [hd])]
    have h2 : (s.device.readData bus).2.1 = s.device := by
      by_contra hne
      have h3 := (AHTx_Device.readData_true_iff s.device bus).not.mp (by simp [hd])
      have h4 : bus.requestFrom = 0 ∨ (AHTx_Status.ofByte (bus.data 0)).valid = false ∨
          (AHTx_Status.ofByte (bus.data 0)).calibrated = false := by
        by_cases h1 : bus.requestFrom = 0
        · exact Or.inl h1
        · cases hv : (AHTx_Status.ofByte (bus.data 0)).valid
          · exact Or.inr (Or.inl rfl)
          · cases hc : (AHTx_Status.ofByte (bus.data 0)).calibrated
            · exact Or.inr (Or.inr rfl)
            · exact absurd ⟨h1, hv, hc⟩ h3
      exact hne (AHTx_Device.readData_reject s.device bus h4).2
    refine ⟨?_, rfl⟩
    show { s with device := (s.device.readData bus).2.1 } = s
    rw [h2]

/-- Claim C15, witness: Scenario B, 1200 ms after `trigger_time` with the sensor still busy,
ends in `AHTx_Uninitialized`. -/
theorem C15_dwell_guard_witness :
    1000 < timePassedSince (scenarioDriver AHTx_state.AHTx_Trigger_measurement).trigger_time
      (clockAt 6200) ∧
    ((scenarioDriver AHTx_state.AHTx_Trigger_measurement).updateMeasurements 60 (clockAt 6200)
      busyBus).2.1 =
      { scenarioDriver AHTx_state.AHTx_Trigger_measurement with
        state := AHTx_state.AHTx_Uninitialized } :=
  ⟨by decide,
    ((C15_dwell_guard 60 (clockAt 6200) busyBus
      (scenarioDriver AHTx_state.AHTx_Trigger_measurement) (by decide) (by decide)).1
      (by decide)).1⟩

/-- Claim C16: a call of `updateMeasurements` entered in phase `AHTx_Uninitialized` performs
one hardware operation, the write of the device initialize command; it issues no status read,
no measurement trigger and no data read, returns false, and ends in `AHTx_Uninitialized` or
`AHTx_Trigger_measurement`. -/
theorem C16_no_phase_skipping (TaskDeviceTimer : Nat) (e : Env) (bus : AHTx_Bus)
    (s : P105_data_struct) (hs : s.state = AHTx_state.AHTx_Uninitialized) :
    (s.updateMeasurements TaskDeviceTimer e bus).2.2.filter DriverCall.isHardware =
      ( AHTx_Device.initialize s.device bus).2 ∧
    ( AHTx_Device.initialize s.device bus).2 =
      [if s.device.device_type = AHTx_device_type.AHT10_DEVICE ∧ s.device.alt_init = true then
        DriverCall.I2C_write8 s.device.i2cAddress 0xBA
      else if s.device.device_type = AHTx_device_type.AHT10_DEVICE then
        DriverCall.I2C_write16_reg s.device.i2cAddress 0xE1 0x0800
      else DriverCall.I2C_write16_reg s.device.i2cAddress 0xBE 0x0800] ∧
    (∀ c ∈ (s.updateMeasurements TaskDeviceTimer e bus).2.2,
      c ≠ DriverCall.I2C_read8 s.device.i2cAddress ∧
      c ≠ DriverCall.I2C_write16_reg s.device.i2cAddress 0xAC 0x3300 ∧
      c ≠ DriverCall.requestFrom s.device.i2cAddress 6 ∧ c ≠ DriverCall.read) ∧
    (s.updateMeasurements TaskDeviceTimer e bus).1 = false ∧
    ((s.updateMeasurements TaskDeviceTimer e bus).2.1.state = AHTx_state.AHTx_Uninitialized ∨
      (s.updateMeasurements TaskDeviceTimer e bus).2.1.state =
        AHTx_state.AHTx_Trigger_measurement) := by
  have hi := AHTx_Device.initialize_snd s.device bus
  rw [updateMeasurements_uninitialized _ _ _ _ hs]
  refine ⟨?_, hi, ?_, ?_, ?_⟩
  · rw [hi]
    split <;> split <;> simp [DriverCall.isHardware] <;> split <;> simp [DriverCall.isHardware]
  · rw [hi]
    intro c hc
    split at hc <;> split at hc <;> simp at hc <;> rcases hc with hc | hc <;> subst hc <;>
      (try split) <;> simp
  · split <;> rfl
  · split
    · exact Or.inr rfl
    · exact Or.inl hs

/-- Claim C16, witness: the first call on a freshly constructed driver. -/
theorem C16_no_phase_skipping_witness :
    (P105_data_struct.new 0x38 AHTx_device_type.AHT20_DEVICE false).state =
      AHTx_state.AHTx_Uninitialized ∧
    ((P105_data_struct.new 0x38 AHTx_device_type.AHT20_DEVICE false).updateMeasurements 60
      (clockAt 5000) scenarioBus).2.2.filter DriverCall.isHardware =
      [DriverCall.I2C_write16_reg 0x38 0xBE 0x0800] :=
  ⟨by decide,
    (C16_no_phase_skipping 60 (clockAt 5000) scenarioBus
      (P105_data_struct.new 0x38 AHTx_device_type.AHT20_DEVICE false) (by decide)).1⟩


/-- Claim C17: in a call of `updateMeasurements` entered in phase `AHTx_Uninitialized`, if the
device initialize command fails the driver is left as it was (phase `AHTx_Uninitialized`,
`trigger_time` and `last_measurement` unchanged), the error-level diagnostic "unable to
initialize" is emitted and the call returns false; if it succeeds the phase becomes
`AHTx_Trigger_measurement`, `trigger_time` is the current time of the call, nothing else
changes and the call returns false. -/
theorem C17_bring_up (TaskDeviceTimer : Nat) (e : Env) (bus : AHTx_Bus)
    (s : P105_data_struct) (hs : s.state = AHTx_state.AHTx_Uninitialized) :
    (( AHTx_Device.initialize s.device bus).1 = false →
      s.updateMeasurements TaskDeviceTimer e bus =
        (false, s, ( AHTx_Device.initialize s.device bus).2 ++
          [DriverCall.addLog LogLevel.LOG_LEVEL_ERROR
            (s.device.getDeviceName ++ " : unable to initialize")]) ∧
      (s.updateMeasurements TaskDeviceTimer e bus).2.1.state =
        AHTx_state.AHTx_Uninitialized) ∧
    (( AHTx_Device.initialize s.device bus).1 = true →
      s.updateMeasurements TaskDeviceTimer e bus =
        (false, { s with trigger_time := millis e,
                         state := AHTx_state.AHTx_Trigger_measurement },
          ( AHTx_Device.initialize s.device bus).2 ++
            [DriverCall.addLog LogLevel.LOG_LEVEL_INFO
              (s.device.getDeviceName ++ " : initialized")])) := by
  rw [updateMeasurements_uninitialized _ _ _ _ hs, AHTx_Device.initialize_fst]
  constructor
  · intro h
    rw [if_neg (by simp [h])]
    exact ⟨rfl, hs⟩
  · intro h
    rw [if_pos h]

/-- Claim C17, witness: bring-up on a bus on which every write fails leaves the fresh driver
as it was. -/
theorem C17_bring_up_witness :
    (P105_data_struct.new 0x38 AHTx_device_type.AHT20_DEVICE false).state =
      AHTx_state.AHTx_Uninitialized ∧
    ( AHTx_Device.initialize (P105_data_struct.new 0x38 AHTx_device_type.AHT20_DEVICE
      false).device deadBus).1 = false ∧
    ((P105_data_struct.new 0x38 AHTx_device_type.AHT20_DEVICE false).updateMeasurements 60
      (clockAt 5000) deadBus).2.1.state = AHTx_state.AHTx_Uninitialized :=
  ⟨by decide, by decide,
    ((C17_bring_up 60 (clockAt 5000) deadBus
      (P105_data_struct.new 0x38 AHTx_device_type.AHT20_DEVICE false) (by decide)).1
      (by decide)).2⟩

/-- Claim C18, refuted as stated: the payload `18 FF FF FF FF FF` has a status byte that is not
`0xFF` and has bit 3 set, and `H = T = 0xFFFFF`. `readData` returns true and caches the
humidity `3276797 / 32768 = 99.99990844...`, which is not
`H / 2 ^ 20 * 100 = 26214375 / 262144 = 99.99990463...`, and the temperature
`2457597 / 16384 = 149.99981689...`, which is not
`T / 2 ^ 20 * 200 - 50 = 19660775 / 131072 = 149.99980926...`: each product lies halfway between
two values of single precision and is rounded. -/
theorem C18_full_scale_is_rounded :
    fullScaleBus.requestFrom ≠ 0 ∧ fullScaleBus.data 0 ≠ 0xFF ∧
    fullScaleBus.data 0 &&& (1 <<< 3) ≠ 0 ∧
    fullScaleBus.data 1 * 2 ^ 12 + fullScaleBus.data 2 * 2 ^ 4 + (fullScaleBus.data 3 >>> 4) =
      1048575 ∧
    (fullScaleBus.data 3 &&& 0x0F) * 2 ^ 16 + fullScaleBus.data 4 * 2 ^ 8 + fullScaleBus.data 5 =
      1048575 ∧
    ((AHTx_Device.new 0x38 AHTx_device_type.AHT20_DEVICE false).readData fullScaleBus).1 = true ∧
    ((AHTx_Device.new 0x38 AHTx_device_type.AHT20_DEVICE false).readData
      fullScaleBus).2.1.last_hum_val = 3276797 / 32768 ∧
    ((AHTx_Device.new 0x38 AHTx_device_type.AHT20_DEVICE false).readData
      fullScaleBus).2.1.last_hum_val ≠ (1048575 : Rat) / 2 ^ 20 * 100 ∧
    ((AHTx_Device.new 0x38 AHTx_device_type.AHT20_DEVICE false).readData
      fullScaleBus).2.1.last_temp_val = 2457597 / 16384 ∧
    ((AHTx_Device.new 0x38 AHTx_device_type.AHT20_DEVICE false).readData
      fullScaleBus).2.1.last_temp_val ≠ (1048575 : Rat) / 2 ^ 20 * 200 - 50 := by
  have eH : fullScaleBus.rawHumidity = 1048575 := by decide
  have eT : fullScaleBus.rawTemperature = 1048575 := by decide
  have hH : ((AHTx_Device.new 0x38 AHTx_device_type.AHT20_DEVICE false).readData
      fullScaleBus).2.1.last_hum_val = 3276797 / 32768 := by
    rw [AHTx_Device.readData_accept _ fullScaleBus (by decide) (by decide) (by decide), eH]
    exact_mod_cast Float32.round_full_scale.1
  have hT : ((AHTx_Device.new 0x38 AHTx_device_type.AHT20_DEVICE false).readData
      fullScaleBus).2.1.last_temp_val = 2457597 / 16384 := by
    rw [AHTx_Device.readData_accept _ fullScaleBus (by decide) (by decide) (by decide), eT]
    exact_mod_cast Float32.round_full_scale.2
  refine ⟨by decide, by decide, by decide, by decide, by decide, by decide, hH, ?_, hT, ?_⟩
  · rw [hH]; norm_num
  · rw [hT]; norm_num

/-- Claim C18, amended: for every delivered 6-byte payload whose status byte is not `0xFF` and
has bit 3 set, `readData` returns true and caches humidity `= fl (H / 2 ^ 20 * 100)` and
temperature `= fl (fl (T / 2 ^ 20 * 200) - 50)`, where `fl` rounds to the nearest value of
single precision, ties to even, `H = d[1] * 2 ^ 12 + d[2] * 2 ^ 4 + (d[3] >> 4)` and
`T = (d[3] & 0x0F) * 2 ^ 16 + d[4] * 2 ^ 8 + d[5]`. The cached values are within `2 ^ (-18)` and
`2 ^ (-16)` of the exact `H / 2 ^ 20 * 100` and `T / 2 ^ 20 * 200 - 50`, and
`0 ≤ humidity < 100` and `-50 ≤ temperature < 150`. -/
theorem C18_payload_decoding (d : AHTx_Device) (bus : AHTx_Bus)
    (hreq : bus.requestFrom ≠ 0) (hvalid : bus.data 0 ≠ 0xFF)
    (hcal : bus.data 0 &&& (1 <<< 3) ≠ 0) :
    (d.readData bus).1 = true ∧
    (d.readData bus).2.1.last_hum_val =
      Float32.round (((bus.data 1 * 2 ^ 12 + bus.data 2 * 2 ^ 4 + (bus.data 3 >>> 4) : Nat)
        : Rat) / 2 ^ 20 * 100) ∧
    (d.readData bus).2.1.last_temp_val =
      Float32.round (Float32.round ((((bus.data 3 &&& 0x0F) * 2 ^ 16 + bus.data 4 * 2 ^ 8 +
        bus.data 5 : Nat) : Rat) / 2 ^ 20 * 200) - 50) ∧
    |(d.readData bus).2.1.last_hum_val -
      ((bus.data 1 * 2 ^ 12 + bus.data 2 * 2 ^ 4 + (bus.data 3 >>> 4) : Nat) : Rat) / 2 ^ 20
        * 100| ≤ 1 / 2 ^ 18 ∧
    |(d.readData bus).2.1.last_temp_val -
      ((((bus.data 3 &&& 0x0F) * 2 ^ 16 + bus.data 4 * 2 ^ 8 + bus.data 5 : Nat) : Rat)
        / 2 ^ 20 * 200 - 50)| ≤ 1 / 2 ^ 16 ∧
    0 ≤ (d.readData bus).2.1.last_hum_val ∧ (d.readData bus).2.1.last_hum_val < 100 ∧
    -50 ≤ (d.readData bus).2.1.last_temp_val ∧ (d.readData bus).2.1.last_temp_val < 150 := by
  have h2 := (AHTx_Bus.payloadStatus_valid bus).mpr hvalid
  have h3 := (AHTx_Bus.payloadStatus_calibrated bus).mpr hcal
  have e20 : (2 : Rat) ^ 20 = 1048576 := by norm_num
  rw [AHTx_Device.readData_accept d bus hreq h2 h3, ← AHTx_Bus.rawHumidity_eq,
    ← AHTx_Bus.rawTemperature_eq, e20]
  obtain ⟨a1, a2, a3⟩ := Float32.humidity_bounds _ bus.rawHumidity_lt
  obtain ⟨b1, b2, b3⟩ := Float32.temperature_bounds _ bus.rawTemperature_lt
  exact ⟨rfl, rfl, rfl, a1, b1, a2, a3, b2, b3⟩

/-- Claim C18, witness: the payload `18 73 C9 F5 BD D9`, with `H = 0x73C9F` and `T = 0x5BDD9`,
is accepted and decodes to the humidity `11856775 / 262144 = 45.2300...` and the temperature
`2853425 / 131072 = 21.7699...`. -/
theorem C18_payload_decoding_witness :
    scenarioBus.requestFrom ≠ 0 ∧ scenarioBus.data 0 ≠ 0xFF ∧
    scenarioBus.data 0 &&& (1 <<< 3) ≠ 0 ∧
    ((AHTx_Device.new 0x38 AHTx_device_type.AHT20_DEVICE false).readData scenarioBus).1 = true ∧
    ((AHTx_Device.new 0x38 AHTx_device_type.AHT20_DEVICE false).readData
      scenarioBus).2.1.last_hum_val = 11856775 / 262144 ∧
    ((AHTx_Device.new 0x38 AHTx_device_type.AHT20_DEVICE false).readData
      scenarioBus).2.1.last_temp_val = 2853425 / 131072 ∧
    ((AHTx_Device.new 0x38 AHTx_device_type.AHT20_DEVICE false).readData
      scenarioBus).2.1.last_hum_val < 100 :=
  ⟨by decide, by decide, by decide,
    (C18_payload_decoding (AHTx_Device.new 0x38 AHTx_device_type.AHT20_DEVICE false)
      scenarioBus (by decide) (by decide) (by decide)).1,
    ((C18_payload_decoding (AHTx_Device.new 0x38 AHTx_device_type.AHT20_DEVICE false)
      scenarioBus (by decide) (by decide) (by decide)).2.1).trans scenarioBus_decoded.1,
    ((C18_payload_decoding (AHTx_Device.new 0x38 AHTx_device_type.AHT20_DEVICE false)
      scenarioBus (by decide) (by decide) (by decide)).2.2.1).trans scenarioBus_decoded.2,
    (C18_payload_decoding (AHTx_Device.new 0x38 AHTx_device_type.AHT20_DEVICE false)
      scenarioBus (by decide) (by decide) (by decide)).2.2.2.2.2.2.1⟩

/-- Claim C19: for a failed bus read, and for every payload whose status byte is `0xFF` or has
bit 3 clear, `readData` returns false and leaves the device record, hence the cached humidity
and temperature, unchanged; `updateMeasurements` entered in `AHTx_Wait_for_samples` with a
ready status then returns false and leaves the whole driver state (phase, `trigger_time`,
`last_measurement`, cached values) unchanged. -/
theorem C19_payload_rejection (TaskDeviceTimer : Nat) (e : Env) (bus : AHTx_Bus)
    (s : P105_data_struct)
    (hrej : bus.requestFrom = 0 ∨ bus.data 0 = 0xFF ∨ bus.data 0 &&& (1 <<< 3) = 0) :
    (s.device.readData bus).1 = false ∧
    (s.device.readData bus).2.1 = s.device ∧
    (s.state = AHTx_state.AHTx_Wait_for_samples → bus.status.ready = true →
      (s.updateMeasurements TaskDeviceTimer e bus).1 = false ∧
      (s.updateMeasurements TaskDeviceTimer e bus).2.1 = s ∧
      (s.updateMeasurements TaskDeviceTimer e bus).2.2 =
        DriverCall.I2C_read8 s.device.i2cAddress :: (s.device.readData bus).2.2) := by
  have h : bus.requestFrom = 0 ∨ (AHTx_Status.ofByte (bus.data 0)).valid = false ∨
      (AHTx_Status.ofByte (bus.data 0)).calibrated = false := by
    rcases hrej with h | h | h
    · exact Or.inl h
    · refine Or.inr (Or.inl ?_)
      have := (AHTx_Bus.payloadStatus_valid bus).not.mpr (by simpa using h)
      simpa [AHTx_Bus.payloadStatus] using this
    · refine Or.inr (Or.inr ?_)
      have := (AHTx_Bus.payloadStatus_calibrated bus).not.mpr (by simpa using h)
      simpa [AHTx_Bus.payloadStatus] using this
  obtain ⟨h1, h2⟩ := AHTx_Device.readData_reject s.device bus h
  refine ⟨h1, h2, ?_⟩
  intro hs hr
  rw [updateMeasurements_waiting _ _ _ _ (Or.inr hs),
    pollStatus_read e bus s hr (by rw [hs]; simp), if_neg (by simp [h1])]
  refine ⟨rfl, ?_, rfl⟩
  show { s with device := (s.device.readData bus).2.1 } = s
  rw [h2]

/-- Claim C19, witness: a ready status followed by a payload whose status byte `0x10` is not
calibrated. -/
theorem C19_payload_rejection_witness :
    staleBus.data 0 &&& (1 <<< 3) = 0 ∧
    ((scenarioDriver AHTx_state.AHTx_Wait_for_samples).device.readData staleBus).1 = false ∧
    ((scenarioDriver AHTx_state.AHTx_Wait_for_samples).updateMeasurements 60 (clockAt 5100)
      staleBus).2.1 = scenarioDriver AHTx_state.AHTx_Wait_for_samples :=
  ⟨by decide,
    (C19_payload_rejection 60 (clockAt 5100) staleBus
      (scenarioDriver AHTx_state.AHTx_Wait_for_samples) (Or.inr (Or.inr (by decide)))).1,
    ((C19_payload_rejection 60 (clockAt 5100) staleBus
      (scenarioDriver AHTx_state.AHTx_Wait_for_samples) (Or.inr (Or.inr (by decide)))).2.2
      (by decide) (by decide)).2.1⟩

/-- Claim C20, refuted as stated: with a task interval of 4294968 s and
`last_measurement = 4000`, the 32 bit sum `last_measurement + TaskDeviceTimer * 1000` wraps to
4704. A call entered in phase `AHTx_New_values` at 4703 ms changes nothing, and the call at
4704 ms, 704 ms after the measurement and long before the 4294968000 ms of the interval have
passed, re-arms: it sets `trigger_time` to 4704, reads the status, triggers a measurement and
ends in `AHTx_Wait_for_samples`. -/
theorem C20_rearm_inside_wrapped_interval :
    (scenarioDriver AHTx_state.AHTx_New_values).state = AHTx_state.AHTx_New_values ∧
    (scenarioDriver AHTx_state.AHTx_New_values).last_measurement = 4000 ∧
    4704 - 4000 < 4294968 * 1000 ∧
    add32 4000 (4294968 * 1000 % UINT32_MOD) = 4704 ∧
    ((scenarioDriver AHTx_state.AHTx_New_values).updateMeasurements 4294968 (clockAt 4703)
      scenarioBus).2.1.state = AHTx_state.AHTx_New_values ∧
    ((scenarioDriver AHTx_state.AHTx_New_values).updateMeasurements 4294968 (clockAt 4703)
      scenarioBus).2.2 = [] ∧
    ((scenarioDriver AHTx_state.AHTx_New_values).updateMeasurements 4294968 (clockAt 4704)
      scenarioBus).1 = false ∧
    ((scenarioDriver AHTx_state.AHTx_New_values).updateMeasurements 4294968 (clockAt 4704)
      scenarioBus).2.1.state = AHTx_state.AHTx_Wait_for_samples ∧
    ((scenarioDriver AHTx_state.AHTx_New_values).updateMeasurements 4294968 (clockAt 4704)
      scenarioBus).2.1.trigger_time = 4704 ∧
    ((scenarioDriver AHTx_state.AHTx_New_values).updateMeasurements 4294968 (clockAt 4704)
      scenarioBus).2.2 =
      [DriverCall.I2C_read8 0x38, DriverCall.I2C_write16_reg 0x38 0xAC 0x3300] := by
  decide

/-- Claim C20, amended: a call of `updateMeasurements` entered in phase `AHTx_New_values` while
the driver's test `timeOutReached(last_measurement + TaskDeviceTimer * 1000)`, with the sum
taken in 32 bit unsigned arithmetic, fails returns false, performs no operation at all and
leaves the driver state unchanged; once the test succeeds the call sets `trigger_time` to the
current time, enters `AHTx_Trigger_measurement` and goes on to poll the status from there: it
returns false, keeps `last_measurement` and the cached values, and ends in
`AHTx_Wait_for_samples` after triggering a measurement when the status is ready, in
`AHTx_Trigger_measurement` when it is not. When `TaskDeviceTimer * 1000` and the milliseconds
passed since `last_measurement` are both below `2 ^ 31`, the test succeeds exactly when the
milliseconds passed are at least `TaskDeviceTimer * 1000`. -/
theorem C20_rearm_after_interval (TaskDeviceTimer : Nat) (e : Env) (bus : AHTx_Bus)
    (s : P105_data_struct) (hs : s.state = AHTx_state.AHTx_New_values) :
    (timeOutReached (add32 s.last_measurement (TaskDeviceTimer * 1000 % UINT32_MOD)) e = false →
      s.updateMeasurements TaskDeviceTimer e bus = (false, s, [])) ∧
    (timeOutReached (add32 s.last_measurement (TaskDeviceTimer * 1000 % UINT32_MOD)) e = true →
      s.updateMeasurements TaskDeviceTimer e bus =
        P105_data_struct.pollStatus e bus
          { s with trigger_time := millis e,
                   state := AHTx_state.AHTx_Trigger_measurement } ∧
      (bus.status.ready = true →
        s.updateMeasurements TaskDeviceTimer e bus =
          (false, { s with trigger_time := millis e,
                           state := AHTx_state.AHTx_Wait_for_samples },
            [DriverCall.I2C_read8 s.device.i2cAddress,
             DriverCall.I2C_write16_reg s.device.i2cAddress 0xAC 0x3300])) ∧
      (bus.status.ready = false →
        s.updateMeasurements TaskDeviceTimer e bus =
          (false, { s with trigger_time := millis e,
                           state := AHTx_state.AHTx_Trigger_measurement },
            [DriverCall.I2C_read8 s.device.i2cAddress]))) ∧
    (∀ elapsed : Nat, s.last_measurement < UINT32_MOD → e.now = s.last_measurement + elapsed →
      elapsed < 2147483648 → TaskDeviceTimer * 1000 < 2147483648 →
      timeOutReached (add32 s.last_measurement (TaskDeviceTimer * 1000 % UINT32_MOD)) e =
        decide (TaskDeviceTimer * 1000 ≤ elapsed)) := by
  rw [updateMeasurements_newValues _ _ _ _ hs]
  refine ⟨?_, ?_, ?_⟩
  · intro h
    rw [if_neg (by simp [h])]
  · intro h
    rw [if_pos h]
    refine ⟨rfl, ?_, ?_⟩
    · intro hr
      rw [pollStatus_trigger e bus _ hr rfl]
    · intro hr
      rw [pollStatus_early e bus _ hr (by
        show timePassedSince (millis e) e ≤ 1000
        rw [timePassedSince_self]; decide)]
  · intro elapsed hlt hnow hel hT
    have h := timeOutReached_elapsed s.last_measurement elapsed (TaskDeviceTimer * 1000) e hnow
      hel hT
    rw [Nat.mod_eq_of_lt hlt] at h
    exact h

/-- Claim C20, witness: with an interval of 60 s and `last_measurement = 4000`, a call at
5100 ms changes nothing, and a call at 64000 ms re-arms and triggers; there the test succeeds
exactly from 60000 ms after the measurement on. -/
theorem C20_rearm_after_interval_witness :
    (scenarioDriver AHTx_state.AHTx_New_values).state = AHTx_state.AHTx_New_values ∧
    timeOutReached (add32 (scenarioDriver AHTx_state.AHTx_New_values).last_measurement
      (60 * 1000 % UINT32_MOD)) (clockAt 64000) = decide (60 * 1000 ≤ 60000) ∧
    (scenarioDriver AHTx_state.AHTx_New_values).updateMeasurements 60 (clockAt 5100)
      scenarioBus = (false, scenarioDriver AHTx_state.AHTx_New_values, []) ∧
    (scenarioDriver AHTx_state.AHTx_New_values).updateMeasurements 60 (clockAt 64000)
      scenarioBus =
      (false,
       { scenarioDriver AHTx_state.AHTx_New_values with
         trigger_time := millis (clockAt 64000),
         state := AHTx_state.AHTx_Wait_for_samples },
       [DriverCall.I2C_read8 0x38, DriverCall.I2C_write16_reg 0x38 0xAC 0x3300]) :=
  ⟨by decide,
    (C20_rearm_after_interval 60 (clockAt 64000) scenarioBus
      (scenarioDriver AHTx_state.AHTx_New_values) (by decide)).2.2 60000 (by decide)
      (by decide) (by decide) (by decide),
    (C20_rearm_after_interval 60 (clockAt 5100) scenarioBus
      (scenarioDriver AHTx_state.AHTx_New_values) (by decide)).1 (by decide),
    ((C20_rearm_after_interval 60 (clockAt 64000) scenarioBus
      (scenarioDriver AHTx_state.AHTx_New_values) (by decide)).2.1 (by decide)).2.1
      (by decide)⟩

/-- Claim C22: in a call of `updateMeasurements` in which the phase is
`AHTx_Trigger_measurement` when the status is read (the call was entered in that phase, or in
`AHTx_New_values` with the interval reached) and the status byte is valid, calibrated and not
busy, the driver reads the status, issues the measurement-trigger command `0xAC 0x3300`, sets
`trigger_time` to the current time of the call, moves to `AHTx_Wait_for_samples` and returns
false, whatever the result of the trigger write and whatever `trigger_time` was; the status read
and the trigger write are the only calls made, so no payload is read. -/
theorem C22_trigger_step (TaskDeviceTimer : Nat) (e : Env) (bus : AHTx_Bus)
    (s : P105_data_struct)
    (hs : s.state = AHTx_state.AHTx_Trigger_measurement ∨
      (s.state = AHTx_state.AHTx_New_values ∧
        timeOutReached
          (add32 s.last_measurement (TaskDeviceTimer * 1000 % UINT32_MOD)) e = true))
    (hr : bus.I2C_read8 % 256 ≠ 0xFF ∧ bus.I2C_read8 % 256 &&& 8 ≠ 0 ∧
      bus.I2C_read8 % 256 &&& 128 = 0) :
    s.updateMeasurements TaskDeviceTimer e bus =
      (false,
       { s with trigger_time := millis e, state := AHTx_state.AHTx_Wait_for_samples },
       [DriverCall.I2C_read8 s.device.i2cAddress,
        DriverCall.I2C_write16_reg s.device.i2cAddress 0xAC 0x3300]) ∧
    (s.device.triggerMeasurement bus).2 =
      [DriverCall.I2C_write16_reg s.device.i2cAddress 0xAC 0x3300] := by
  have hr2 := (AHTx_Bus.status_ready_iff bus).mpr hr
  refine ⟨?_, rfl⟩
  rcases hs with hs | ⟨hs, ht⟩
  · rw [updateMeasurements_waiting _ _ _ _ (Or.inl hs), pollStatus_trigger e bus s hr2 hs]
  · rw [updateMeasurements_newValues _ _ _ _ hs, if_pos ht, pollStatus_trigger e bus _ hr2 rfl]

/-- Claim C22, witness: Scenario A, the poll in phase `AHTx_Trigger_measurement` with status
`0x18`, 1200 ms after `trigger_time` and on a bus on which the trigger write fails. -/
theorem C22_trigger_step_witness :
    writeFailBus.I2C_write = false ∧
    timePassedSince (scenarioDriver AHTx_state.AHTx_Trigger_measurement).trigger_time
      (clockAt 6200) = 1200 ∧
    (scenarioDriver AHTx_state.AHTx_Trigger_measurement).updateMeasurements 60 (clockAt 6200)
      writeFailBus =
      (false,
       { scenarioDriver AHTx_state.AHTx_Trigger_measurement with
         trigger_time := millis (clockAt 6200), state := AHTx_state.AHTx_Wait_for_samples },
       [DriverCall.I2C_read8 (scenarioDriver AHTx_state.AHTx_Trigger_measurement).device.i2cAddress,
        DriverCall.I2C_write16_reg
          (scenarioDriver AHTx_state.AHTx_Trigger_measurement).device.i2cAddress 0xAC 0x3300]) :=
  ⟨by decide, by decide,
    (C22_trigger_step 60 (clockAt 6200) writeFailBus
      (scenarioDriver AHTx_state.AHTx_Trigger_measurement) (Or.inl (by decide))
      (by decide)).1⟩

/-- Claim C23: in a call of `updateMeasurements` entered in phase `AHTx_Trigger_measurement` or
`AHTx_Wait_for_samples` in which the status byte is `0xFF`, has bit 3 clear or has bit 7 set,
and at most 1000 ms have passed since `trigger_time`, the call returns false, makes no call but
the status read (no trigger, no data read, no reset, no log line) and leaves the whole driver
state unchanged. -/
theorem C23_not_ready_stays (TaskDeviceTimer : Nat) (e : Env) (bus : AHTx_Bus)
    (s : P105_data_struct)
    (hs : s.state = AHTx_state.AHTx_Trigger_measurement ∨
      s.state = AHTx_state.AHTx_Wait_for_samples)
    (hr : bus.I2C_read8 % 256 = 0xFF ∨ bus.I2C_read8 % 256 &&& 8 = 0 ∨
      bus.I2C_read8 % 256 &&& 128 ≠ 0)
    (ht : timePassedSince s.trigger_time e ≤ 1000) :
    s.updateMeasurements TaskDeviceTimer e bus =
      (false, s, [DriverCall.I2C_read8 s.device.i2cAddress]) := by
  have hr2 : bus.status.ready = false := by
    cases h : bus.status.ready
    · rfl
    · obtain ⟨h1, h2, h3⟩ := (AHTx_Bus.status_ready_iff bus).mp h
      rcases hr with hr | hr | hr
      · exact absurd hr h1
      · exact absurd hr h2
      · exact absurd h3 hr
  rw [updateMeasurements_waiting _ _ _ _ hs, pollStatus_early e bus s hr2 ht]

/-- Claim C23, witness: Scenario B at exactly 1000 ms after `trigger_time`, the sensor busy. -/
theorem C23_not_ready_stays_witness :
    timePassedSince (scenarioDriver AHTx_state.AHTx_Wait_for_samples).trigger_time
      (clockAt 6000) = 1000 ∧
    busyBus.I2C_read8 % 256 &&& 128 ≠ 0 ∧
    (scenarioDriver AHTx_state.AHTx_Wait_for_samples).updateMeasurements 60 (clockAt 6000)
      busyBus =
      (false, scenarioDriver AHTx_state.AHTx_Wait_for_samples,
       [DriverCall.I2C_read8
         (scenarioDriver AHTx_state.AHTx_Wait_for_samples).device.i2cAddress]) :=
  ⟨by decide, by decide,
    C23_not_ready_stays 60 (clockAt 6000) busyBus
      (scenarioDriver AHTx_state.AHTx_Wait_for_samples) (Or.inr (by decide))
      (Or.inr (Or.inr (by decide))) (by decide)⟩

/-! ## Further claims on the streaming output channel -/

/-- Claim C24: in normal mode, with `b ≤ CHUNKED_BUFFER_SIZE` bytes buffered, `addString` of a
fragment of `L ≥ 1` bytes hands `ceil((b + L) / C) - 1` chunks to the transport and makes no
other call, every chunk has exactly `C = CHUNKED_BUFFER_SIZE` bytes, and the buffer is left with
`b + L - C * (ceil((b + L) / C) - 1)` bytes, which is at least 1 and at most `C`. -/
theorem C24_capacity_slices (p : Platform) (s : Web_StreamingBuffer)
    (hn : s.lowMemorySkip = false) (hb : s.buf.length ≤ CHUNKED_BUFFER_SIZE p)
    (a : List Byte) (ha : 1 ≤ a.length) :
    (addString p a s).out =
      s.out ++ (slices (CHUNKED_BUFFER_SIZE p) (s.buf ++ a)).map Event.sendContent ∧
    chunks (addString p a s) = chunks s ++ slices (CHUNKED_BUFFER_SIZE p) (s.buf ++ a) ∧
    (slices (CHUNKED_BUFFER_SIZE p) (s.buf ++ a)).length =
      (s.buf.length + a.length + CHUNKED_BUFFER_SIZE p - 1) / CHUNKED_BUFFER_SIZE p - 1 ∧
    (∀ c ∈ slices (CHUNKED_BUFFER_SIZE p) (s.buf ++ a), c.length = CHUNKED_BUFFER_SIZE p) ∧
    (addString p a s).buf.length =
      s.buf.length + a.length - CHUNKED_BUFFER_SIZE p *
        ((s.buf.length + a.length + CHUNKED_BUFFER_SIZE p - 1) / CHUNKED_BUFFER_SIZE p - 1) ∧
    1 ≤ (addString p a s).buf.length ∧
    (addString p a s).buf.length ≤ CHUNKED_BUFFER_SIZE p := by
  have hc := CHUNKED_BUFFER_SIZE_pos p
  have ha2 : a ≠ [] := by
    intro h; rw [h] at ha; simp at ha
  have hne : s.buf ++ a ≠ [] := by simp [ha2]
  obtain ⟨h1, h2⟩ := addString_spec p a s hn hb ha2
  have hcount : sliceCount (CHUNKED_BUFFER_SIZE p) (s.buf ++ a) =
      (s.buf.length + a.length + CHUNKED_BUFFER_SIZE p - 1) / CHUNKED_BUFFER_SIZE p - 1 := by
    unfold sliceCount
    rw [List.length_append]
    have e : s.buf.length + a.length + CHUNKED_BUFFER_SIZE p - 1 =
        (s.buf.length + a.length - 1) + CHUNKED_BUFFER_SIZE p := by omega
    rw [e, Nat.add_div_right _ hc]
    rfl
  have hlen : (sliceRest (CHUNKED_BUFFER_SIZE p) (s.buf ++ a)).length =
      s.buf.length + a.length - CHUNKED_BUFFER_SIZE p *
        sliceCount (CHUNKED_BUFFER_SIZE p) (s.buf ++ a) := by
    unfold sliceRest
    rw [List.length_drop, List.length_append, Nat.mul_comm]
  refine ⟨h1.out, h1.emitsChunks, ?_, slices_mem_length _ _, ?_, ?_, ?_⟩
  · rw [slices_length, hcount]
  · rw [h2, hlen, hcount]
  · rw [h2]; exact sliceRest_length_pos _ _ hne
  · rw [h2]; exact sliceRest_length_le _ _ hc

/-- Claim C24, witness: Scenario D, the third append of 200 bytes onto 400 buffered bytes sends
one chunk of 512 bytes and leaves 88 bytes. -/
theorem C24_capacity_slices_witness :
    scenarioD2.buf.length = 400 ∧
    (addString Platform.ESP8266 (List.replicate 200 65) scenarioD2).buf.length =
      400 + 200 - 512 * ((400 + 200 + 512 - 1) / 512 - 1) :=
  ⟨by decide,
    (C24_capacity_slices Platform.ESP8266 scenarioD2 (by decide) (by decide)
      (List.replicate 200 65) (by decide)).2.2.2.2.1⟩

/-- Claim C25, refuted as stated: with `sentBytes = 4294967295` and one byte buffered,
`sendContentBlocking` hands the chunk of one byte to the transport and returns with
`sentBytes = 0`: the counter has not grown by the length of the chunk. -/
theorem C25_sendContentBlocking_wraps_sentBytes :
    scenarioTop.sentBytes = 4294967295 ∧ scenarioTop.buf = [65] ∧
    (sendContentBlocking Platform.ESP8266 scenarioTop).out =
      scenarioTop.out ++ [Event.sendContent [65]] ∧
    (sendContentBlocking Platform.ESP8266 scenarioTop).sentBytes = 0 := by
  decide

/-- Claim C25, amended: the wait loop of `sendContentBlocking` runs another round only while
the time-out, 100 ms after the send, has not been reached; with the clock advancing in every
`delay(1)` the loop ends, whatever the free-heap readings and the results of `String::reserve`
are: the 101 rounds of fuel are never used up (more fuel changes nothing). On every path the
chunk is handed to the transport exactly once, no other call is recorded, and `sentBytes` grows
by the length of the chunk modulo `2 ^ 32`, which is the exact sum whenever that is below
`2 ^ 32`. -/
theorem C25_bounded_wait (p : Platform) (s : Web_StreamingBuffer) :
    (∀ (timeout : Nat) (e : Env), (sendContentWaitCond timeout e).1 = true →
      timeOutReached timeout (sendContentWaitCond timeout e).2 = false) ∧
    (∀ (t : Web_StreamingBuffer) (extra : Nat),
      sendContentWait (add32 (millis t.env) 100) (101 + extra) t =
        sendContentWait (add32 (millis t.env) 100) 101 t) ∧
    (sendContentBlocking p s).out = s.out ++ [Event.sendContent s.buf] ∧
    (sendContentBlocking p s).sentBytes = (s.sentBytes + s.buf.length) % UINT32_MOD ∧
    (s.sentBytes + s.buf.length < UINT32_MOD →
      (sendContentBlocking p s).sentBytes = s.sentBytes + s.buf.length) := by
  refine ⟨sendContentWaitCond_true, sendContentWait_enough, sendContentBlocking_out p s,
    sendContentBlocking_sentBytes p s, ?_⟩
  intro h
  rw [sendContentBlocking_sentBytes, Nat.mod_eq_of_lt h]

/-- Claim C25, witness: with every `String::reserve` refused the wait runs into its time-out;
the chunk of two bytes has been handed over once and `sentBytes` has grown by 2. -/
theorem C25_bounded_wait_witness :
    scenarioStarved.sentBytes + scenarioStarved.buf.length < UINT32_MOD ∧
    (sendContentBlocking Platform.ESP8266 scenarioStarved).out =
      scenarioStarved.out ++ [Event.sendContent [72, 105]] ∧
    (sendContentBlocking Platform.ESP8266 scenarioStarved).sentBytes =
      scenarioStarved.sentBytes + scenarioStarved.buf.length :=
  ⟨by decide,
    (C25_bounded_wait Platform.ESP8266 scenarioStarved).2.2.1,
    (C25_bounded_wait Platform.ESP8266 scenarioStarved).2.2.2.2 (by decide)⟩

/-- Claim C26: when the free heap `f` read is at most `initialRam`, `trackTotalMem` sets
`beforeTXRam = f` and `maxServerUsage = max (previous maxServerUsage) (initialRam - f)`, and
`trackCoreMem` sets `duringTXRam = f` and
`maxCoreUsage = max (previous maxCoreUsage) (initialRam - f)`; each leaves the other maximum
alone. Neither maximum is lowered by `trackTotalMem`, `trackCoreMem`, any sequence of appends
and flushes, or `endStream`, whatever the readings are. -/
theorem C26_high_water_tracking (p : Platform) (s : Web_StreamingBuffer)
    (hi : s.initialRam < UINT32_MOD) (hf : peekFreeHeap s.env ≤ s.initialRam) :
    (trackTotalMem s).beforeTXRam = peekFreeHeap s.env ∧
    (trackTotalMem s).maxServerUsage =
      max s.maxServerUsage (s.initialRam - peekFreeHeap s.env) ∧
    (trackTotalMem s).maxCoreUsage = s.maxCoreUsage ∧
    (trackCoreMem s).duringTXRam = peekFreeHeap s.env ∧
    (trackCoreMem s).maxCoreUsage =
      max s.maxCoreUsage (s.initialRam - peekFreeHeap s.env) ∧
    (trackCoreMem s).maxServerUsage = s.maxServerUsage ∧
    (∀ (t : Web_StreamingBuffer) (calls : List Call),
      t.maxCoreUsage ≤ (trackTotalMem t).maxCoreUsage ∧
      t.maxServerUsage ≤ (trackTotalMem t).maxServerUsage ∧
      t.maxCoreUsage ≤ (trackCoreMem t).maxCoreUsage ∧
      t.maxServerUsage ≤ (trackCoreMem t).maxServerUsage ∧
      t.maxCoreUsage ≤ (runCalls p calls t).maxCoreUsage ∧
      t.maxServerUsage ≤ (runCalls p calls t).maxServerUsage ∧
      t.maxCoreUsage ≤ (endStream p (runCalls p calls t)).maxCoreUsage ∧
      t.maxServerUsage ≤ (endStream p (runCalls p calls t)).maxServerUsage) := by
  have hsub := sub32_of_le s.initialRam (peekFreeHeap s.env) hi hf
  refine ⟨?_, ?_, ?_, ?_, ?_, ?_, ?_⟩
  · unfold trackTotalMem
    dsimp only
    split <;> rfl
  · unfold trackTotalMem
    dsimp only
    rw [hsub]
    split
    · rename_i h
      show s.initialRam - peekFreeHeap s.env = _
      rw [Nat.max_eq_right (Nat.le_of_lt h)]
    · rename_i h
      show s.maxServerUsage = _
      rw [Nat.max_eq_left (by omega)]
  · unfold trackTotalMem
    dsimp only
    split <;> rfl
  · unfold trackCoreMem
    dsimp only
    split <;> rfl
  · unfold trackCoreMem
    dsimp only
    rw [hsub]
    split
    · rename_i h
      show s.initialRam - peekFreeHeap s.env = _
      rw [Nat.max_eq_right (Nat.le_of_lt h)]
    · rename_i h
      show s.maxCoreUsage = _
      rw [Nat.max_eq_left (by omega)]
  · unfold trackCoreMem
    dsimp only
    split <;> rfl
  · intro t calls
    have h1 := trackTotalMem_grows t
    have h2 := trackCoreMem_grows t
    have h3 := runCalls_grows p calls t
    have h4 := Grows.growsTrans h3 (endStream_grows p (runCalls p calls t))
    exact ⟨h1.maxCoreUsage, h1.maxServerUsage, h2.maxCoreUsage, h2.maxServerUsage,
      h3.maxCoreUsage, h3.maxServerUsage, h4.maxCoreUsage, h4.maxServerUsage⟩

/-- Claim C26, witness: 20000 bytes were free at `startStream` and 15000 are free now; both
trackers record a usage of 5000. -/
theorem C26_high_water_tracking_witness :
    scenarioTracking.initialRam = 20000 ∧ peekFreeHeap scenarioTracking.env = 15000 ∧
    (trackTotalMem scenarioTracking).maxServerUsage =
      max scenarioTracking.maxServerUsage
        (scenarioTracking.initialRam - peekFreeHeap scenarioTracking.env) ∧
    (trackCoreMem scenarioTracking).maxCoreUsage =
      max scenarioTracking.maxCoreUsage
        (scenarioTracking.initialRam - peekFreeHeap scenarioTracking.env) ∧
    (trackCoreMem scenarioTracking).maxCoreUsage = 5000 :=
  ⟨by decide, by decide,
    (C26_high_water_tracking Platform.ESP8266 scenarioTracking (by decide) (by decide)).2.1,
    (C26_high_water_tracking Platform.ESP8266 scenarioTracking (by decide)
      (by decide)).2.2.2.2.1,
    by decide⟩

/-- Claim C27: in every state and mode, the chunks that a call of `operator+=(char)`,
`addString`, `addFlashString` or `flush` hands to the transport all have at least one byte, and
the call makes no other recorded call. In a normal-mode stream the chunks handed over from
`startStream` to the return of `endStream` are chunks of between 1 and `CHUNKED_BUFFER_SIZE`
bytes followed by exactly one empty chunk, which is the last. -/
theorem C27_no_premature_terminator (p : Platform) (allowOriginAll : Bool)
    (content_type origin : String) (httpCode : Int) (cacheable : Bool)
    (s : Web_StreamingBuffer) (calls : List Call)
    (hn : s.lowMemorySkip = false) (hf : 3000 ≤ peekFreeHeap s.env) :
    (∀ (t : Web_StreamingBuffer) (c : Call),
      ∃ cs : List (List Byte), (c.run p t).out = t.out ++ cs.map Event.sendContent ∧
        ∀ x ∈ cs, 1 ≤ x.length) ∧
    (∃ cs : List (List Byte), chunks (endStream p (runCalls p calls
        (startStream p allowOriginAll content_type origin httpCode cacheable s))) =
          chunks s ++ cs ++ [[]] ∧
      ∀ x ∈ cs, 1 ≤ x.length ∧ x.length ≤ CHUNKED_BUFFER_SIZE p) := by
  constructor
  · intro t c
    obtain ⟨cs, h1, h2, _⟩ := Call.run_chunk_bounds p c t
    exact ⟨cs, h1, h2⟩
  · have hs := startStream_normal p allowOriginAll content_type origin httpCode cacheable s hf
    have hl : (startStream p allowOriginAll content_type origin httpCode cacheable
        s).lowMemorySkip = false := by rw [hs]; exact hn
    have hb : (startStream p allowOriginAll content_type origin httpCode cacheable
        s).buf = [] := by rw [hs]
    have ho : chunks (startStream p allowOriginAll content_type origin httpCode cacheable s) =
        chunks s := by
      rw [hs]
      simp [chunks, chunksOf_append, chunksOf_startEvents, chunksOf_headerEvents]
    generalize startStream p allowOriginAll content_type origin httpCode cacheable s = s1
      at hl hb ho
    obtain ⟨cs, h1, h2, h3⟩ := runCalls_chunk_bounds p calls s1 (by rw [hb]; simp)
    have hl2 : (runCalls p calls s1).lowMemorySkip = false := by
      rw [runCalls_lowMemorySkip, hl]
    have hout := endStream_normal_out p (runCalls p calls s1) hl2
    refine ⟨cs ++ (if (runCalls p calls s1).buf = [] then [] else [(runCalls p calls s1).buf]),
      ?_, ?_⟩
    · unfold chunks at ho ⊢
      rw [hout, h1]
      by_cases hbe : (runCalls p calls s1).buf = []
      · simp [hbe, chunksOf_append, chunksOf_map_sendContent, chunksOf, ho]
      · simp [hbe, chunksOf_append, chunksOf_map_sendContent, chunksOf, ho]
    · intro x hx
      rcases List.mem_append.mp hx with h | h
      · exact h2 x h
      · by_cases hbe : (runCalls p calls s1).buf = []
        · simp [hbe] at h
        · simp [hbe] at h
          rw [h]
          exact ⟨List.length_pos.mpr hbe, h3⟩

/-- Claim C27, witness: a stream of 600 bytes, one byte and a flush on the ESP8266 hands over
the chunks of 512 and 89 bytes and then the empty chunk. -/
theorem C27_no_premature_terminator_witness :
    chunks (endStream Platform.ESP8266 (runCalls Platform.ESP8266
        [Call.string (List.replicate 600 65), Call.char 10, Call.flush]
        (startStream Platform.ESP8266 false "text/html" "" 200 false
          (Web_StreamingBuffer.new (scenarioEnv 20000))))) =
      [List.replicate 512 65, List.replicate 88 65 ++ [10], []] ∧
    (∀ (t : Web_StreamingBuffer) (c : Call),
      ∃ cs : List (List Byte),
        (c.run Platform.ESP8266 t).out = t.out ++ cs.map Event.sendContent ∧
        ∀ x ∈ cs, 1 ≤ x.length) :=
  ⟨by decide,
    (C27_no_premature_terminator Platform.ESP8266 false "text/html" "" 200 false
      (Web_StreamingBuffer.new (scenarioEnv 20000))
      [Call.string (List.replicate 600 65), Call.char 10, Call.flush]
      (by decide) (by decide)).1⟩

/-- Claim C28: from a state with `lowMemorySkip = true`, a `startStream` that samples a free
heap of 3000 or more sends the response headers and returns with `lowMemorySkip = true`; every
`addString` of that stream returns with the channel unchanged and every `addFlashString` with
only `flashStringCalls` raised; no sequence of appends and flushes makes a recorded call, and
the `endStream` that follows hands no chunk to the transport and returns with
`lowMemorySkip = false`. No append, no flush and no `startStream` sets the flag to false; the
constructor does. -/
theorem C28_low_memory_sticky (p : Platform) (allowOriginAll : Bool)
    (content_type origin : String) (httpCode : Int) (cacheable : Bool)
    (s : Web_StreamingBuffer) (hl : s.lowMemorySkip = true) (hf : 3000 ≤ peekFreeHeap s.env)
    (a : List Byte) (str : List Byte) (length : Int) (calls : List Call) :
    (startStream p allowOriginAll content_type origin httpCode cacheable s).out =
      s.out ++ (startEvents p ++ headerEvents p content_type origin httpCode cacheable) ∧
    Event.send httpCode content_type "" ∈
      headerEvents p content_type origin httpCode cacheable ∧
    (startStream p allowOriginAll content_type origin httpCode cacheable s).lowMemorySkip =
      true ∧
    addString p a (startStream p allowOriginAll content_type origin httpCode cacheable s) =
      startStream p allowOriginAll content_type origin httpCode cacheable s ∧
    addFlashString p (some str) length
        (startStream p allowOriginAll content_type origin httpCode cacheable s) =
      { startStream p allowOriginAll content_type origin httpCode cacheable s with
        flashStringCalls := add32
          (startStream p allowOriginAll content_type origin httpCode cacheable
            s).flashStringCalls 1 } ∧
    (runCalls p calls
      (startStream p allowOriginAll content_type origin httpCode cacheable s)).out =
      (startStream p allowOriginAll content_type origin httpCode cacheable s).out ∧
    (runCalls p calls
      (startStream p allowOriginAll content_type origin httpCode cacheable
        s)).lowMemorySkip = true ∧
    chunks (endStream p (runCalls p calls
      (startStream p allowOriginAll content_type origin httpCode cacheable s))) = chunks s ∧
    (endStream p (runCalls p calls
      (startStream p allowOriginAll content_type origin httpCode cacheable
        s))).lowMemorySkip = false ∧
    (∀ (t : Web_StreamingBuffer), t.lowMemorySkip = true →
      (∀ c : Call, (c.run p t).lowMemorySkip = true) ∧
      ∀ (o : Bool) (ct og : String) (code : Int) (ca : Bool),
        (startStream p o ct og code ca t).lowMemorySkip = true) ∧
    (∀ env : Env, (Web_StreamingBuffer.new env).lowMemorySkip = false) := by
  have hs := startStream_normal p allowOriginAll content_type origin httpCode cacheable s hf
  have h1 : (startStream p allowOriginAll content_type origin httpCode cacheable
      s).lowMemorySkip = true := by rw [hs]; exact hl
  have ho : (startStream p allowOriginAll content_type origin httpCode cacheable s).out =
      s.out ++ (startEvents p ++ headerEvents p content_type origin httpCode cacheable) := by
    rw [hs]
  refine ⟨ho, send_mem_headerEvents p content_type origin httpCode cacheable, h1, ?_, ?_, ?_,
    ?_, ?_, ?_, ?_, ?_⟩
  · exact addString_lowMemory p a _ h1
  · exact addFlashString_lowMemory p str length _ h1
  · exact (runCalls_lowMemory p calls _ h1).2.1
  · exact (runCalls_lowMemory p calls _ h1).1
  · obtain ⟨h2, h3, _⟩ := runCalls_lowMemory p calls _ h1
    rw [endStream_lowMemory p _ h2]
    show chunksOf ((runCalls p calls (startStream p allowOriginAll content_type origin httpCode
      cacheable s)).out ++ _) = chunksOf s.out
    rw [chunksOf_append, h3, ho, chunksOf_append, chunksOf_append, chunksOf_startEvents,
      chunksOf_headerEvents]
    split <;> simp [chunksOf]
  · exact endStream_lowMemorySkip p _
  · intro t ht
    refine ⟨fun c => (Call.run_lowMemory p c t ht).1, ?_⟩
    intro o ct og code ca
    by_cases hft : peekFreeHeap t.env < 3000
    · rw [startStream_low p _ _ _ _ _ t hft]
    · rw [startStream_normal p _ _ _ _ _ t (by omega)]
      exact ht
  · intro env
    rfl

/-- Claim C28, witness: a channel left in low-memory mode starts its next stream with 20000
bytes free; the ten appends of Scenario C are discarded. -/
theorem C28_low_memory_sticky_witness :
    scenarioSticky.lowMemorySkip = true ∧ peekFreeHeap scenarioSticky.env = 20000 ∧
    (startStream Platform.ESP8266 false "text/html" "" 200 false
      scenarioSticky).lowMemorySkip = true ∧
    chunks (endStream Platform.ESP8266 (runCalls Platform.ESP8266 tenAppends
      (startStream Platform.ESP8266 false "text/html" "" 200 false scenarioSticky))) =
      chunks scenarioSticky :=
  ⟨by decide, by decide,
    (C28_low_memory_sticky Platform.ESP8266 false "text/html" "" 200 false scenarioSticky
      (by decide) (by decide) [] [] 0 tenAppends).2.2.1,
    (C28_low_memory_sticky Platform.ESP8266 false "text/html" "" 200 false scenarioSticky
      (by decide) (by decide) [] [] 0 tenAppends).2.2.2.2.2.2.2.1⟩

/-- Claim C29, refuted as stated: with both flash counters at `4294967295`, a normal-mode
`addFlashString` of two bytes with explicit length 2 returns with `flashStringData = 1`, not
`4294967297`, and with `flashStringCalls = 0`. -/
theorem C29_flash_counters_wrap :
    scenarioFlashTop.lowMemorySkip = false ∧
    scenarioFlashTop.flashStringData = 4294967295 ∧
    scenarioFlashTop.flashStringCalls = 4294967295 ∧
    (addFlashString Platform.ESP8266 (some [72, 105]) 2 scenarioFlashTop).flashStringData = 1 ∧
    (addFlashString Platform.ESP8266 (some [72, 105]) 2 scenarioFlashTop).flashStringCalls =
      0 := by
  decide

/-- Claim C29, amended: in normal mode, for a non-null source and an explicit length `n ≥ 0`,
`addFlashString` appends exactly the `n` bytes read from the source (its first `n` bytes when
it has that many, NUL bytes included) and adds `n` to `flashStringData` modulo `2 ^ 32`; for a
negative length it appends exactly the bytes that precede the first NUL byte and adds their
count to `flashStringData` modulo `2 ^ 32`; a null source changes nothing at all; every
non-null call adds 1 to `flashStringCalls` modulo `2 ^ 32`, in either mode. -/
theorem C29_addFlashString_length (p : Platform) (s : Web_StreamingBuffer)
    (str : List Byte) (length : Int) (hd : s.flashStringData < UINT32_MOD) :
    (s.lowMemorySkip = false → 0 ≤ length →
      transmitted (addFlashString p (some str) length s) ++
          (addFlashString p (some str) length s).buf =
        transmitted s ++ s.buf ++ (List.range length.toNat).map (pgm_read_byte str) ∧
      (length.toNat ≤ str.length →
        (List.range length.toNat).map (pgm_read_byte str) = str.take length.toNat) ∧
      (addFlashString p (some str) length s).flashStringData =
        (s.flashStringData + length.toNat) % UINT32_MOD) ∧
    (s.lowMemorySkip = false → length < 0 →
      transmitted (addFlashString p (some str) length s) ++
          (addFlashString p (some str) length s).buf =
        transmitted s ++ s.buf ++ str.takeWhile (fun c => c != 0) ∧
      (addFlashString p (some str) length s).flashStringData =
        (s.flashStringData + (str.takeWhile (fun c => c != 0)).length) % UINT32_MOD) ∧
    addFlashString p none length s = s ∧
    (addFlashString p (some str) length s).flashStringCalls =
      (s.flashStringCalls + 1) % UINT32_MOD := by
  have hdata : s.lowMemorySkip = false →
      (addFlashString p (some str) length s).flashStringData =
        (s.flashStringData + (flashFragment str 0 length).length) % UINT32_MOD := by
    intro hn
    rw [(addFlashString_normal p str length s hn).2.2.2]
    split
    · rename_i h
      rw [h]
      simp [Nat.mod_eq_of_lt hd]
    · rfl
  refine ⟨?_, ?_, rfl, ?_⟩
  · intro hn hl
    have hlossless := Call.run_lossless p (Call.flashString (some str) length) s hn
    have hfrag := flashFragment_explicit str length hl
    refine ⟨?_, pgm_read_byte_take str length.toNat, ?_⟩
    · rw [← hfrag]; exact hlossless
    · rw [hdata hn, flashFragment_length str 0 length hl]
  · intro hn hl
    have hlossless := Call.run_lossless p (Call.flashString (some str) length) s hn
    have hfrag := flashFragment_negative str length hl
    refine ⟨?_, ?_⟩
    · rw [← hfrag]; exact hlossless
    · rw [hdata hn, hfrag]
  · cases hm : s.lowMemorySkip
    · rw [(addFlashString_normal p str length s hm).2.2.1]; rfl
    · rw [addFlashString_lowMemory p str length s hm]; rfl

/-- Claim C29, witness: Scenario C's flash string `01 00 02` with explicit length 3 is counted
with its NUL byte, below the wrap. -/
theorem C29_addFlashString_length_witness :
    (scenarioStart 20000).flashStringData < UINT32_MOD ∧
    (scenarioStart 20000).lowMemorySkip = false ∧
    (addFlashString Platform.ESP8266 (some [1, 0, 2]) 3 (scenarioStart 20000)).buf =
      [1, 0, 2] ∧
    (addFlashString Platform.ESP8266 (some [1, 0, 2]) 3 (scenarioStart 20000)).flashStringData =
      ((scenarioStart 20000).flashStringData + (3 : Int).toNat) % UINT32_MOD :=
  ⟨by decide, by decide, by decide,
    ((C29_addFlashString_length Platform.ESP8266 (scenarioStart 20000) [1, 0, 2] 3
      (by decide)).1 (by decide) (by decide)).2.2⟩

/-- Claim C30: in normal mode, for every non-empty byte string `a`, `addFlashString` with the
bytes of `a` as source and their number as explicit length returns the very state that
`addString a` returns, but for the two flash counters: `addString` leaves them as they were,
`addFlashString` adds 1 to `flashStringCalls` and the number of bytes to `flashStringData`
(modulo `2 ^ 32`). In particular both make the same recorded calls, hand the same chunks to the
transport, and leave the same buffer, `sentBytes` and surroundings. This holds for every
buffered length, in particular for every `buf.length ≤ CHUNKED_BUFFER_SIZE`. -/
theorem C30_addString_addFlashString_agree (p : Platform) (s : Web_StreamingBuffer)
    (hn : s.lowMemorySkip = false) (a : List Byte) (ha : a ≠ []) :
    addFlashString p (some a) (a.length : Int) s =
      { addString p a s with
        flashStringCalls := (s.flashStringCalls + 1) % UINT32_MOD,
        flashStringData := (s.flashStringData + a.length) % UINT32_MOD } ∧
    (addString p a s).flashStringCalls = s.flashStringCalls ∧
    (addString p a s).flashStringData = s.flashStringData ∧
    (addFlashString p (some a) (a.length : Int) s).out = (addString p a s).out ∧
    chunks (addFlashString p (some a) (a.length : Int) s) = chunks (addString p a s) ∧
    (addFlashString p (some a) (a.length : Int) s).buf = (addString p a s).buf ∧
    (addFlashString p (some a) (a.length : Int) s).sentBytes = (addString p a s).sentBytes ∧
    (addFlashString p (some a) (a.length : Int) s).env = (addString p a s).env := by
  have h := addFlashString_eq_addString p a s hn ha
  have hlen : 0 < a.length := List.length_pos.mpr ha
  rw [bump32_eq _ _ hlen] at h
  have hs := (addString_normal p a s hn ha).1
  refine ⟨h, hs.flashStringCalls, hs.flashStringData, ?_, ?_, ?_, ?_, ?_⟩
  · rw [h]; rfl
  · rw [h]; rfl
  · rw [h]; rfl
  · rw [h]; rfl
  · rw [h]; rfl

/-- Claim C30, witness: Scenario D, the third append of 200 bytes onto 400 buffered bytes,
made through `addFlashString`, sends the same chunk of 512 bytes and leaves the same 88
bytes. -/
theorem C30_addString_addFlashString_agree_witness :
    scenarioD2.lowMemorySkip = false ∧
    (addString Platform.ESP8266 (List.replicate 200 65) scenarioD2).buf.length = 88 ∧
    (addFlashString Platform.ESP8266 (some (List.replicate 200 65))
      ((List.replicate 200 (65 : Byte)).length : Int) scenarioD2).buf =
      (addString Platform.ESP8266 (List.replicate 200 65) scenarioD2).buf ∧
    chunks (addFlashString Platform.ESP8266 (some (List.replicate 200 65))
      ((List.replicate 200 (65 : Byte)).length : Int) scenarioD2) =
      chunks (addString Platform.ESP8266 (List.replicate 200 65) scenarioD2) :=
  ⟨by decide, by decide,
    (C30_addString_addFlashString_agree Platform.ESP8266 scenarioD2 (by decide)
      (List.replicate 200 65) (by decide)).2.2.2.2.2.1,
    (C30_addString_addFlashString_agree Platform.ESP8266 scenarioD2 (by decide)
      (List.replicate 200 65) (by decide)).2.2.2.2.1⟩

/-! ## Further claims on the AHTx driver -/

/-- Claim C31: in every sequence of consecutive calls of `updateMeasurements` on one driver,
whatever the state at the start, the task intervals, the times and the bus answers, no two
consecutive calls both return true; starting from phase `AHTx_Uninitialized` the first and the
second call return false. -/
theorem C31_never_back_to_back (inputs : List (Nat × Env × AHTx_Bus))
    (s : P105_data_struct) :
    List.Chain' (fun a b : Bool => ¬ (a = true ∧ b = true))
      (updateMeasurementsSeq inputs s).1 ∧
    (∀ (T1 T2 : Nat) (e1 e2 : Env) (bus1 bus2 : AHTx_Bus),
      (s.updateMeasurements T1 e1 bus1).1 = true →
      ((s.updateMeasurements T1 e1 bus1).2.1.updateMeasurements T2 e2 bus2).1 = false) ∧
    (s.state = AHTx_state.AHTx_Uninitialized →
      ∀ (T1 T2 : Nat) (e1 e2 : Env) (bus1 bus2 : AHTx_Bus),
        (s.updateMeasurements T1 e1 bus1).1 = false ∧
        ((s.updateMeasurements T1 e1 bus1).2.1.updateMeasurements T2 e2 bus2).1 = false) ∧
    (s.state = AHTx_state.AHTx_Uninitialized →
      (updateMeasurementsSeq inputs s).1.getD 0 false = false ∧
      (updateMeasurementsSeq inputs s).1.getD 1 false = false) := by
  have h2 : ∀ (T1 T2 : Nat) (e1 e2 : Env) (bus1 bus2 : AHTx_Bus),
      (s.updateMeasurements T1 e1 bus1).1 = true →
      ((s.updateMeasurements T1 e1 bus1).2.1.updateMeasurements T2 e2 bus2).1 = false := by
    intro T1 T2 e1 e2 bus1 bus2 h
    exact updateMeasurements_false_of_ne _ _ _ _
      (by rw [(updateMeasurements_true _ _ _ _ h).2]; simp)
  have h3 : s.state = AHTx_state.AHTx_Uninitialized →
      ∀ (T1 T2 : Nat) (e1 e2 : Env) (bus1 bus2 : AHTx_Bus),
        (s.updateMeasurements T1 e1 bus1).1 = false ∧
        ((s.updateMeasurements T1 e1 bus1).2.1.updateMeasurements T2 e2 bus2).1 = false := by
    intro hs T1 T2 e1 e2 bus1 bus2
    exact ⟨updateMeasurements_false_of_ne _ _ _ _ (by rw [hs]; simp),
      updateMeasurements_false_of_ne _ _ _ _
        (updateMeasurements_uninitialized_state _ _ _ _ hs)⟩
  refine ⟨updateMeasurementsSeq_chain inputs s, h2, h3, ?_⟩
  intro hs
  cases inputs with
  | nil => simp [updateMeasurementsSeq]
  | cons x rest =>
    obtain ⟨T, e, bus⟩ := x
    cases rest with
    | nil =>
      simp only [updateMeasurementsSeq, List.getD_cons_zero, List.getD_cons_succ,
        List.getD_nil, and_true]
      exact (h3 hs T T e e bus bus).1
    | cons x2 rest2 =>
      obtain ⟨T2, e2, bus2⟩ := x2
      simp only [updateMeasurementsSeq, List.getD_cons_zero, List.getD_cons_succ]
      exact h3 hs T T2 e e2 bus bus2

/-- Claim C31, witness: Scenario A from a freshly constructed driver: bring-up, trigger, read
and one more call return false, false, true, false. -/
theorem C31_never_back_to_back_witness :
    (updateMeasurementsSeq scenarioCycle
      (P105_data_struct.new 0x38 AHTx_device_type.AHT20_DEVICE false)).1 =
      [false, false, true, false] ∧
    List.Chain' (fun a b : Bool => ¬ (a = true ∧ b = true))
      (updateMeasurementsSeq scenarioCycle
        (P105_data_struct.new 0x38 AHTx_device_type.AHT20_DEVICE false)).1 :=
  ⟨by decide,
    (C31_never_back_to_back scenarioCycle
      (P105_data_struct.new 0x38 AHTx_device_type.AHT20_DEVICE false)).1⟩

/-- Claim C32: for every 6-byte payload `d`, the raw humidity field `H` and the raw temperature
field `T` that `readData` extracts are below `2 ^ 20` and satisfy
`H * 2 ^ 20 + T = d[1] * 2 ^ 32 + d[2] * 2 ^ 24 + d[3] * 2 ^ 16 + d[4] * 2 ^ 8 + d[5]`; two
payloads with the same `H` and `T` have the same bytes 1 to 5. These `H` and `T` are the
numbers that `readData` converts into the cached values. -/
theorem C32_fields_partition (d : AHTx_Device) (bus bus2 : AHTx_Bus) :
    bus.rawHumidity < 2 ^ 20 ∧ bus.rawTemperature < 2 ^ 20 ∧
    bus.rawHumidity * 2 ^ 20 + bus.rawTemperature =
      bus.data 1 * 2 ^ 32 + bus.data 2 * 2 ^ 24 + bus.data 3 * 2 ^ 16 + bus.data 4 * 2 ^ 8 +
        bus.data 5 ∧
    (bus.rawHumidity = bus2.rawHumidity → bus.rawTemperature = bus2.rawTemperature →
      bus.data 1 = bus2.data 1 ∧ bus.data 2 = bus2.data 2 ∧ bus.data 3 = bus2.data 3 ∧
      bus.data 4 = bus2.data 4 ∧ bus.data 5 = bus2.data 5) ∧
    ((d.readData bus).1 = true →
      (d.readData bus).2.1.last_hum_val =
        Float32.round ((bus.rawHumidity : Rat) / 1048576 * 100) ∧
      (d.readData bus).2.1.last_temp_val =
        Float32.round (Float32.round ((bus.rawTemperature : Rat) / 1048576 * 200) - 50)) := by
  have key : ∀ b : AHTx_Bus,
      b.rawHumidity * 2 ^ 20 + b.rawTemperature =
        b.data 1 * 2 ^ 32 + b.data 2 * 2 ^ 24 + b.data 3 * 2 ^ 16 + b.data 4 * 2 ^ 8 +
          b.data 5 := by
    intro b
    rw [AHTx_Bus.rawHumidity_eq, AHTx_Bus.rawTemperature_eq, shiftRight_four, and_fifteen]
    omega
  refine ⟨bus.rawHumidity_lt, bus.rawTemperature_lt, key bus, ?_, ?_⟩
  · intro hH hT
    have k1 := key bus
    have k2 := key bus2
    rw [hH, hT, k2] at k1
    have a1 := bus.data_lt 1
    have a2 := bus.data_lt 2
    have a3 := bus.data_lt 3
    have a4 := bus.data_lt 4
    have a5 := bus.data_lt 5
    have b1 := bus2.data_lt 1
    have b2 := bus2.data_lt 2
    have b3 := bus2.data_lt 3
    have b4 := bus2.data_lt 4
    have b5 := bus2.data_lt 5
    omega
  · intro h
    obtain ⟨h1, h2, h3⟩ := (AHTx_Device.readData_true_iff d bus).mp h
    rw [AHTx_Device.readData_accept d bus h1 h2 h3]
    exact ⟨rfl, rfl⟩

/-- Claim C32, witness: the payload `18 73 C9 F5 BD D9` has `H = 0x73C9F` and `T = 0x5BDD9`. -/
theorem C32_fields_partition_witness :
    scenarioBus.rawHumidity = 0x73C9F ∧ scenarioBus.rawTemperature = 0x5BDD9 ∧
    scenarioBus.rawHumidity * 2 ^ 20 + scenarioBus.rawTemperature =
      scenarioBus.data 1 * 2 ^ 32 + scenarioBus.data 2 * 2 ^ 24 + scenarioBus.data 3 * 2 ^ 16 +
        scenarioBus.data 4 * 2 ^ 8 + scenarioBus.data 5 :=
  ⟨by decide, by decide,
    (C32_fields_partition (AHTx_Device.new 0x38 AHTx_device_type.AHT20_DEVICE false)
      scenarioBus scenarioBus).2.2.1⟩

/-- Claim C33: for every delivered payload whose status byte is not `0xFF` and has bit 3 set,
`readData` returns true and overwrites the cached values, also when bit 7 (busy) of that status
byte is set. The busy bit is tested on the status register that `updateMeasurements` reads
first: when that byte has bit 7 set, a call entered in `AHTx_Trigger_measurement` or
`AHTx_Wait_for_samples` returns false and leaves the cached values alone, whatever the payload
is. In that test `valid()` is implied: a status that is not busy is valid, so ready is the same
as calibrated and not busy. -/
theorem C33_busy_bit_not_in_readData (TaskDeviceTimer : Nat) (e : Env) (d : AHTx_Device)
    (bus : AHTx_Bus) (hreq : bus.requestFrom ≠ 0) (hvalid : bus.data 0 ≠ 0xFF)
    (hcal : bus.data 0 &&& (1 <<< 3) ≠ 0) :
    (d.readData bus).1 = true ∧
    (d.readData bus).2.1.last_hum_val =
      Float32.round ((bus.rawHumidity : Rat) / 1048576 * 100) ∧
    (d.readData bus).2.1.last_temp_val =
      Float32.round (Float32.round ((bus.rawTemperature : Rat) / 1048576 * 200) - 50) ∧
    (∀ (s : P105_data_struct) (bus2 : AHTx_Bus), bus2.status.busy = true →
      (s.state = AHTx_state.AHTx_Trigger_measurement ∨
        s.state = AHTx_state.AHTx_Wait_for_samples) →
      (s.updateMeasurements TaskDeviceTimer e bus2).1 = false ∧
      (s.updateMeasurements TaskDeviceTimer e bus2).2.1.device = s.device ∧
      ∀ c ∈ (s.updateMeasurements TaskDeviceTimer e bus2).2.2,
        c ≠ DriverCall.requestFrom s.device.i2cAddress 6 ∧ c ≠ DriverCall.read) ∧
    (∀ st : AHTx_Status, st.busy = false → st.valid = true) ∧
    (∀ st : AHTx_Status, st.ready = (st.calibrated && !st.busy)) := by
  have h2 := (AHTx_Bus.payloadStatus_valid bus).mpr hvalid
  have h3 := (AHTx_Bus.payloadStatus_calibrated bus).mpr hcal
  rw [AHTx_Device.readData_accept d bus hreq h2 h3]
  refine ⟨rfl, rfl, rfl, ?_, AHTx_Status.valid_of_not_busy, ?_⟩
  · intro s bus2 hb hs
    have hr : bus2.status.ready = false := by
      unfold AHTx_Status.ready
      rw [hb]
      simp
    rw [updateMeasurements_waiting _ _ _ _ hs]
    by_cases ht : 1000 < timePassedSince s.trigger_time e
    · rw [pollStatus_late e bus2 s hr ht]
      refine ⟨rfl, rfl, ?_⟩
      intro c hc
      simp at hc
      rcases hc with hc | hc | hc <;> subst hc <;> simp
    · rw [pollStatus_early e bus2 s hr (by omega)]
      refine ⟨rfl, rfl, ?_⟩
      intro c hc
      simp at hc
      subst hc
      simp
  · intro st
    cases hb : st.busy
    · unfold AHTx_Status.ready
      rw [AHTx_Status.valid_of_not_busy st hb, hb]
      simp
    · unfold AHTx_Status.ready
      rw [hb]
      simp

/-- Claim C33, witness: a payload whose status byte is `0x98` (calibrated, busy bit set) is
accepted by `readData`. -/
theorem C33_busy_bit_not_in_readData_witness :
    busyPayloadBus.data 0 &&& (1 <<< 7) ≠ 0 ∧
    ((AHTx_Device.new 0x38 AHTx_device_type.AHT20_DEVICE false).readData busyPayloadBus).1 =
      true ∧
    ((scenarioDriver AHTx_state.AHTx_Wait_for_samples).updateMeasurements 60 (clockAt 5100)
      busyPayloadBus).1 = true :=
  ⟨by decide,
    (C33_busy_bit_not_in_readData 60 (clockAt 5100)
      (AHTx_Device.new 0x38 AHTx_device_type.AHT20_DEVICE false) busyPayloadBus
      (by decide) (by decide) (by decide)).1,
    by decide⟩

end ESPEasy
